import Mathlib

/-!
# Food-court order backend: order intake and status engine

A shallow embedding of `internal/handlers/order.go`, `internal/handlers/menu.go`
and the row types of `internal/models`, followed by theorems about queue-number
allocation, order creation, status updates and the active queue.

Conventions of the embedding

* The relational store is a record of tables (lists of rows).  `First(&x, id)`
  is a lookup of the first row with that primary key whose `deleted_at` is null.
* `float64` amounts are IEEE 754 binary64 values (`Float64`): the conversion of an
  integer, the product and the sum each round to the nearest value, ties to even.
  The product is not fused with the sum that follows it, as in a build for amd64.
  A column keeps the `float64` written to it.  `uint`/`int` are `Nat`/`Int`.
* `time.Now()` is an input: every clock read of a handler is a separate argument.
* A gin handler is a function from the store and the request to the new store
  and the JSON response (status code plus payload); a handler that only reads
  returns the response alone.
-/

namespace FoodCourt

/-! ## Time and formatting -/

/-- A `time.Time`, kept as the civil date plus the nanoseconds elapsed since midnight. -/
structure Time where
  year : Nat
  month : Nat
  day : Nat
  nanos : Nat
  deriving DecidableEq, Repr

/-- Left-pads `s` with the character `0` up to width `w` (the `0` flag of a `fmt` verb). -/
def zeroPad (w : Nat) (s : String) : String :=
  String.mk (List.replicate (w - s.length) '0') ++ s

/-- The verb `%d` applied to an unsigned value. -/
def fmtD (n : Nat) : String := Nat.repr n

/-- The verb `%03d` applied to a non-negative value. -/
def fmt03d (n : Nat) : String := zeroPad 3 (Nat.repr n)

/-- The layout `20060102` of `time.Time.Format`: four-digit year, two-digit month and day. -/
def Time.Format20060102 (t : Time) : String :=
  zeroPad 4 (Nat.repr t.year) ++ zeroPad 2 (Nat.repr t.month) ++ zeroPad 2 (Nat.repr t.day)

/-- The layout `2006-01-02` of `time.Time.Format`. -/
def Time.Format2006_01_02 (t : Time) : String :=
  zeroPad 4 (Nat.repr t.year) ++ "-" ++ zeroPad 2 (Nat.repr t.month) ++ "-" ++
    zeroPad 2 (Nat.repr t.day)

/-! ## `float64` arithmetic -/

/-- The number of binary digits of `n`, found by shifting `n` right by 32, 8 or 1
places, at most `fuel` times. -/
def bitLengthAux : Nat → Nat → Nat
  | 0, _ => 0
  | fuel + 1, n =>
    if n = 0 then 0
    else if 2 ^ 32 ≤ n then bitLengthAux fuel (n / 2 ^ 32) + 32
    else if 2 ^ 8 ≤ n then bitLengthAux fuel (n / 2 ^ 8) + 8
    else bitLengthAux fuel (n / 2) + 1

/-- The number of binary digits of `n` (`bits.Len`): `0` for `0`, else the `k` with
`2 ^ (k - 1) ≤ n < 2 ^ k`. -/
def bitLength (n : Nat) : Nat := bitLengthAux n n

/-- A `float64`, an IEEE 754 binary64 value.  A finite value is
`(-1) ^ neg * m * 2 ^ e`, and the operations below return it in the normal form of
the format: `m < 2 ^ 53`, `-1074 ≤ e ≤ 971`, and `2 ^ 52 ≤ m` unless `e = -1074`
(zero and the subnormal numbers).  The zero of either sign is `m = 0`, `e = -1074`.
All NaNs are one value. -/
inductive Float64 where
  | finite (neg : Bool) (m : Nat) (e : Int)
  | inf (neg : Bool)
  | nan
  deriving DecidableEq, Repr

/-- The `float64` nearest to `(-1) ^ neg * m * 2 ^ e`, ties going to the even
significand: the rounding that ends every `float64` operation.  `e1` is the
exponent of the last place kept; a magnitude of `2 ^ 1024` or more after rounding
is an infinity. -/
def Float64.round (neg : Bool) (m : Nat) (e : Int) : Float64 :=
  if m = 0 then .finite neg 0 (-1074)
  else
    let e1 : Int := max (e + (bitLength m : Int) - 53) (-1074)
    if e1 ≤ e then
      if 971 < e1 then .inf neg else .finite neg (m * 2 ^ (e - e1).toNat) e1
    else
      let sh := (e1 - e).toNat
      let q := m / 2 ^ sh
      let r := m % 2 ^ sh
      let half := 2 ^ (sh - 1)
      let q1 := if r < half then q else if half < r then q + 1
        else if q % 2 = 0 then q else q + 1
      let e2 : Int := if q1 = 2 ^ 53 then e1 + 1 else e1
      let m2 : Nat := if q1 = 2 ^ 53 then 2 ^ 52 else q1
      if 971 < e2 then .inf neg else .finite neg m2 e2

/-- The integer `(-1) ^ neg * m`. -/
def signed (neg : Bool) (m : Nat) : Int := if neg then -(m : Int) else (m : Int)

/-- The exponent at which two finite operands are lined up: the smaller of the
two, where a zero operand has no say. -/
def alignExp (m : Nat) (e : Int) (n : Nat) (f : Int) : Int :=
  if m = 0 then f else if n = 0 then e else min e f

/-- The conversion `float64(i)` of an integer. -/
def Float64.ofInt (i : Int) : Float64 := Float64.round (decide (i < 0)) i.natAbs 0

/-- The `float64` of a non-negative integer constant. -/
def Float64.ofNat (n : Nat) : Float64 := Float64.round false n 0

instance (n : Nat) : OfNat Float64 n := ⟨Float64.ofNat n⟩

/-- The product `x * y` of two `float64` values. -/
def Float64.mul : Float64 → Float64 → Float64
  | .nan, _ => .nan
  | _, .nan => .nan
  | .inf s, .inf t => .inf (xor s t)
  | .inf s, .finite t n _ => if n = 0 then .nan else .inf (xor s t)
  | .finite s m _, .inf t => if m = 0 then .nan else .inf (xor s t)
  | .finite s m e, .finite t n f => Float64.round (xor s t) (m * n) (e + f)

/-- The sum `x + y` of two `float64` values.  A sum that is exactly zero is `+0`,
unless both operands are `-0`. -/
def Float64.add : Float64 → Float64 → Float64
  | .nan, _ => .nan
  | _, .nan => .nan
  | .inf s, .inf t => if s = t then .inf s else .nan
  | .inf s, .finite _ _ _ => .inf s
  | .finite _ _ _, .inf t => .inf t
  | .finite s m e, .finite t n f =>
    let g := alignExp m e n f
    let c := signed s (m * 2 ^ (e - g).toNat) + signed t (n * 2 ^ (f - g).toNat)
    if c = 0 then .finite (s && t) 0 (-1074)
    else Float64.round (decide (c < 0)) c.natAbs g

/-- The comparison `x < y` of two `float64` values; it is false when either is NaN. -/
def Float64.lt : Float64 → Float64 → Bool
  | .nan, _ => false
  | _, .nan => false
  | .inf s, .inf t => s && !t
  | .inf s, .finite _ _ _ => s
  | .finite _ _ _, .inf t => !t
  | .finite s m e, .finite t n f =>
    let g := alignExp m e n f
    decide (signed s (m * 2 ^ (e - g).toNat) < signed t (n * 2 ^ (f - g).toNat))

/-- The number a finite `float64` stands for; `none` for an infinity and for NaN. -/
def Float64.toRat? : Float64 → Option ℚ
  | .finite neg m e => some ((signed neg m : ℚ) * (2 : ℚ) ^ e)
  | _ => none

/-- The normal form of a finite `float64`: the significand has at most 53 binary
digits, the exponent is in range, and the significand has exactly 53 digits unless
the exponent is the least one. -/
def Float64.Canonical (m : Nat) (e : Int) : Prop :=
  m < 2 ^ 53 ∧ -1074 ≤ e ∧ e ≤ 971 ∧ (2 ^ 52 ≤ m ∨ e = -1074)

/-! ## Row types (`internal/models`) -/

abbrev OrderStatus := String

def StatusPending : OrderStatus := "pending"
def StatusPaid : OrderStatus := "paid"
def StatusPreparing : OrderStatus := "preparing"
def StatusReady : OrderStatus := "ready"
def StatusCompleted : OrderStatus := "completed"
def StatusCancelled : OrderStatus := "cancelled"

abbrev PaymentMethod := String

def PaymentCash : PaymentMethod := "cash"
def PaymentCard : PaymentMethod := "card"
def PaymentDigital : PaymentMethod := "digital"

abbrev MenuCategory := String

/-- Columns of `models.User`. -/
structure User where
  ID : Nat
  Username : String
  Email : String
  Password : String
  FullName : String
  Role : String
  IsActive : Bool
  KiosID : Option Nat
  CreatedAt : Time
  UpdatedAt : Time
  DeletedAt : Option Time
  deriving DecidableEq, Repr

/-- Columns of `models.Kios`. -/
structure Kios where
  ID : Nat
  Name : String
  Description : String
  Location : String
  IsActive : Bool
  CreatedAt : Time
  UpdatedAt : Time
  DeletedAt : Option Time
  deriving DecidableEq, Repr

/-- Columns of `models.Menu`. -/
structure Menu where
  ID : Nat
  KiosID : Nat
  Name : String
  Description : String
  Price : Float64
  Category : MenuCategory
  ImageURL : String
  IsAvailable : Bool
  CreatedAt : Time
  UpdatedAt : Time
  DeletedAt : Option Time
  deriving DecidableEq, Repr

/-- Columns of `models.Order`. -/
structure Order where
  ID : Nat
  QueueNumber : String
  KiosID : Nat
  CustomerName : String
  Status : OrderStatus
  TotalAmount : Float64
  PaymentMethod : Option PaymentMethod
  PaidAt : Option Time
  PreparedAt : Option Time
  ReadyAt : Option Time
  CompletedAt : Option Time
  Notes : String
  CreatedBy : Nat
  CreatedAt : Time
  UpdatedAt : Time
  DeletedAt : Option Time
  deriving DecidableEq, Repr

/-- Columns of `models.OrderItem`. -/
structure OrderItem where
  ID : Nat
  OrderID : Nat
  MenuID : Nat
  Quantity : Int
  Price : Float64
  Subtotal : Float64
  Notes : String
  deriving DecidableEq, Repr

/-! ## The store -/

/-- The tables the handlers read and write, with the two id sequences that
`tx.Create` draws from. -/
structure Store where
  users : List User
  kioses : List Kios
  menus : List Menu
  orders : List Order
  order_items : List OrderItem
  orders_id_seq : Nat
  order_items_id_seq : Nat
  deriving DecidableEq, Repr

/-- The query `db.First(&kios, id)`: the live row with that primary key. -/
def Store.firstKios (st : Store) (id : Nat) : Option Kios :=
  st.kioses.find? (fun k => decide (k.ID = id) && k.DeletedAt.isNone)

/-- The query `db.First(&menu, id)`. -/
def Store.firstMenu (st : Store) (id : Nat) : Option Menu :=
  st.menus.find? (fun m => decide (m.ID = id) && m.DeletedAt.isNone)

/-- The query `db.First(&order, id)`. -/
def Store.firstOrder (st : Store) (id : Nat) : Option Order :=
  st.orders.find? (fun o => decide (o.ID = id) && o.DeletedAt.isNone)

/-- The query `db.First(&user, id)`. -/
def Store.firstUser (st : Store) (id : Nat) : Option User :=
  st.users.find? (fun u => decide (u.ID = id) && u.DeletedAt.isNone)

/-- The condition `DATE(created_at) = ?` with the argument produced by `Format("2006-01-02")`. -/
def Time.sameDate (created now : Time) : Bool :=
  created.Format2006_01_02 == now.Format2006_01_02

/-- The count query of `generateQueueNumber`:
`Model(&Order{}).Where("kios_id = ? AND DATE(created_at) = ?", ...).Count(&count)`. -/
def Store.countOrdersOn (st : Store) (kiosID : Nat) (now : Time) : Nat :=
  (st.orders.filter (fun o =>
    decide (o.KiosID = kiosID) && Time.sameDate o.CreatedAt now && o.DeletedAt.isNone)).length

/-! ## Responses -/

/-- What a handler hands to `c.JSON`: the status code and either the `data`
payload or the `error` text (the `message` and `details` entries are not kept). -/
inductive Response (α : Type) where
  | data (code : Nat) (payload : α)
  | error (code : Nat) (msg : String)
  deriving DecidableEq, Repr

/-- The status code of a response. -/
def Response.code {α : Type} : Response α → Nat
  | .data c _ => c
  | .error c _ => c

def StatusOK : Nat := 200
def StatusCreated : Nat := 201
def StatusBadRequest : Nat := 400
def StatusNotFound : Nat := 404
def StatusInternalServerError : Nat := 500

/-! ## Queue numbers (`OrderHandler.generateQueueNumber`) -/

/-- The call `fmt.Sprintf("K%d-%s-%03d", kiosID, today, count+1)`. -/
def queueNumberFormat (kiosID : Nat) (today : String) (count : Nat) : String :=
  "K" ++ fmtD kiosID ++ "-" ++ today ++ "-" ++ fmt03d (count + 1)

/-- The body of `generateQueueNumber` given the outcome of its count query
(`none`: the query failed).  The result of `Count(&count)` is discarded, so after a
failed query `count` still holds its initial `0`.  The second component is the
returned `error`, which is always `nil`. -/
def OrderHandler.generateQueueNumberFrom (kiosID : Nat) (tFormat : Time)
    (countQuery : Option Nat) : String × Option String :=
  let today := tFormat.Format20060102
  let count := match countQuery with
    | some n => n
    | none => 0
  (queueNumberFormat kiosID today count, none)

/-- The method `generateQueueNumber` over a store that answers the count query: `tFormat` is
the clock read that is formatted into the ticket, `tQuery` the one whose date is
passed to the count query. -/
def OrderHandler.generateQueueNumber (st : Store) (kiosID : Nat) (tFormat tQuery : Time) :
    String × Option String :=
  OrderHandler.generateQueueNumberFrom kiosID tFormat (some (st.countOrdersOn kiosID tQuery))

/-! ## Requests and binding (`ShouldBindJSON`) -/

/-- The struct `models.CreateOrderItemRequest` as decoded from JSON. -/
structure CreateOrderItemRequest where
  MenuID : Nat
  Quantity : Int
  Notes : String
  deriving DecidableEq, Repr

/-- The struct `models.CreateOrderRequest` as decoded from JSON. -/
structure CreateOrderRequest where
  KiosID : Nat
  CustomerName : String
  Notes : String
  Items : List CreateOrderItemRequest
  deriving DecidableEq, Repr

/-- The struct `models.UpdateOrderStatusRequest` as decoded from JSON; an absent or null
`payment_method` is `none`. -/
structure UpdateOrderStatusRequest where
  Status : OrderStatus
  PaymentMethod : Option PaymentMethod
  deriving DecidableEq, Repr

/-- The struct `models.UpdateMenuRequest` as decoded from JSON. -/
structure UpdateMenuRequest where
  Name : String
  Description : String
  Price : Option Float64
  Category : MenuCategory
  ImageURL : String
  IsAvailable : Option Bool
  deriving DecidableEq, Repr

/-- The `binding` tags of `CreateOrderRequest`: `max=100` on the customer name,
`max=500` on the notes, `required,min=1` on the items.  The tags on the fields of
`CreateOrderItemRequest` belong to the slice elements, and `Items` carries no
`dive`, so the validator does not visit them. -/
def CreateOrderRequest.valid (r : CreateOrderRequest) : Bool :=
  decide (r.CustomerName.length ≤ 100) && decide (r.Notes.length ≤ 500) &&
    decide (1 ≤ r.Items.length)

/-- The `binding` tags of `UpdateOrderStatusRequest`: `required,oneof=...` on the
status, `omitempty,oneof=cash card digital` on the payment method. -/
def UpdateOrderStatusRequest.valid (r : UpdateOrderStatusRequest) : Bool :=
  decide (r.Status ≠ "") &&
    decide (r.Status ∈ [StatusPending, StatusPaid, StatusPreparing, StatusReady,
      StatusCompleted, StatusCancelled]) &&
    (match r.PaymentMethod with
     | none => true
     | some m => decide (m ∈ [PaymentCash, PaymentCard, PaymentDigital]))

/-- The `binding` tags of `UpdateMenuRequest`; `isURL` is the validator behind the
tag `url`. -/
def UpdateMenuRequest.valid (isURL : String → Bool) (r : UpdateMenuRequest) : Bool :=
  (r.Name == "" || (decide (2 ≤ r.Name.length) && decide (r.Name.length ≤ 100))) &&
    (r.Description == "" || decide (r.Description.length ≤ 500)) &&
    (match r.Price with
     | none => true
     | some p => Float64.lt 0 p) &&
    (r.Category == "" || decide (r.Category ∈ ["food", "drink", "snack", "dessert"])) &&
    (r.ImageURL == "" || isURL r.ImageURL)

/-- The call `c.ShouldBindJSON(&req)`: `body` is the decoded value (`none` when the body is
not JSON of the expected shape); the result is `none` when binding returns an error. -/
def ShouldBindJSON {α : Type} (valid : α → Bool) (body : Option α) : Option α :=
  match body with
  | none => none
  | some r => if valid r then some r else none

/-! ## Writes -/

/-- The call `tx.Create(&order)`: draws the id from the sequence, stamps `created_at` and
`updated_at`, and inserts unless the primary key or the unique index on
`queue_number` is violated.  The sequence value is consumed either way. -/
def Store.createOrder (st : Store) (o : Order) (now : Time) : Store × Option Order :=
  let id := st.orders_id_seq + 1
  let st1 := { st with orders_id_seq := id }
  let row := { o with ID := id, CreatedAt := now, UpdatedAt := now }
  if st.orders.any (fun x => decide (x.ID = id) || x.QueueNumber == row.QueueNumber) then
    (st1, none)
  else
    ({ st1 with orders := st.orders ++ [row] }, some row)

/-- The call `tx.Create(&orderItem)`. -/
def Store.createOrderItem (st : Store) (it : OrderItem) : Store × Option OrderItem :=
  let id := st.order_items_id_seq + 1
  let st1 := { st with order_items_id_seq := id }
  let row := { it with ID := id }
  if st.order_items.any (fun x => decide (x.ID = id)) then
    (st1, none)
  else
    ({ st1 with order_items := st.order_items ++ [row] }, some row)

/-- The call `db.Save(&order)` for an order read from the store: every column of the live
row with that id is overwritten, `updated_at` with the time of the write. -/
def Store.saveOrder (st : Store) (o : Order) (now : Time) : Store × Order :=
  let row := { o with UpdatedAt := now }
  ({ st with orders := st.orders.map (fun x =>
      if x.ID = o.ID ∧ x.DeletedAt = none then row else x) }, row)

/-- The call `db.Save(&menu)` for a menu read from the store. -/
def Store.saveMenu (st : Store) (m : Menu) (now : Time) : Store × Menu :=
  let row := { m with UpdatedAt := now }
  ({ st with menus := st.menus.map (fun x =>
      if x.ID = m.ID ∧ x.DeletedAt = none then row else x) }, row)

/-- The call `tx.Rollback()`: the rows are those of before `Begin`; values drawn from the
id sequences are not given back. -/
def Store.rollback (st tx : Store) : Store :=
  { st with orders_id_seq := tx.orders_id_seq, order_items_id_seq := tx.order_items_id_seq }

/-! ## Response shapes (`Order.ToResponse`) -/

/-- The zero `time.Time`. -/
def Time.zero : Time := ⟨1, 1, 1, 0⟩

/-- The zero `models.Kios`. -/
def Kios.zero : Kios := ⟨0, "", "", "", false, Time.zero, Time.zero, none⟩

/-- The zero `models.Menu`. -/
def Menu.zero : Menu := ⟨0, 0, "", "", 0, "", "", false, Time.zero, Time.zero, none⟩

/-- The zero `models.User`. -/
def User.zero : User := ⟨0, "", "", "", "", "", false, none, Time.zero, Time.zero, none⟩

/-- An order item with its `Menu` association. -/
structure LoadedOrderItem where
  row : OrderItem
  Menu : Menu
  deriving DecidableEq, Repr

/-- An order with the associations `Kios`, `OrderItems.Menu` and `Creator`. -/
structure LoadedOrder where
  row : Order
  Kios : Kios
  OrderItems : List LoadedOrderItem
  Creator : User
  deriving DecidableEq, Repr

/-- The struct `models.OrderItemResponse`. -/
structure OrderItemResponse where
  ID : Nat
  MenuID : Nat
  MenuName : String
  Quantity : Int
  Price : Float64
  Subtotal : Float64
  Notes : String
  deriving DecidableEq, Repr

/-- The struct `models.OrderResponse`. -/
structure OrderResponse where
  ID : Nat
  QueueNumber : String
  KiosID : Nat
  KiosName : String
  CustomerName : String
  Status : OrderStatus
  TotalAmount : Float64
  PaymentMethod : Option PaymentMethod
  PaidAt : Option Time
  PreparedAt : Option Time
  ReadyAt : Option Time
  CompletedAt : Option Time
  Notes : String
  OrderItems : List OrderItemResponse
  CreatedBy : Nat
  CreatorName : String
  CreatedAt : Time
  UpdatedAt : Time
  deriving DecidableEq, Repr

/-- The chain `Preload("Kios").Preload("OrderItems.Menu").Preload("Creator")` applied to an
order row: an association whose row is missing or soft-deleted stays zero. -/
def Store.preload (st : Store) (o : Order) : LoadedOrder :=
  { row := o
    Kios := (st.firstKios o.KiosID).getD Kios.zero
    OrderItems := (st.order_items.filter (fun it => decide (it.OrderID = o.ID))).map
      (fun it => { row := it, Menu := (st.firstMenu it.MenuID).getD Menu.zero })
    Creator := (st.firstUser o.CreatedBy).getD User.zero }

/-- The reload `h.db.Preload(...).First(&order, order.ID)` that ends `Create` and
`UpdateStatus`; its error is not read, and `order` keeps its value when no row is found. -/
def Store.reload (st : Store) (order : Order) : LoadedOrder :=
  match st.firstOrder order.ID with
  | some o => st.preload o
  | none => { row := order, Kios := Kios.zero, OrderItems := [], Creator := User.zero }

/-- The method `Order.ToResponse`. -/
def Order.ToResponse (o : LoadedOrder) : OrderResponse :=
  let items := o.OrderItems.map (fun item =>
    ({ ID := item.row.ID
       MenuID := item.row.MenuID
       MenuName := item.Menu.Name
       Quantity := item.row.Quantity
       Price := item.row.Price
       Subtotal := item.row.Subtotal
       Notes := item.row.Notes } : OrderItemResponse))
  { ID := o.row.ID
    QueueNumber := o.row.QueueNumber
    KiosID := o.row.KiosID
    KiosName := o.Kios.Name
    CustomerName := o.row.CustomerName
    Status := o.row.Status
    TotalAmount := o.row.TotalAmount
    PaymentMethod := o.row.PaymentMethod
    PaidAt := o.row.PaidAt
    PreparedAt := o.row.PreparedAt
    ReadyAt := o.row.ReadyAt
    CompletedAt := o.row.CompletedAt
    Notes := o.row.Notes
    OrderItems := items
    CreatedBy := o.row.CreatedBy
    CreatorName := o.Creator.FullName
    CreatedAt := o.row.CreatedAt
    UpdatedAt := o.row.UpdatedAt }

/-! ## `OrderHandler.Create` -/

/-- The clock reads of one `Create` call, in program order: the two of
`generateQueueNumber`, the insert of the order header, the final `tx.Save`. -/
structure CreateClock where
  tFormat : Time
  tQuery : Time
  tInsert : Time
  tSave : Time
  deriving DecidableEq, Repr

/-- The loop `for _, item := range req.Items` of `Create`, run inside the
transaction `tx` with running total `totalAmount`.  The amounts are `float64`:
`float64(item.Quantity)`, the product with the price and the sum with the running
total are each rounded.  On success the result carries the total; on failure the
status code and error text of the branch that returned. -/
def OrderHandler.createItems (orderID : Nat) :
    List CreateOrderItemRequest → Store → Float64 → Store × Except (Nat × String) Float64
  | [], tx, totalAmount => (tx, .ok totalAmount)
  | item :: rest, tx, totalAmount =>
    match tx.firstMenu item.MenuID with
    | none =>
      (tx, .error (StatusBadRequest, "Menu with ID " ++ fmtD item.MenuID ++ " not found"))
    | some menu =>
      if !menu.IsAvailable then
        (tx, .error (StatusBadRequest, "Menu '" ++ menu.Name ++ "' is not available"))
      else
        let subtotal := Float64.mul menu.Price (Float64.ofInt item.Quantity)
        let totalAmount := Float64.add totalAmount subtotal
        let orderItem : OrderItem :=
          { ID := 0
            OrderID := orderID
            MenuID := item.MenuID
            Quantity := item.Quantity
            Price := menu.Price
            Subtotal := subtotal
            Notes := item.Notes }
        match tx.createOrderItem orderItem with
        | (tx1, none) => (tx1, .error (StatusInternalServerError, "Failed to create order item"))
        | (tx1, some _) => OrderHandler.createItems orderID rest tx1 totalAmount

/-- The handler `OrderHandler.Create`, given how the database answers the count
query of `generateQueueNumber` (`countQuery kiosID t` is `none` when that query
fails).  `idParam` is the result of `strconv.ParseUint(c.Param("id"), 10, 32)`
(`none`: an error), `body` the decoded JSON body, `userID` the value the auth
middleware stored under `user_id`. -/
def OrderHandler.CreateFrom (countQuery : Nat → Time → Option Nat) (st : Store)
    (idParam : Option Nat) (body : Option CreateOrderRequest)
    (userID : Nat) (clk : CreateClock) : Store × Response OrderResponse :=
  match idParam with
  | none => (st, .error StatusBadRequest "Invalid kios ID")
  | some kiosID =>
  match ShouldBindJSON CreateOrderRequest.valid body with
  | none => (st, .error StatusBadRequest "Invalid request format")
  | some req0 =>
  let req := { req0 with KiosID := kiosID }
  match st.firstKios req.KiosID with
  | none => (st, .error StatusBadRequest "Kios not found")
  | some _ =>
  match OrderHandler.generateQueueNumberFrom req.KiosID clk.tFormat
      (countQuery req.KiosID clk.tQuery) with
  | (_, some _) => (st, .error StatusInternalServerError "Failed to generate queue number")
  | (queueNumber, none) =>
  let order : Order :=
    { ID := 0
      QueueNumber := queueNumber
      KiosID := req.KiosID
      CustomerName := req.CustomerName
      Status := StatusPending
      TotalAmount := 0
      PaymentMethod := none
      PaidAt := none
      PreparedAt := none
      ReadyAt := none
      CompletedAt := none
      Notes := req.Notes
      CreatedBy := userID
      CreatedAt := Time.zero
      UpdatedAt := Time.zero
      DeletedAt := none }
  match st.createOrder order clk.tInsert with
  | (tx, none) => (st.rollback tx, .error StatusInternalServerError "Failed to create order")
  | (tx, some order) =>
  match OrderHandler.createItems order.ID req.Items tx 0 with
  | (tx, .error (code, msg)) => (st.rollback tx, .error code msg)
  | (tx, .ok totalAmount) =>
  let order := { order with TotalAmount := totalAmount }
  let (tx, order) := tx.saveOrder order clk.tSave
  (tx, .data StatusCreated (Order.ToResponse (tx.reload order)))

/-- The handler `OrderHandler.Create` over a store that answers the count query. -/
def OrderHandler.Create (st : Store) (idParam : Option Nat) (body : Option CreateOrderRequest)
    (userID : Nat) (clk : CreateClock) : Store × Response OrderResponse :=
  OrderHandler.CreateFrom (fun kiosID t => some (st.countOrdersOn kiosID t)) st idParam body
    userID clk

/-! ## `OrderHandler.UpdateStatus` -/

/-- The assignment `order.Status = req.Status` and the `switch req.Status` that
follows it in `UpdateStatus`. -/
def OrderHandler.applyStatus (order0 : Order) (req : UpdateOrderStatusRequest) (now : Time) :
    Order :=
  let order := { order0 with Status := req.Status }
  if req.Status = StatusPaid then
    { order with PaidAt := some now, PaymentMethod := req.PaymentMethod }
  else if req.Status = StatusPreparing then { order with PreparedAt := some now }
  else if req.Status = StatusReady then { order with ReadyAt := some now }
  else if req.Status = StatusCompleted then { order with CompletedAt := some now }
  else order

/-- The handler `OrderHandler.UpdateStatus`.  `now` is the `time.Now()` of the handler,
`tSave` the time at which `db.Save` writes. -/
def OrderHandler.UpdateStatus (st : Store) (idParam : Option Nat)
    (body : Option UpdateOrderStatusRequest) (now tSave : Time) :
    Store × Response OrderResponse :=
  match idParam with
  | none => (st, .error StatusBadRequest "Invalid order ID")
  | some id =>
  match ShouldBindJSON UpdateOrderStatusRequest.valid body with
  | none => (st, .error StatusBadRequest "Invalid request format")
  | some req =>
  match st.firstOrder id with
  | none => (st, .error StatusNotFound "Order not found")
  | some order0 =>
  let order := OrderHandler.applyStatus order0 req now
  let (st1, order) := st.saveOrder order tSave
  (st1, .data StatusOK (Order.ToResponse (st1.reload order)))

/-- A run of `UpdateStatus` calls addressed to the order `id`; each entry holds
the decoded body and the two clock reads of one call. -/
def OrderHandler.UpdateStatusRun (st : Store) (id : Nat) :
    List (Option UpdateOrderStatusRequest × Time × Time) → Store
  | [] => st
  | (body, now, tSave) :: rest =>
    OrderHandler.UpdateStatusRun (OrderHandler.UpdateStatus st (some id) body now tSave).1 id rest

/-! ## `MenuHandler.Update` -/

/-- The struct `models.MenuResponse`. -/
structure MenuResponse where
  ID : Nat
  KiosID : Nat
  KiosName : String
  Name : String
  Description : String
  Price : Float64
  Category : MenuCategory
  ImageURL : String
  IsAvailable : Bool
  CreatedAt : Time
  UpdatedAt : Time
  deriving DecidableEq, Repr

/-- The method `Menu.ToResponse` for a menu whose `Kios` association is `kios`. -/
def Menu.ToResponse (m : Menu) (kios : Kios) : MenuResponse :=
  { ID := m.ID
    KiosID := m.KiosID
    KiosName := kios.Name
    Name := m.Name
    Description := m.Description
    Price := m.Price
    Category := m.Category
    ImageURL := m.ImageURL
    IsAvailable := m.IsAvailable
    CreatedAt := m.CreatedAt
    UpdatedAt := m.UpdatedAt }

/-- The handler `MenuHandler.Update`; `isURL` is the validator behind the binding tag `url`,
`tSave` the time at which `db.Save` writes. -/
def MenuHandler.Update (isURL : String → Bool) (st : Store) (idParam : Option Nat)
    (body : Option UpdateMenuRequest) (tSave : Time) : Store × Response MenuResponse :=
  match idParam with
  | none => (st, .error StatusBadRequest "Invalid menu ID")
  | some id =>
  match ShouldBindJSON (UpdateMenuRequest.valid isURL) body with
  | none => (st, .error StatusBadRequest "Invalid request format")
  | some req =>
  match st.firstMenu id with
  | none => (st, .error StatusNotFound "Menu not found")
  | some menu0 =>
  let kios := (st.firstKios menu0.KiosID).getD Kios.zero
  let menu := if req.Name ≠ "" then { menu0 with Name := req.Name } else menu0
  let menu := if req.Description ≠ "" then { menu with Description := req.Description } else menu
  let menu := match req.Price with
    | some p => { menu with Price := p }
    | none => menu
  let menu := if req.Category ≠ "" then { menu with Category := req.Category } else menu
  let menu := if req.ImageURL ≠ "" then { menu with ImageURL := req.ImageURL } else menu
  let menu := match req.IsAvailable with
    | some b => { menu with IsAvailable := b }
    | none => menu
  let (st1, menu) := st.saveMenu menu tSave
  (st1, .data StatusOK (Menu.ToResponse menu kios))

/-! ## Predicates used in the statements -/

/-- How one requested item shows in the row written for it: the ids, quantity and
notes are those of the request, the price is the one of the live menu row, the
subtotal is the `float64` product of that price and the converted quantity. -/
def ItemMaterialized (st : Store) (orderID : Nat) (item : CreateOrderItemRequest)
    (it : OrderItem) : Prop :=
  it.OrderID = orderID ∧ it.MenuID = item.MenuID ∧ it.Quantity = item.Quantity ∧
    it.Notes = item.Notes ∧
    ∃ m, st.firstMenu item.MenuID = some m ∧ m.IsAvailable = true ∧ it.Price = m.Price ∧
      it.Subtotal = Float64.mul m.Price (Float64.ofInt item.Quantity)

/-- The foreign key of `order_items.order_id`: every item row points at a row of
`orders`. -/
def Store.itemsReferenceOrders (st : Store) : Prop :=
  ∀ it ∈ st.order_items, ∃ o ∈ st.orders, o.ID = it.OrderID

instance (st : Store) : Decidable st.itemsReferenceOrders := by
  unfold Store.itemsReferenceOrders
  infer_instance

/-- The transition rule in the words of the specification: the steps of the path
pending, paid, preparing, ready, completed, and cancellation from every state
that is neither completed nor cancelled. -/
def Spec.legalTransition (s t : OrderStatus) : Bool :=
  (s == StatusPending && t == StatusPaid) ||
  (s == StatusPaid && t == StatusPreparing) ||
  (s == StatusPreparing && t == StatusReady) ||
  (s == StatusReady && t == StatusCompleted) ||
  (t == StatusCancelled && s != StatusCompleted && s != StatusCancelled)

/-- No request of the run binds with status `s`. -/
def noRequestWithStatus (s : OrderStatus)
    (reqs : List (Option UpdateOrderStatusRequest × Time × Time)) : Prop :=
  ∀ r ∈ reqs, ∀ q ∈ ShouldBindJSON UpdateOrderStatusRequest.valid r.1, q.Status ≠ s

instance (s : OrderStatus) (reqs : List (Option UpdateOrderStatusRequest × Time × Time)) :
    Decidable (noRequestWithStatus s reqs) := by
  unfold noRequestWithStatus
  infer_instance

/-! ## Sample data -/

namespace Sample

def yesterday : Time := ⟨2024, 3, 14, 0⟩
def t0 : Time := ⟨2024, 3, 15, 1000⟩
def t1 : Time := ⟨2024, 3, 15, 2000⟩
def t2 : Time := ⟨2024, 3, 15, 3000⟩

def cashier : User :=
  ⟨1, "kasir", "kasir@example.com", "hash", "Kasir Satu", "cashier", true, none,
    yesterday, yesterday, none⟩

def kios : Kios := ⟨7, "Warung Sate", "", "Blok A", true, yesterday, yesterday, none⟩

def nasiGoreng : Menu :=
  ⟨1, 7, "Nasi Goreng", "", 25000, "food", "", true, yesterday, yesterday, none⟩

def esTeh : Menu := ⟨2, 7, "Es Teh", "", 5000, "drink", "", true, yesterday, yesterday, none⟩

def sate : Menu := ⟨3, 7, "Sate", "", 30000, "food", "", false, yesterday, yesterday, none⟩

/-- An order of the day before, completed. -/
def orderCompleted : Order :=
  ⟨1, "K7-20240314-001", 7, "Ani", StatusCompleted, 5000, some PaymentCash, some yesterday,
    some yesterday, some yesterday, some yesterday, "", 1, yesterday, yesterday, none⟩

/-- The first order of today, not yet paid. -/
def orderPending : Order :=
  ⟨2, "K7-20240315-001", 7, "Budi", StatusPending, 5000, none, none, none, none, none, "", 1,
    t0, t0, none⟩

/-- The second order of today, paid in cash at `t0`. -/
def orderPaid : Order :=
  ⟨3, "K7-20240315-002", 7, "Citra", StatusPaid, 25000, some PaymentCash, some t0, none, none,
    none, "", 1, t0, t0, none⟩

def store : Store :=
  { users := [cashier]
    kioses := [kios]
    menus := [nasiGoreng, esTeh, sate]
    orders := [orderCompleted, orderPending, orderPaid]
    order_items := [⟨1, 1, 2, 1, 5000, 5000, ""⟩, ⟨2, 2, 2, 1, 5000, 5000, ""⟩,
      ⟨3, 3, 1, 1, 25000, 25000, ""⟩]
    orders_id_seq := 3
    order_items_id_seq := 3 }

/-- Two portions of menu 1 and one of menu 2. -/
def request : CreateOrderRequest :=
  ⟨0, "Dewi", "", [⟨1, 2, ""⟩, ⟨2, 1, "no ice"⟩]⟩

/-- A request whose second item is the unavailable menu 3. -/
def requestUnavailable : CreateOrderRequest :=
  ⟨0, "Dewi", "", [⟨1, 2, ""⟩, ⟨3, 1, ""⟩]⟩

def clock : CreateClock := ⟨t1, t1, t1, t2⟩

end Sample

/-! ## Order queries (`OrderHandler.GetQueue`) -/

/-- Chronological order of two `time.Time` values: by date, then by time of day. -/
def Time.le (a b : Time) : Prop :=
  a.year < b.year ∨ (a.year = b.year ∧ (a.month < b.month ∨ (a.month = b.month ∧
    (a.day < b.day ∨ (a.day = b.day ∧ a.nanos ≤ b.nanos)))))

instance : LE Time := ⟨Time.le⟩

instance (a b : Time) : Decidable (a ≤ b) := by
  show Decidable (Time.le a b)
  unfold Time.le
  infer_instance

/-- The clause `Order("created_at ASC")`.  Rows with equal `created_at`, whose
order the database leaves open, stay in table order. -/
def orderByCreatedAtAsc (rows : List Order) : List Order :=
  rows.insertionSort (fun a b => a.CreatedAt ≤ b.CreatedAt)

/-- The query `Where(cond).Find(&orders)` on the `orders` table: the live rows
that satisfy the condition. -/
def Store.findOrders (st : Store) (cond : Order → Bool) : List Order :=
  st.orders.filter (fun o => cond o && o.DeletedAt.isNone)

/-- The handler `OrderHandler.GetQueue`; it reads the store and writes nothing. -/
def OrderHandler.GetQueue (st : Store) (idParam : Option Nat) : Response (List OrderResponse) :=
  match idParam with
  | none => .error StatusBadRequest "Invalid kios ID"
  | some kiosID =>
    let orders := orderByCreatedAtAsc (st.findOrders (fun o =>
      decide (o.KiosID = kiosID) &&
        decide (o.Status ∈ [StatusPaid, StatusPreparing, StatusReady])))
    .data StatusOK (orders.map (fun order => Order.ToResponse (st.preload order)))

/-! ## Runs of `Create` -/

/-- A run of `Create` calls for the vendor `kiosID`, one after another; each
entry holds the decoded body, the user id and the clock reads of one call.  The
result is the final store and the responses in call order. -/
def OrderHandler.CreateRun (st : Store) (kiosID : Nat) :
    List (Option CreateOrderRequest × Nat × CreateClock) →
      Store × List (Response OrderResponse)
  | [] => (st, [])
  | (body, userID, clk) :: rest =>
    let r := OrderHandler.Create st (some kiosID) body userID clk
    let rs := OrderHandler.CreateRun r.1 kiosID rest
    (rs.1, r.2 :: rs.2)

/-- Every call of the run reads the clock on the calendar date of `today`: the
ticket is stamped with that date, the count query asks for it and the header is
inserted on it. -/
def callsOnDay (today : Time) (calls : List (Option CreateOrderRequest × Nat × CreateClock)) :
    Prop :=
  ∀ c ∈ calls, c.2.2.tFormat.Format20060102 = today.Format20060102 ∧
    c.2.2.tQuery.Format2006_01_02 = today.Format2006_01_02 ∧
    c.2.2.tInsert.Format2006_01_02 = today.Format2006_01_02

instance (today : Time) (calls : List (Option CreateOrderRequest × Nat × CreateClock)) :
    Decidable (callsOnDay today calls) := by
  unfold callsOnDay
  infer_instance

/-! ## More sample data -/

namespace Sample

def tomorrow : Time := ⟨2024, 3, 16, 500⟩
def tomorrowLater : Time := ⟨2024, 3, 16, 900⟩

/-- The sample store with its only vendor switched to inactive. -/
def storeInactive : Store :=
  { store with kioses := [{ kios with IsActive := false }] }

/-- A request whose only item asks for zero portions of menu 1. -/
def requestZeroQuantity : CreateOrderRequest := ⟨0, "Eka", "", [⟨1, 0, ""⟩]⟩

/-- A request without items. -/
def requestNoItems : CreateOrderRequest := ⟨0, "Eka", "", []⟩

/-- Clock reads on the day after the sample orders. -/
def clockTomorrow : CreateClock := ⟨tomorrow, tomorrow, tomorrow, tomorrowLater⟩

def clockTomorrowLater : CreateClock :=
  ⟨tomorrowLater, tomorrowLater, tomorrowLater, tomorrowLater⟩

/-- The sample store with two more rows: an order of vendor 7 that is ready and was
created the day before, and a paid order of another vendor. -/
def storeQueue : Store :=
  { store with orders := store.orders ++
      [⟨4, "K7-20240315-000", 7, "Fajar", StatusReady, 5000, some PaymentCash, some t0, some t0,
        some t0, none, "", 1, yesterday, t0, none⟩,
       ⟨5, "K9-20240315-001", 9, "Gita", StatusPaid, 5000, some PaymentCash, some t0, none,
        none, none, "", 1, t0, t0, none⟩] }

end Sample

/-! ## Order listings (`OrderHandler.GetByKios`, `OrderHandler.GetAll`) -/

/-- The clause `Order("created_at DESC")`.  Rows with equal `created_at`, whose
order the database leaves open, stay in table order. -/
def orderByCreatedAtDesc (rows : List Order) : List Order :=
  rows.insertionSort (fun a b => b.CreatedAt ≤ a.CreatedAt)

/-- The tail shared by `GetByKios` and `GetAll`: the optional `Where("status = ?")`
and `Where("DATE(created_at) = ?")`, the ordering and `Find`.  `status` and `date`
are the values of `c.Query` (empty when the parameter is absent); `dateIn` is the
database reading a date literal, giving its `YYYY-MM-DD` form, or `none` when the
text is no date, in which case the query fails (`none`). -/
def Store.listOrders (dateIn : String → Option String) (st : Store) (cond : Order → Bool)
    (status date : String) : Option (List Order) :=
  let cond1 : Order → Bool :=
    if status ≠ "" then fun o => cond o && o.Status == status else cond
  if date ≠ "" then
    match dateIn date with
    | none => none
    | some day =>
      some (orderByCreatedAtDesc
        (st.findOrders (fun o => cond1 o && o.CreatedAt.Format2006_01_02 == day)))
  else some (orderByCreatedAtDesc (st.findOrders cond1))

/-- The handler `OrderHandler.GetByKios`; it reads the store and writes nothing. -/
def OrderHandler.GetByKios (dateIn : String → Option String) (st : Store)
    (idParam : Option Nat) (status date : String) : Response (List OrderResponse) :=
  match idParam with
  | none => .error StatusBadRequest "Invalid kios ID"
  | some kiosID =>
    match st.listOrders dateIn (fun o => decide (o.KiosID = kiosID)) status date with
    | none => .error StatusInternalServerError "Failed to fetch orders"
    | some orders =>
      .data StatusOK (orders.map (fun order => Order.ToResponse (st.preload order)))

/-- The handler `OrderHandler.GetAll`; it reads the store and writes nothing. -/
def OrderHandler.GetAll (dateIn : String → Option String) (st : Store)
    (status date : String) : Response (List OrderResponse) :=
  match st.listOrders dateIn (fun _ => true) status date with
  | none => .error StatusInternalServerError "Failed to fetch orders"
  | some orders => .data StatusOK (orders.map (fun order => Order.ToResponse (st.preload order)))

/-- An order passes the supplied filters: its status is the status filter when
one is given, its creation date is the date of the date filter when one is given. -/
def matchesFilters (dateIn : String → Option String) (status date : String) (o : Order) :
    Prop :=
  (status = "" ∨ o.Status = status) ∧
    (date = "" ∨ dateIn date = some o.CreatedAt.Format2006_01_02)

instance (dateIn : String → Option String) (status date : String) (o : Order) :
    Decidable (matchesFilters dateIn status date o) := by
  unfold matchesFilters
  infer_instance

/-! ## Access to a kios (`AuthMiddleware.RequireKiosAccess`) -/

def RoleCashier : String := "cashier"
def RoleKios : String := "kios"
def StatusForbidden : Nat := 403

/-- The conversion `rune(x)` of a `uint`: the low 32 bits, read as a signed number. -/
def runeOfUint (x : Nat) : Int :=
  if x % 2 ^ 32 < 2 ^ 31 then ((x % 2 ^ 32 : Nat) : Int)
  else ((x % 2 ^ 32 : Nat) : Int) - 2 ^ 32

/-- The conversion `string(r)` of a rune: the string made of that one code point,
or of U+FFFD when `r` is not a valid code point. -/
def stringOfRune (r : Int) : String :=
  if 0 ≤ r ∧ (r < 0xD800 ∨ (0xDFFF < r ∧ r ≤ 0x10FFFF)) then
    String.singleton (Char.ofNat r.toNat)
  else String.singleton (Char.ofNat 0xFFFD)

/-- What `c.Get("kios_id")` can hold as value: the nil interface, or a `*uint`,
which may be a nil pointer. -/
inductive KiosIDValue where
  | nilInterface
  | ptr (p : Option Nat)
  deriving DecidableEq, Repr

/-- How a middleware ends: it calls `c.Next()`, it answers and calls `c.Abort()`,
or it runs into a nil dereference. -/
inductive MiddlewareResult where
  | next
  | abort (code : Nat) (error : String)
  | nilDereference
  deriving DecidableEq, Repr

/-- The middleware `RequireKiosAccess`.  `role` is the context value `role`,
`userKiosID` the result of `c.Get("kios_id")` (`none`: the key is not set),
`requestedKiosID` the path parameter `kios_id` (empty when the route has none).
Go strings are compared as sequences of code points. -/
def AuthMiddleware.RequireKiosAccess (role : String) (userKiosID : Option KiosIDValue)
    (requestedKiosID : String) : MiddlewareResult :=
  if role = RoleCashier then .next
  else if role = RoleKios then
    match userKiosID with
    | none => .abort StatusForbidden "Kios user must be assigned to a kios"
    | some .nilInterface => .abort StatusForbidden "Kios user must be assigned to a kios"
    | some (.ptr userKiosIDUint) =>
      if requestedKiosID ≠ "" then
        match userKiosIDUint with
        | none => .nilDereference
        | some k =>
          if requestedKiosID ≠ stringOfRune (runeOfUint k) then
            .abort StatusForbidden "Access denied to this kios"
          else .next
      else .next
  else .next

/-! ## Sample data for the listings and for menus of another vendor -/

namespace Sample

/-- The sample store with a second vendor, 9, that owns the available menu 4. -/
def storeTwoKios : Store :=
  { store with
    kioses := [kios, ⟨9, "Kedai Kopi", "", "Blok B", true, yesterday, yesterday, none⟩]
    menus := store.menus ++
      [⟨4, 9, "Kopi Susu", "", 12000, "drink", "", true, yesterday, yesterday, none⟩] }

/-- A request whose only item is menu 4. -/
def requestOtherKios : CreateOrderRequest := ⟨0, "Hana", "", [⟨4, 1, ""⟩]⟩

end Sample

/-! ## Reading decimal numerals -/

/-- The number that a list of decimal digits stands for, most significant digit
first; used to state that tickets can be read back. -/
def decodeDigits (l : List Char) : Nat :=
  l.foldl (fun acc c => 10 * acc + (c.toNat - 48)) 0

/-! ## Sample data on which `float64` rounds -/

namespace Sample

/-- The sample store with one more menu of vendor 7, priced at 1. -/
def storeKerupuk : Store :=
  { store with
    menus := store.menus ++
      [⟨5, 7, "Kerupuk", "", 1, "snack", "", true, yesterday, yesterday, none⟩] }

/-- A request for `2 ^ 53` pieces of menu 5, then for one more piece. -/
def requestBulk : CreateOrderRequest :=
  ⟨0, "Gita", "", [⟨5, 9007199254740992, ""⟩, ⟨5, 1, ""⟩]⟩

/-- A request for `2 ^ 53 + 1` pieces of menu 5. -/
def requestBulkOdd : CreateOrderRequest := ⟨0, "Gita", "", [⟨5, 9007199254740993, ""⟩]⟩

end Sample

/-! ## Lemmas about the embedding -/

/-- A run of the item loop that ends without error appends one row per requested
item, in request order, adds their subtotals one after the other to the running
total and touches no other table. -/
theorem createItems_ok (orderID : Nat) (items : List CreateOrderItemRequest) :
    ∀ (tx : Store) (total : Float64) (tx1 : Store) (total1 : Float64),
      OrderHandler.createItems orderID items tx total = (tx1, .ok total1) →
      ∃ new : List OrderItem,
        tx1.order_items = tx.order_items ++ new ∧
        List.Forall₂ (ItemMaterialized tx orderID) items new ∧
        total1 = new.foldl (fun acc it => Float64.add acc it.Subtotal) total ∧
        tx1.orders = tx.orders ∧ tx1.menus = tx.menus ∧ tx1.kioses = tx.kioses ∧
        tx1.users = tx.users ∧ tx1.orders_id_seq = tx.orders_id_seq := by
  induction items with
  | nil =>
    intro tx total tx1 total1 h
    simp only [OrderHandler.createItems, Prod.mk.injEq, Except.ok.injEq] at h
    obtain ⟨rfl, rfl⟩ := h
    exact ⟨[], by simp, List.Forall₂.nil, by simp, rfl, rfl, rfl, rfl, rfl⟩
  | cons item rest ih =>
    intro tx total tx1 total1 h
    rw [OrderHandler.createItems] at h
    cases hm : tx.firstMenu item.MenuID with
    | none => simp [hm] at h
    | some menu =>
      simp only [hm] at h
      by_cases hav : menu.IsAvailable = true
      · simp only [hav, Bool.not_true, Bool.false_eq_true, if_false] at h
        by_cases hc : tx.order_items.any (fun x => decide (x.ID = tx.order_items_id_seq + 1)) = true
        · simp [Store.createOrderItem, hc] at h
        · simp only [Store.createOrderItem, hc, Bool.false_eq_true, ↓reduceIte] at h
          obtain ⟨new, h1, h2, h3, h4, h5, h6, h7, h8⟩ := ih _ _ _ _ h
          refine ⟨(⟨tx.order_items_id_seq + 1, orderID, item.MenuID, item.Quantity, menu.Price,
            Float64.mul menu.Price (Float64.ofInt item.Quantity), item.Notes⟩ : OrderItem) :: new,
            ?_, List.Forall₂.cons ?_ h2, ?_, h4, h5, h6, h7, h8⟩
          · simpa using h1
          · exact ⟨rfl, rfl, rfl, rfl, menu, hm, hav, rfl, rfl⟩
          · rw [h3]; rfl
      · rw [Bool.not_eq_true] at hav
        simp [hav] at h

/-- A failing run of the item loop reports 400 or 500. -/
theorem createItems_error_code (orderID : Nat) (items : List CreateOrderItemRequest) :
    ∀ (tx : Store) (total : Float64) (tx1 : Store) (code : Nat) (msg : String),
      OrderHandler.createItems orderID items tx total = (tx1, .error (code, msg)) →
      code = StatusBadRequest ∨ code = StatusInternalServerError := by
  induction items with
  | nil => intro tx total tx1 code msg h; simp [OrderHandler.createItems] at h
  | cons item rest ih =>
    intro tx total tx1 code msg h
    rw [OrderHandler.createItems] at h
    cases hm : tx.firstMenu item.MenuID with
    | none =>
      simp only [hm, Prod.mk.injEq, Except.error.injEq] at h
      exact Or.inl h.2.1.symm
    | some menu =>
      simp only [hm] at h
      cases hav : menu.IsAvailable with
      | false =>
        simp only [hav, Bool.not_false, if_true, Prod.mk.injEq, Except.error.injEq] at h
        exact Or.inl h.2.1.symm
      | true =>
        simp only [hav, Bool.not_true, Bool.false_eq_true, ↓reduceIte] at h
        by_cases hc : tx.order_items.any (fun x => decide (x.ID = tx.order_items_id_seq + 1)) = true
        · simp only [Store.createOrderItem, hc, if_true, Prod.mk.injEq, Except.error.injEq] at h
          exact Or.inr h.2.1.symm
        · simp only [Store.createOrderItem, hc, Bool.false_eq_true, ↓reduceIte] at h
          exact ih _ _ _ _ _ h

/-- Saving the row that was just appended under a fresh id rewrites that row only. -/
theorem map_save_append (l : List Order) (id : Nat) (row row1 : Order) (hid : row.ID = id)
    (hrow : row.DeletedAt = none) (hl : ∀ x ∈ l, x.ID ≠ id) :
    (l ++ [row]).map (fun x => if x.ID = id ∧ x.DeletedAt = none then row1 else x) =
      l ++ [row1] := by
  rw [List.map_append]
  congr 1
  · conv_rhs => rw [← List.map_id l]
    apply List.map_congr_left
    intro x hx
    simp [hl x hx]
  · simp [hrow, hid]

/-- The shape of the store after a `Create` that answered 201: one order row and
one item row per requested item were appended, the order row is the header built
by the handler with the accumulated total. -/
theorem Create_created (st : Store) (idParam : Option Nat) (body : Option CreateOrderRequest)
    (userID : Nat) (clk : CreateClock)
    (h : (OrderHandler.Create st idParam body userID clk).2.code = StatusCreated) :
    ∃ (kiosID : Nat) (req : CreateOrderRequest) (o : Order) (new : List OrderItem),
      idParam = some kiosID ∧ body = some req ∧ req.valid = true ∧
      (st.firstKios kiosID).isSome = true ∧
      (∀ x ∈ st.orders, x.ID ≠ st.orders_id_seq + 1 ∧ x.QueueNumber ≠ o.QueueNumber) ∧
      (OrderHandler.Create st idParam body userID clk).1.orders = st.orders ++ [o] ∧
      (OrderHandler.Create st idParam body userID clk).1.order_items = st.order_items ++ new ∧
      (OrderHandler.Create st idParam body userID clk).1.menus = st.menus ∧
      (OrderHandler.Create st idParam body userID clk).1.kioses = st.kioses ∧
      (OrderHandler.Create st idParam body userID clk).1.users = st.users ∧
      o = { ID := st.orders_id_seq + 1
            QueueNumber := (OrderHandler.generateQueueNumber st kiosID clk.tFormat clk.tQuery).1
            KiosID := kiosID
            CustomerName := req.CustomerName
            Status := StatusPending
            TotalAmount := new.foldl (fun acc it => Float64.add acc it.Subtotal) 0
            PaymentMethod := none
            PaidAt := none
            PreparedAt := none
            ReadyAt := none
            CompletedAt := none
            Notes := req.Notes
            CreatedBy := userID
            CreatedAt := clk.tInsert
            UpdatedAt := clk.tSave
            DeletedAt := none } ∧
      List.Forall₂ (ItemMaterialized st (st.orders_id_seq + 1)) req.Items new := by
  cases idParam with
  | none =>
    simp [OrderHandler.Create, OrderHandler.CreateFrom, Response.code, StatusCreated,
      StatusBadRequest] at h
  | some kiosID =>
  cases body with
  | none =>
    simp [OrderHandler.Create, OrderHandler.CreateFrom, ShouldBindJSON, Response.code,
      StatusCreated, StatusBadRequest] at h
  | some req =>
  by_cases hv : req.valid = true
  swap
  · simp [OrderHandler.Create, OrderHandler.CreateFrom, ShouldBindJSON, hv, Response.code,
      StatusCreated, StatusBadRequest] at h
  cases hk : st.firstKios kiosID with
  | none =>
    simp [OrderHandler.Create, OrderHandler.CreateFrom, ShouldBindJSON, hv, hk, Response.code,
      StatusCreated, StatusBadRequest] at h
  | some kios =>
  generalize hE : OrderHandler.Create st (some kiosID) (some req) userID clk = e at h ⊢
  simp only [OrderHandler.Create, OrderHandler.CreateFrom, ShouldBindJSON, hv, if_true, hk,
    OrderHandler.generateQueueNumber, OrderHandler.generateQueueNumberFrom] at hE ⊢
  by_cases hc : (st.orders.any fun x => decide (x.ID = st.orders_id_seq + 1) ||
      x.QueueNumber == queueNumberFormat kiosID clk.tFormat.Format20060102
        (st.countOrdersOn kiosID clk.tQuery)) = true
  · simp only [Store.createOrder, hc, if_true] at hE
    subst hE
    simp [Response.code, StatusCreated, StatusInternalServerError] at h
  · simp only [Store.createOrder, hc, Bool.false_eq_true, ↓reduceIte] at hE
    have hfresh : ∀ x ∈ st.orders, x.ID ≠ st.orders_id_seq + 1 ∧
        x.QueueNumber ≠ queueNumberFormat kiosID clk.tFormat.Format20060102
          (st.countOrdersOn kiosID clk.tQuery) := by
      intro x hx
      have hx1 : ¬ (x.ID = st.orders_id_seq + 1 ∨ x.QueueNumber =
          queueNumberFormat kiosID clk.tFormat.Format20060102
            (st.countOrdersOn kiosID clk.tQuery)) := by
        intro hcon
        apply hc
        rw [List.any_eq_true]
        exact ⟨x, hx, by simpa using hcon⟩
      exact ⟨fun h1 => hx1 (Or.inl h1), fun h2 => hx1 (Or.inr h2)⟩
    rcases hci : OrderHandler.createItems (st.orders_id_seq + 1) req.Items _ 0 with ⟨tx2, r⟩
    rw [hci] at hE
    cases r with
    | error err =>
      obtain ⟨code, msg⟩ := err
      simp only at hE
      subst hE
      rcases createItems_error_code _ _ _ _ _ _ _ hci with hcode | hcode <;>
        simp [Response.code, hcode, StatusCreated, StatusBadRequest,
          StatusInternalServerError] at h
    | ok total =>
      simp only at hE
      subst hE
      obtain ⟨new, h1, h2, h3, h4, h5, h6, h7, -⟩ := createItems_ok _ _ _ _ _ _ hci
      refine ⟨kiosID, req, _, new, rfl, rfl, hv, by simp [hk], ?_, ?_, ?_, ?_, ?_, ?_, rfl, h2⟩
      · exact hfresh
      · simp only [Store.saveOrder, h4]
        rw [h3]
        exact map_save_append st.orders _ _ _ rfl rfl (fun x hx => (hfresh x hx).1)
      · simpa [Store.saveOrder] using h1
      · simpa [Store.saveOrder] using h5
      · simpa [Store.saveOrder] using h6
      · simpa [Store.saveOrder] using h7

/-- A `Create` that did not answer 201 answered with an error, 400 or 500, and left
every table as it was. -/
theorem Create_failed (st : Store) (idParam : Option Nat) (body : Option CreateOrderRequest)
    (userID : Nat) (clk : CreateClock)
    (h : (OrderHandler.Create st idParam body userID clk).2.code ≠ StatusCreated) :
    (∃ code msg, (OrderHandler.Create st idParam body userID clk).2 = .error code msg ∧
      (code = StatusBadRequest ∨ code = StatusInternalServerError)) ∧
    (OrderHandler.Create st idParam body userID clk).1.orders = st.orders ∧
    (OrderHandler.Create st idParam body userID clk).1.order_items = st.order_items ∧
    (OrderHandler.Create st idParam body userID clk).1.menus = st.menus ∧
    (OrderHandler.Create st idParam body userID clk).1.kioses = st.kioses ∧
    (OrderHandler.Create st idParam body userID clk).1.users = st.users := by
  cases idParam with
  | none => exact ⟨⟨_, _, rfl, Or.inl rfl⟩, rfl, rfl, rfl, rfl, rfl⟩
  | some kiosID =>
  cases body with
  | none => exact ⟨⟨_, _, rfl, Or.inl rfl⟩, rfl, rfl, rfl, rfl, rfl⟩
  | some req =>
  by_cases hv : req.valid = true
  swap
  · simp only [OrderHandler.Create, OrderHandler.CreateFrom, ShouldBindJSON, hv]
    exact ⟨⟨_, _, rfl, Or.inl rfl⟩, rfl, rfl, rfl, rfl, rfl⟩
  cases hk : st.firstKios kiosID with
  | none =>
    simp only [OrderHandler.Create, OrderHandler.CreateFrom, ShouldBindJSON, hv, hk]
    exact ⟨⟨_, _, rfl, Or.inl rfl⟩, rfl, rfl, rfl, rfl, rfl⟩
  | some kios =>
  generalize hE : OrderHandler.Create st (some kiosID) (some req) userID clk = e at h ⊢
  simp only [OrderHandler.Create, OrderHandler.CreateFrom, ShouldBindJSON, hv, if_true, hk,
    OrderHandler.generateQueueNumber, OrderHandler.generateQueueNumberFrom] at hE ⊢
  by_cases hc : (st.orders.any fun x => decide (x.ID = st.orders_id_seq + 1) ||
      x.QueueNumber == queueNumberFormat kiosID clk.tFormat.Format20060102
        (st.countOrdersOn kiosID clk.tQuery)) = true
  · simp only [Store.createOrder, hc, if_true] at hE
    subst hE
    exact ⟨⟨_, _, rfl, Or.inr rfl⟩, rfl, rfl, rfl, rfl, rfl⟩
  · simp only [Store.createOrder, hc, Bool.false_eq_true, ↓reduceIte] at hE
    rcases hci : OrderHandler.createItems (st.orders_id_seq + 1) req.Items _ 0 with ⟨tx2, r⟩
    rw [hci] at hE
    cases r with
    | error err =>
      obtain ⟨code, msg⟩ := err
      simp only at hE
      subst hE
      exact ⟨⟨_, _, rfl, createItems_error_code _ _ _ _ _ _ _ hci⟩, rfl, rfl, rfl, rfl, rfl⟩
    | ok total =>
      simp only at hE
      subst hE
      exact absurd rfl h
/-! ### `UpdateStatus` -/

/-- Looking up in a mapped list, when the map does not change the looked-up property. -/
theorem find?_map_of_pred_eq {α : Type} (p : α → Bool) (f : α → α)
    (hf : ∀ x, p (f x) = p x) (l : List α) :
    (l.map f).find? p = (l.find? p).map f := by
  induction l with
  | nil => rfl
  | cons a l ih =>
    simp only [List.map_cons, List.find?_cons, hf a]
    cases p a with
    | true => rfl
    | false => simpa using ih

/-- What `First` guarantees about the row it returns. -/
theorem firstOrder_some (st : Store) (id : Nat) (o : Order) (h : st.firstOrder id = some o) :
    o.ID = id ∧ o.DeletedAt = none ∧ o ∈ st.orders := by
  unfold Store.firstOrder at h
  have h1 := List.find?_some h
  have h2 := List.mem_of_find?_eq_some h
  simp only [Bool.and_eq_true, decide_eq_true_eq, Option.isNone_iff_eq_none] at h1
  exact ⟨h1.1, h1.2, h2⟩

/-- After `Save`, `First` on the same id returns the saved value. -/
theorem firstOrder_saveOrder (st : Store) (id : Nat) (o o1 : Order) (t : Time)
    (h : st.firstOrder id = some o) (hid : o1.ID = o.ID) (hdel : o1.DeletedAt = o.DeletedAt) :
    (st.saveOrder o1 t).1.firstOrder id = some { o1 with UpdatedAt := t } := by
  obtain ⟨h1, h2, -⟩ := firstOrder_some st id o h
  unfold Store.firstOrder at h ⊢
  simp only [Store.saveOrder]
  rw [find?_map_of_pred_eq, h]
  · simp [hid, h1, h2]
  · intro x
    by_cases hx : x.ID = o1.ID ∧ x.DeletedAt = none
    · simp [hx, hid, h1, hdel, h2]
    · simp [hx]

/-- The status switch keeps the id and `deleted_at` and stores the requested status. -/
theorem applyStatus_ID (o : Order) (req : UpdateOrderStatusRequest) (now : Time) :
    (OrderHandler.applyStatus o req now).ID = o.ID ∧
      (OrderHandler.applyStatus o req now).DeletedAt = o.DeletedAt ∧
      (OrderHandler.applyStatus o req now).Status = req.Status := by
  unfold OrderHandler.applyStatus
  simp only
  split_ifs <;> exact ⟨rfl, rfl, rfl⟩

/-- A bound request on an existing order answers 200 and saves the switched order. -/
theorem UpdateStatus_ok (st : Store) (id : Nat) (req : UpdateOrderStatusRequest)
    (now tSave : Time) (o : Order) (hv : req.valid = true) (ho : st.firstOrder id = some o) :
    (OrderHandler.UpdateStatus st (some id) (some req) now tSave).2.code = StatusOK ∧
    (OrderHandler.UpdateStatus st (some id) (some req) now tSave).1 =
      (st.saveOrder (OrderHandler.applyStatus o req now) tSave).1 ∧
    (OrderHandler.UpdateStatus st (some id) (some req) now tSave).1.firstOrder id =
      some { OrderHandler.applyStatus o req now with UpdatedAt := tSave } := by
  have hE : OrderHandler.UpdateStatus st (some id) (some req) now tSave =
      ((st.saveOrder (OrderHandler.applyStatus o req now) tSave).1,
        .data StatusOK (Order.ToResponse
          ((st.saveOrder (OrderHandler.applyStatus o req now) tSave).1.reload
            (st.saveOrder (OrderHandler.applyStatus o req now) tSave).2))) := by
    simp only [OrderHandler.UpdateStatus, ShouldBindJSON, hv, if_true, ho]
  rw [hE]
  refine ⟨rfl, rfl, ?_⟩
  exact firstOrder_saveOrder st id o _ tSave ho (applyStatus_ID o req now).1
    (applyStatus_ID o req now).2.1

/-- A call to `UpdateStatus` that does not answer 200 leaves the store as it was. -/
theorem UpdateStatus_rejected (st : Store) (idParam : Option Nat)
    (body : Option UpdateOrderStatusRequest) (now tSave : Time)
    (h : (OrderHandler.UpdateStatus st idParam body now tSave).2.code ≠ StatusOK) :
    (OrderHandler.UpdateStatus st idParam body now tSave).1 = st := by
  cases idParam with
  | none => rfl
  | some id =>
  cases body with
  | none => rfl
  | some req =>
  by_cases hv : req.valid = true
  swap
  · simp only [OrderHandler.UpdateStatus, ShouldBindJSON, hv]; rfl
  cases ho : st.firstOrder id with
  | none => simp only [OrderHandler.UpdateStatus, ShouldBindJSON, hv, ho]; rfl
  | some o => exact absurd (UpdateStatus_ok st id req now tSave o hv ho).1 h

/-- A body that does not bind is answered with 400. -/
theorem UpdateStatus_invalid (st : Store) (id : Nat)
    (body : Option UpdateOrderStatusRequest) (now tSave : Time)
    (h : ∀ req, body = some req → req.valid = false) :
    OrderHandler.UpdateStatus st (some id) body now tSave =
      (st, .error StatusBadRequest "Invalid request format") := by
  cases body with
  | none => rfl
  | some req => simp [OrderHandler.UpdateStatus, ShouldBindJSON, h req rfl]

/-- Every element of the right list of a `Forall₂` has a partner on the left. -/
theorem forall₂_right_mem {α β : Type} (R : α → β → Prop) (l1 : List α) (l2 : List β)
    (h : List.Forall₂ R l1 l2) : ∀ y ∈ l2, ∃ x ∈ l1, R x y := by
  induction h with
  | nil => intro y hy; cases hy
  | cons hab _ ih =>
    intro y hy
    rcases List.mem_cons.mp hy with rfl | hy1
    · exact ⟨_, List.mem_cons_self _ _, hab⟩
    · obtain ⟨x, hx, hr⟩ := ih y hy1
      exact ⟨x, List.mem_cons_of_mem _ hx, hr⟩

/-- Every element of the left list of a `Forall₂` has a partner on the right. -/
theorem forall₂_left_mem {α β : Type} (R : α → β → Prop) (l1 : List α) (l2 : List β)
    (h : List.Forall₂ R l1 l2) : ∀ x ∈ l1, ∃ y ∈ l2, R x y := by
  induction h with
  | nil => intro x hx; cases hx
  | cons hab _ ih =>
    intro x hx
    rcases List.mem_cons.mp hx with rfl | hx1
    · exact ⟨_, List.mem_cons_self _ _, hab⟩
    · obtain ⟨y, hy, hr⟩ := ih x hx1
      exact ⟨y, List.mem_cons_of_mem _ hy, hr⟩

/-- The binding tags of `UpdateOrderStatusRequest`, spelled out. -/
theorem valid_iff (r : UpdateOrderStatusRequest) :
    r.valid = true ↔
      r.Status ∈ [StatusPending, StatusPaid, StatusPreparing, StatusReady, StatusCompleted,
        StatusCancelled] ∧
      (r.PaymentMethod = none ∨
        ∃ m, r.PaymentMethod = some m ∧ m ∈ [PaymentCash, PaymentCard, PaymentDigital]) := by
  obtain ⟨s, pm⟩ := r
  unfold UpdateOrderStatusRequest.valid
  simp only [Bool.and_eq_true, decide_eq_true_eq]
  constructor
  · rintro ⟨⟨-, h2⟩, h3⟩
    refine ⟨h2, ?_⟩
    cases pm with
    | none => exact Or.inl rfl
    | some m => exact Or.inr ⟨m, rfl, by simpa using h3⟩
  · rintro ⟨h2, h3⟩
    refine ⟨⟨?_, h2⟩, ?_⟩
    · rintro rfl
      revert h2
      decide
    · rcases h3 with h | ⟨m, hm, hmem⟩
      · have h1 : pm = none := h
        subst h1; rfl
      · have h1 : pm = some m := hm
        subst h1; simpa using hmem

/-- A request that was answered 200 had passed binding. -/
theorem UpdateStatus_ok_valid (st : Store) (id : Nat) (req : UpdateOrderStatusRequest)
    (now tSave : Time)
    (h : (OrderHandler.UpdateStatus st (some id) (some req) now tSave).2.code = StatusOK) :
    req.valid = true := by
  by_contra hv
  rw [Bool.not_eq_true] at hv
  rw [UpdateStatus_invalid st id (some req) now tSave
    (fun r hr => by cases hr; exact hv)] at h
  simp [Response.code, StatusOK, StatusBadRequest] at h

/-- An undecodable body is never answered 200. -/
theorem UpdateStatus_none_code (st : Store) (id : Nat) (now tSave : Time) :
    (OrderHandler.UpdateStatus st (some id) none now tSave).2.code ≠ StatusOK := by
  simp [OrderHandler.UpdateStatus, ShouldBindJSON, Response.code, StatusOK, StatusBadRequest]

/-- The status switch leaves alone the timestamps of the states that were not requested. -/
theorem applyStatus_keeps (o : Order) (req : UpdateOrderStatusRequest) (now : Time) :
    (req.Status ≠ StatusPaid → (OrderHandler.applyStatus o req now).PaidAt = o.PaidAt ∧
      (OrderHandler.applyStatus o req now).PaymentMethod = o.PaymentMethod) ∧
    (req.Status ≠ StatusPreparing →
      (OrderHandler.applyStatus o req now).PreparedAt = o.PreparedAt) ∧
    (req.Status ≠ StatusReady → (OrderHandler.applyStatus o req now).ReadyAt = o.ReadyAt) ∧
    (req.Status ≠ StatusCompleted →
      (OrderHandler.applyStatus o req now).CompletedAt = o.CompletedAt) := by
  unfold OrderHandler.applyStatus
  simp only
  split_ifs <;> simp_all

/-- One call keeps a column that the switch only writes for status `s`, when the
request does not bind with `s`. -/
theorem UpdateStatus_step_keeps (st : Store) (id : Nat)
    (body : Option UpdateOrderStatusRequest) (now tSave : Time) (s : OrderStatus)
    (f : Order → Option Time)
    (hf : ∀ (o : Order) (req : UpdateOrderStatusRequest) (t : Time), req.Status ≠ s →
      f { OrderHandler.applyStatus o req now with UpdatedAt := t } = f o)
    (hs : ∀ q ∈ ShouldBindJSON UpdateOrderStatusRequest.valid body, q.Status ≠ s) :
    ((OrderHandler.UpdateStatus st (some id) body now tSave).1.firstOrder id).map f =
      (st.firstOrder id).map f := by
  by_cases hok : (OrderHandler.UpdateStatus st (some id) body now tSave).2.code = StatusOK
  · cases body with
    | none => exact absurd hok (UpdateStatus_none_code st id now tSave)
    | some req =>
      have hv := UpdateStatus_ok_valid st id req now tSave hok
      cases ho : st.firstOrder id with
      | none =>
        simp [OrderHandler.UpdateStatus, ShouldBindJSON, hv, ho, Response.code, StatusOK,
          StatusNotFound] at hok
      | some o =>
        rw [(UpdateStatus_ok st id req now tSave o hv ho).2.2]
        simp only [Option.map_some']
        rw [hf o req tSave (hs req (by simp [ShouldBindJSON, hv]))]
  · rw [UpdateStatus_rejected st (some id) body now tSave hok]

/-- The same over a run of calls. -/
theorem UpdateStatusRun_keeps (id : Nat) (s : OrderStatus) (f : Order → Option Time)
    (hf : ∀ (o : Order) (req : UpdateOrderStatusRequest) (now t : Time), req.Status ≠ s →
      f { OrderHandler.applyStatus o req now with UpdatedAt := t } = f o)
    (reqs : List (Option UpdateOrderStatusRequest × Time × Time)) :
    ∀ st : Store, noRequestWithStatus s reqs →
      ((OrderHandler.UpdateStatusRun st id reqs).firstOrder id).map f =
        (st.firstOrder id).map f := by
  induction reqs with
  | nil => intro st _; rfl
  | cons r rest ih =>
    intro st hs
    obtain ⟨body, now, tSave⟩ := r
    rw [OrderHandler.UpdateStatusRun]
    rw [ih _ (fun r hr => hs r (List.mem_cons_of_mem _ hr))]
    exact UpdateStatus_step_keeps st id body now tSave s f (fun o req t => hf o req now t)
      (fun q hq => hs _ (List.mem_cons_self _ _) q hq)

/-! ### Queries -/

/-- The chronological order is total. -/
theorem Time.le_total (a b : Time) : a ≤ b ∨ b ≤ a := by
  show Time.le a b ∨ Time.le b a
  unfold Time.le
  omega

/-- The chronological order is transitive. -/
theorem Time.le_trans (a b c : Time) (hab : a ≤ b) (hbc : b ≤ c) : a ≤ c := by
  have h1 : Time.le a b := hab
  have h2 : Time.le b c := hbc
  show Time.le a c
  unfold Time.le at h1 h2 ⊢
  omega

/-- Sorting by `created_at` rearranges the rows and puts them in ascending order. -/
theorem orderByCreatedAtAsc_spec (rows : List Order) :
    (orderByCreatedAtAsc rows).Perm rows ∧
    (orderByCreatedAtAsc rows).Sorted (fun a b => a.CreatedAt ≤ b.CreatedAt) := by
  haveI : IsTotal Order (fun a b => a.CreatedAt ≤ b.CreatedAt) :=
    ⟨fun a b => Time.le_total a.CreatedAt b.CreatedAt⟩
  haveI : IsTrans Order (fun a b => a.CreatedAt ≤ b.CreatedAt) :=
    ⟨fun a b c => Time.le_trans a.CreatedAt b.CreatedAt c.CreatedAt⟩
  exact ⟨List.perm_insertionSort _ rows, List.sorted_insertionSort _ rows⟩

/-! ### Error texts of `Create` -/

/-- Two strings whose first characters differ are different. -/
theorem ne_of_head_ne (s t : String) (c d : Char) (hs : s.data.head? = some c)
    (ht : t.data.head? = some d) (hcd : c ≠ d) : s ≠ t := by
  intro h
  rw [h, ht] at hs
  exact hcd (Option.some.inj hs).symm

/-- The first character of a concatenation whose left part is not empty. -/
theorem head_append (s a b : String) (c : Char) (hs : s.data.head? = some c) :
    (s ++ a ++ b).data.head? = some c := by
  rw [String.data_append, String.data_append]
  cases hd : s.data with
  | nil => rw [hd] at hs; cases hs
  | cons x xs => rw [hd] at hs; simpa using hs

/-- The error texts of the item loop start with `M` or `F`. -/
theorem createItems_error_msg (orderID : Nat) (items : List CreateOrderItemRequest) :
    ∀ (tx : Store) (total : Float64) (tx1 : Store) (code : Nat) (msg : String),
      OrderHandler.createItems orderID items tx total = (tx1, .error (code, msg)) →
      msg.data.head? = some 'M' ∨ msg.data.head? = some 'F' := by
  induction items with
  | nil => intro tx total tx1 code msg h; simp [OrderHandler.createItems] at h
  | cons item rest ih =>
    intro tx total tx1 code msg h
    rw [OrderHandler.createItems] at h
    cases hm : tx.firstMenu item.MenuID with
    | none =>
      simp only [hm, Prod.mk.injEq, Except.error.injEq] at h
      rw [← h.2.2]
      exact Or.inl (head_append _ _ _ 'M' rfl)
    | some menu =>
      simp only [hm] at h
      cases hav : menu.IsAvailable with
      | false =>
        simp only [hav, Bool.not_false, if_true, Prod.mk.injEq, Except.error.injEq] at h
        rw [← h.2.2]
        exact Or.inl (head_append _ _ _ 'M' rfl)
      | true =>
        simp only [hav, Bool.not_true, Bool.false_eq_true, ↓reduceIte] at h
        by_cases hc : tx.order_items.any (fun x => decide (x.ID = tx.order_items_id_seq + 1)) = true
        · simp only [Store.createOrderItem, hc, if_true, Prod.mk.injEq, Except.error.injEq] at h
          rw [← h.2.2]
          exact Or.inr rfl
        · simp only [Store.createOrderItem, hc, Bool.false_eq_true, ↓reduceIte] at h
          exact ih _ _ _ _ _ h

/-- When the vendor row exists and the body binds, `Create` never answers
`Kios not found`. -/
theorem Create_not_kios_not_found (st : Store) (kiosID : Nat) (req : CreateOrderRequest)
    (userID : Nat) (clk : CreateClock) (k : Kios) (hv : req.valid = true)
    (hk : st.firstKios kiosID = some k) :
    (OrderHandler.Create st (some kiosID) (some req) userID clk).2 ≠
      .error StatusBadRequest "Kios not found" := by
  generalize hE : OrderHandler.Create st (some kiosID) (some req) userID clk = e
  simp only [OrderHandler.Create, OrderHandler.CreateFrom, ShouldBindJSON, hv, if_true, hk,
    OrderHandler.generateQueueNumberFrom] at hE
  by_cases hc : (st.orders.any fun x => decide (x.ID = st.orders_id_seq + 1) ||
      x.QueueNumber == queueNumberFormat kiosID clk.tFormat.Format20060102
        (st.countOrdersOn kiosID clk.tQuery)) = true
  · simp only [Store.createOrder, hc, if_true] at hE
    subst hE
    simp [StatusBadRequest, StatusInternalServerError]
  · simp only [Store.createOrder, hc, Bool.false_eq_true, ↓reduceIte] at hE
    rcases hci : OrderHandler.createItems (st.orders_id_seq + 1) req.Items _ 0 with ⟨tx2, r⟩
    rw [hci] at hE
    cases r with
    | error err =>
      obtain ⟨code, msg⟩ := err
      simp only at hE
      subst hE
      intro hcon
      simp only [Response.error.injEq] at hcon
      have hK : ("Kios not found" : String).data.head? = some 'K' := rfl
      rcases createItems_error_msg _ _ _ _ _ _ _ hci with hM | hF
      · exact ne_of_head_ne _ _ 'M' 'K' hM hK (by decide) hcon.2
      · exact ne_of_head_ne _ _ 'F' 'K' hF hK (by decide) hcon.2
    | ok total =>
      simp only at hE
      subst hE
      simp
/-- The digit loop never returns fewer characters than it was handed. -/
theorem toDigitsCore_length_ge (f : Nat) : ∀ (n : Nat) (ds : List Char),
    ds.length ≤ (Nat.toDigitsCore 10 f n ds).length := by
  induction f with
  | zero => intro n ds; simp [Nat.toDigitsCore]
  | succ f ih =>
    intro n ds
    simp only [Nat.toDigitsCore]
    split_ifs
    · simp
    · exact Nat.le_trans (by simp) (ih _ _)

/-- With fuel to spare, a number of at least `10 ^ k` is printed with more than
`k` digits. -/
theorem toDigitsCore_length_lower (k : Nat) : ∀ (f n : Nat) (ds : List Char),
    n < f → 10 ^ k ≤ n → k + 1 + ds.length ≤ (Nat.toDigitsCore 10 f n ds).length := by
  induction k with
  | zero =>
    intro f n ds hf _
    cases f with
    | zero => omega
    | succ f =>
      simp only [Nat.toDigitsCore]
      split_ifs
      · simp; omega
      · have := toDigitsCore_length_ge f (n / 10) (Nat.digitChar (n % 10) :: ds)
        simp at this
        omega
  | succ k ih =>
    intro f n ds hf hn
    cases f with
    | zero => omega
    | succ f =>
      have h10 : 10 ^ k ≤ n / 10 := by
        rw [Nat.le_div_iff_mul_le (by decide)]
        rw [pow_succ] at hn
        exact hn
      have hpos : 0 < 10 ^ k := Nat.pow_pos (by decide)
      have hne : n / 10 ≠ 0 := by omega
      simp only [Nat.toDigitsCore, hne, if_false]
      have := ih f (n / 10) (Nat.digitChar (n % 10) :: ds) (by omega) h10
      simp at this
      omega

/-- A number of at least `10 ^ k` has more than `k` decimal digits. -/
theorem repr_length_lower (k n : Nat) (h : 10 ^ k ≤ n) : k + 1 ≤ (Nat.repr n).length := by
  have := toDigitsCore_length_lower k (n + 1) n [] (by omega) h
  simpa [Nat.repr, Nat.toDigits] using this

/-! ### More about `Create` and `UpdateStatus` -/

/-- The rows written for the items repeat the menu ids, quantities and notes of
the request, in request order. -/
theorem forall₂_materialized_map (st : Store) (orderID : Nat)
    (items : List CreateOrderItemRequest) (new : List OrderItem)
    (h : List.Forall₂ (ItemMaterialized st orderID) items new) :
    new.map (fun it => (it.MenuID, it.Quantity, it.Notes)) =
      items.map (fun i => (i.MenuID, i.Quantity, i.Notes)) ∧
    new.length = items.length ∧ ∀ it ∈ new, it.OrderID = orderID := by
  induction h with
  | nil => exact ⟨rfl, rfl, fun it hit => by cases hit⟩
  | cons hab _ ih =>
    obtain ⟨h1, h2, h3, h4, -⟩ := hab
    refine ⟨?_, ?_, ?_⟩
    · simp only [List.map_cons, ih.1, h2, h3, h4]
    · simp only [List.length_cons, ih.2.1]
    · intro it hit
      rcases List.mem_cons.mp hit with rfl | hit1
      · exact h1
      · exact ih.2.2 it hit1

/-- On a store that respects the foreign key of `order_items.order_id`, the item
rows stored under a fresh order id are the ones appended for it. -/
theorem filter_items_fresh (st : Store) (id : Nat) (new : List OrderItem)
    (hfk : st.itemsReferenceOrders) (hfresh : ∀ x ∈ st.orders, x.ID ≠ id)
    (hnew : ∀ it ∈ new, it.OrderID = id) :
    (st.order_items ++ new).filter (fun it => decide (it.OrderID = id)) = new := by
  rw [List.filter_append]
  have hold : st.order_items.filter (fun it => decide (it.OrderID = id)) = [] := by
    rw [List.filter_eq_nil_iff]
    intro it hit
    obtain ⟨x, hx, hxid⟩ := hfk it hit
    simp only [decide_eq_true_eq]
    intro hcon
    exact hfresh x hx (hxid.trans hcon)
  have hkeep : new.filter (fun it => decide (it.OrderID = id)) = new := by
    rw [List.filter_eq_self]
    intro it hit
    simp only [decide_eq_true_eq]
    exact hnew it hit
  rw [hold, hkeep, List.nil_append]

/-- The status switch leaves the columns that identify and price the order alone. -/
theorem applyStatus_frame (o : Order) (req : UpdateOrderStatusRequest) (now : Time) :
    (OrderHandler.applyStatus o req now).QueueNumber = o.QueueNumber ∧
    (OrderHandler.applyStatus o req now).TotalAmount = o.TotalAmount ∧
    (OrderHandler.applyStatus o req now).KiosID = o.KiosID ∧
    (OrderHandler.applyStatus o req now).CreatedBy = o.CreatedBy ∧
    (OrderHandler.applyStatus o req now).CustomerName = o.CustomerName ∧
    (OrderHandler.applyStatus o req now).Notes = o.Notes ∧
    (OrderHandler.applyStatus o req now).CreatedAt = o.CreatedAt := by
  unfold OrderHandler.applyStatus
  simp only
  split_ifs <;> exact ⟨rfl, rfl, rfl, rfl, rfl, rfl, rfl⟩

/-- Filtering a mapped list, when the map fixes what the filter keeps and keeps
out what the filter drops. -/
theorem filter_map_of_fixed {α : Type} (p : α → Bool) (f : α → α)
    (hkeep : ∀ x, p x = true → f x = x) (hdrop : ∀ x, p x = false → p (f x) = false)
    (l : List α) : (l.map f).filter p = l.filter p := by
  induction l with
  | nil => rfl
  | cons x xs ih =>
    cases hx : p x with
    | true => simp [List.filter_cons, hkeep x hx, hx, ih]
    | false => simp [List.filter_cons, hdrop x hx, hx, ih]

/-- Saving an order rewrites only rows that carry its id. -/
theorem saveOrder_others (st : Store) (o1 : Order) (t : Time) :
    (st.saveOrder o1 t).1.order_items = st.order_items ∧
    (st.saveOrder o1 t).1.orders.length = st.orders.length ∧
    (st.saveOrder o1 t).1.orders.filter (fun x => decide (x.ID ≠ o1.ID)) =
      st.orders.filter (fun x => decide (x.ID ≠ o1.ID)) ∧
    (∀ id1, id1 ≠ o1.ID → (st.saveOrder o1 t).1.firstOrder id1 = st.firstOrder id1) := by
  refine ⟨rfl, by simp [Store.saveOrder], ?_, ?_⟩
  · simp only [Store.saveOrder]
    apply filter_map_of_fixed
    · intro x hx
      simp only [decide_eq_true_eq] at hx
      simp [hx]
    · intro x hx
      simp only [decide_eq_false_iff_not, not_not] at hx
      by_cases hx1 : x.DeletedAt = none
      · simp [hx, hx1]
      · simp [hx, hx1]
  · intro id1 hid1
    unfold Store.firstOrder
    simp only [Store.saveOrder]
    rw [find?_map_of_pred_eq]
    · cases hf : List.find? (fun o => decide (o.ID = id1) && o.DeletedAt.isNone) st.orders with
      | none => rfl
      | some y =>
        have hy := List.find?_some hf
        simp only [Bool.and_eq_true, decide_eq_true_eq] at hy
        have : ¬ (y.ID = o1.ID ∧ y.DeletedAt = none) := fun hc => hid1 (hy.1.symm.trans hc.1)
        simp [this]
    · intro x
      by_cases hx : x.ID = o1.ID ∧ x.DeletedAt = none
      · have h1 : ¬ o1.ID = id1 := fun hc => hid1 hc.symm
        simp [hx, h1]
      · simp [hx]

/-! ### Runs of `Create` -/

/-- The count query looks at its time argument only through the calendar date. -/
theorem countOrdersOn_congr (st : Store) (k : Nat) (t t1 : Time)
    (h : t.Format2006_01_02 = t1.Format2006_01_02) :
    st.countOrdersOn k t = st.countOrdersOn k t1 := by
  simp only [Store.countOrdersOn, Time.sameDate, h]

/-- The count query reads the `orders` table only. -/
theorem countOrdersOn_orders (st st1 : Store) (k : Nat) (t : Time)
    (h : st1.orders = st.orders) : st1.countOrdersOn k t = st.countOrdersOn k t := by
  simp only [Store.countOrdersOn, h]

/-- One more live order of the vendor on the date raises the count by one. -/
theorem countOrdersOn_append (st st1 : Store) (k : Nat) (t : Time) (o : Order)
    (h : st1.orders = st.orders ++ [o]) (hk : o.KiosID = k)
    (hd : o.CreatedAt.Format2006_01_02 = t.Format2006_01_02) (hlive : o.DeletedAt = none) :
    st1.countOrdersOn k t = st.countOrdersOn k t + 1 := by
  simp only [Store.countOrdersOn, h, List.filter_append, List.length_append]
  simp [List.filter_cons, hk, Time.sameDate, hd, hlive]

/-- One call of a run on the date of `today`: either it answers 201 and appends
one order whose ticket is numbered with the count of before plus one, or it does
not answer 201 and leaves the `orders` table alone. -/
theorem Create_step_sequence (st : Store) (k : Nat) (body : Option CreateOrderRequest)
    (userID : Nat) (clk : CreateClock) (today : Time)
    (hf : clk.tFormat.Format20060102 = today.Format20060102)
    (hq : clk.tQuery.Format2006_01_02 = today.Format2006_01_02)
    (hi : clk.tInsert.Format2006_01_02 = today.Format2006_01_02) :
    ((OrderHandler.Create st (some k) body userID clk).2.code = StatusCreated ∧
      ∃ o, (OrderHandler.Create st (some k) body userID clk).1.orders = st.orders ++ [o] ∧
        o.KiosID = k ∧
        o.QueueNumber =
          queueNumberFormat k today.Format20060102 (st.countOrdersOn k today) ∧
        (OrderHandler.Create st (some k) body userID clk).1.countOrdersOn k today =
          st.countOrdersOn k today + 1) ∨
    ((OrderHandler.Create st (some k) body userID clk).2.code ≠ StatusCreated ∧
      (OrderHandler.Create st (some k) body userID clk).1.orders = st.orders) := by
  by_cases h : (OrderHandler.Create st (some k) body userID clk).2.code = StatusCreated
  · left
    obtain ⟨kiosID, req, o, new, hid, -, -, -, -, ho, -, -, -, -, hoeq, -⟩ :=
      Create_created st (some k) body userID clk h
    cases hid
    refine ⟨h, o, ho, by rw [hoeq], ?_, ?_⟩
    · rw [hoeq]
      simp only [OrderHandler.generateQueueNumber, OrderHandler.generateQueueNumberFrom, hf,
        countOrdersOn_congr st k clk.tQuery today hq]
    · exact countOrdersOn_append st _ k today o ho (by rw [hoeq]) (by rw [hoeq]; exact hi)
        (by rw [hoeq])
  · right
    exact ⟨h, (Create_failed st (some k) body userID clk h).2.1⟩

/-- Over a run of calls on the date of `today`, the appended orders carry the
tickets numbered from the starting count plus one onwards, one per call that
answered 201. -/
theorem CreateRun_tickets (k : Nat) (today : Time)
    (calls : List (Option CreateOrderRequest × Nat × CreateClock)) :
    ∀ st : Store, callsOnDay today calls →
      ∃ created : List Order,
        (OrderHandler.CreateRun st k calls).1.orders = st.orders ++ created ∧
        created.length =
          ((OrderHandler.CreateRun st k calls).2.filter
            (fun r => decide (r.code = StatusCreated))).length ∧
        created.map (fun o => o.QueueNumber) =
          (List.range created.length).map
            (fun i => queueNumberFormat k today.Format20060102 (st.countOrdersOn k today + i)) ∧
        (∀ o ∈ created, o.KiosID = k) := by
  induction calls with
  | nil =>
    intro st _
    exact ⟨[], by simp [OrderHandler.CreateRun], by simp [OrderHandler.CreateRun],
      by simp, fun o ho => by cases ho⟩
  | cons c rest ih =>
    intro st hday
    obtain ⟨body, userID, clk⟩ := c
    have hc := hday (body, userID, clk) (List.mem_cons_self _ _)
    have hrest : callsOnDay today rest := fun c hc => hday c (List.mem_cons_of_mem _ hc)
    obtain ⟨created, h1, h2, h3, h4⟩ :=
      ih (OrderHandler.Create st (some k) body userID clk).1 hrest
    simp only [OrderHandler.CreateRun]
    rcases Create_step_sequence st k body userID clk today hc.1 hc.2.1 hc.2.2 with
      ⟨hok, o, ho, hok1, hq, hcount⟩ | ⟨hfail, ho⟩
    · refine ⟨o :: created, ?_, ?_, ?_, ?_⟩
      · rw [h1, ho]; simp
      · simp [List.filter_cons, hok, h2]
      · rw [List.map_cons, hq, h3, hcount, List.length_cons, List.range_succ_eq_map,
          List.map_cons, List.map_map]
        simp only [Nat.add_zero, List.cons.injEq, true_and]
        apply List.map_congr_left
        intro i _
        simp only [Function.comp]
        congr 1
        omega
      · intro x hx
        rcases List.mem_cons.mp hx with rfl | hx1
        · exact hok1
        · exact h4 x hx1
    · refine ⟨created, ?_, ?_, ?_, h4⟩
      · rw [h1, ho]
      · simp [List.filter_cons, hfail, h2]
      · rw [h3, countOrdersOn_orders st _ k today ho]

/-! ### Listings -/

/-- Sorting by `created_at` downwards rearranges the rows and puts the newest first. -/
theorem orderByCreatedAtDesc_spec (rows : List Order) :
    (orderByCreatedAtDesc rows).Perm rows ∧
    (orderByCreatedAtDesc rows).Sorted (fun a b => b.CreatedAt ≤ a.CreatedAt) := by
  haveI : IsTotal Order (fun a b => b.CreatedAt ≤ a.CreatedAt) :=
    ⟨fun a b => Time.le_total b.CreatedAt a.CreatedAt⟩
  haveI : IsTrans Order (fun a b => b.CreatedAt ≤ a.CreatedAt) :=
    ⟨fun a b c hab hbc => Time.le_trans c.CreatedAt b.CreatedAt a.CreatedAt hbc hab⟩
  exact ⟨List.perm_insertionSort _ rows, List.sorted_insertionSort _ rows⟩

/-- Sorting the rows found under a condition, stated for an equal condition. -/
theorem findOrders_sorted_desc (st : Store) (c p : Order → Bool) (hc : ∀ o, c o = p o) :
    ∃ rows : List Order,
      some (orderByCreatedAtDesc (st.findOrders c)) = some rows ∧
      rows.Perm (st.orders.filter (fun o => p o && o.DeletedAt.isNone)) ∧
      rows.Sorted (fun a b => b.CreatedAt ≤ a.CreatedAt) := by
  have h : c = p := funext hc
  subst h
  exact ⟨_, rfl, (orderByCreatedAtDesc_spec _).1, (orderByCreatedAtDesc_spec _).2⟩

/-- The listing query, when the date filter is absent or readable as a date:
it succeeds with a rearrangement of the live rows that satisfy the base
condition and the supplied filters, newest first. -/
theorem listOrders_spec (dateIn : String → Option String) (st : Store) (cond : Order → Bool)
    (status date : String) (hdate : date = "" ∨ ∃ day, dateIn date = some day) :
    ∃ rows : List Order,
      st.listOrders dateIn cond status date = some rows ∧
      rows.Perm (st.orders.filter (fun o =>
        cond o && decide (matchesFilters dateIn status date o) && o.DeletedAt.isNone)) ∧
      rows.Sorted (fun a b => b.CreatedAt ≤ a.CreatedAt) := by
  unfold Store.listOrders
  by_cases hs : status = "" <;> by_cases hd : date = ""
  · subst hs hd
    simp only [ne_eq, not_true_eq_false, if_false]
    exact findOrders_sorted_desc st _ _ (fun o => by simp [matchesFilters])
  · subst hs
    rcases hdate with h | ⟨day, hday⟩
    · exact absurd h hd
    · simp only [hd, ne_eq, not_true_eq_false, not_false_eq_true, if_false, if_true, hday]
      refine findOrders_sorted_desc st _ _ (fun o => ?_)
      simp only [matchesFilters, hday, true_or, true_and, hd, false_or, Option.some.injEq]
      rw [Bool.eq_iff_iff]
      simp only [Bool.and_eq_true, beq_iff_eq, decide_eq_true_eq]
      constructor <;> rintro ⟨h1, h2⟩ <;> exact ⟨h1, h2.symm⟩
  · subst hd
    simp only [hs, ne_eq, not_true_eq_false, not_false_eq_true, if_false, if_true]
    refine findOrders_sorted_desc st _ _ (fun o => ?_)
    simp only [matchesFilters, hs, false_or, or_true, and_true, true_or]
    rw [Bool.eq_iff_iff]
    simp only [Bool.and_eq_true, beq_iff_eq, decide_eq_true_eq]
  · rcases hdate with h | ⟨day, hday⟩
    · exact absurd h hd
    · simp only [hs, hd, ne_eq, not_false_eq_true, if_true, hday]
      refine findOrders_sorted_desc st _ _ (fun o => ?_)
      simp only [matchesFilters, hs, hd, hday, false_or, Option.some.injEq]
      rw [Bool.eq_iff_iff]
      simp only [Bool.and_eq_true, beq_iff_eq, decide_eq_true_eq]
      constructor
      · rintro ⟨⟨h1, h2⟩, h3⟩
        exact ⟨h1, h2, h3.symm⟩
      · rintro ⟨h1, h2, h3⟩
        exact ⟨⟨h1, h2⟩, h3.symm⟩

/-! ### Runes and decimal numerals -/

/-- The string of a rune has exactly one character. -/
theorem stringOfRune_length (r : Int) : (stringOfRune r).length = 1 := by
  unfold stringOfRune
  split_ifs <;> rfl

/-- The string of the rune of a number is never the decimal numeral of that number. -/
theorem stringOfRune_ne_repr (k : Nat) : stringOfRune (runeOfUint k) ≠ Nat.repr k := by
  by_cases hk : k < 10
  · interval_cases k <;> decide
  · intro h
    have h1 := stringOfRune_length (runeOfUint k)
    have h2 : 2 ≤ (Nat.repr k).length := repr_length_lower 1 k (by omega)
    rw [h] at h1
    omega

/-- A decimal numeral is not the empty string. -/
theorem repr_ne_empty (k : Nat) : Nat.repr k ≠ "" := by
  by_cases hk : k < 10
  · interval_cases k <;> decide
  · intro h
    have h2 : 2 ≤ (Nat.repr k).length := repr_length_lower 1 k (by omega)
    rw [h] at h2
    revert h2
    decide

/-! ### Decimal numerals are read back -/

/-- With fuel to spare, the digit loop puts the digits of `n` before what it was handed. -/
theorem toDigitsCore_eq_append (n : Nat) : ∀ (f : Nat) (ds : List Char), n < f →
    Nat.toDigitsCore 10 f n ds = Nat.toDigits 10 n ++ ds := by
  induction n using Nat.strong_induction_on with
  | _ n ih =>
    intro f ds hf
    cases f with
    | zero => omega
    | succ f =>
      by_cases h0 : n / 10 = 0
      · simp [Nat.toDigits, Nat.toDigitsCore, h0]
      · have hlt : n / 10 < n := by omega
        have h1 : Nat.toDigitsCore 10 (f + 1) n ds =
            Nat.toDigitsCore 10 f (n / 10) (Nat.digitChar (n % 10) :: ds) := by
          simp [Nat.toDigitsCore, h0]
        have h2 : Nat.toDigits 10 n =
            Nat.toDigitsCore 10 n (n / 10) [Nat.digitChar (n % 10)] := by
          simp [Nat.toDigits, Nat.toDigitsCore, h0]
        rw [h1, h2, ih (n / 10) hlt f _ (by omega), ih (n / 10) hlt n _ hlt]
        simp

/-- The digits of a number of two or more digits: those of the tens, then the unit. -/
theorem toDigits_step (n : Nat) (h : 10 ≤ n) :
    Nat.toDigits 10 n = Nat.toDigits 10 (n / 10) ++ [Nat.digitChar (n % 10)] := by
  have h0 : n / 10 ≠ 0 := by omega
  have h2 : Nat.toDigits 10 n =
      Nat.toDigitsCore 10 n (n / 10) [Nat.digitChar (n % 10)] := by
    simp [Nat.toDigits, Nat.toDigitsCore, h0]
  rw [h2, toDigitsCore_eq_append (n / 10) n _ (by omega)]

/-- The digits of a number below ten. -/
theorem toDigits_small (n : Nat) (h : n < 10) : Nat.toDigits 10 n = [Nat.digitChar n] := by
  interval_cases n <;> rfl

/-- The number a string of decimal digits stands for. -/
theorem decodeDigits_append (l : List Char) (c : Char) :
    decodeDigits (l ++ [c]) = 10 * decodeDigits l + (c.toNat - 48) := by
  simp [decodeDigits, List.foldl_append]

/-- Reading back the digits of a number gives the number. -/
theorem decodeDigits_toDigits (n : Nat) : decodeDigits (Nat.toDigits 10 n) = n := by
  induction n using Nat.strong_induction_on with
  | _ n ih =>
    by_cases h : n < 10
    · rw [toDigits_small n h]
      interval_cases n <;> rfl
    · rw [toDigits_step n (by omega), decodeDigits_append, ih (n / 10) (by omega)]
      have hd : (Nat.digitChar (n % 10)).toNat - 48 = n % 10 := by
        have hm : n % 10 < 10 := Nat.mod_lt _ (by decide)
        interval_cases (n % 10) <;> rfl
      rw [hd]
      omega

/-- Leading zeros do not change the number read. -/
theorem decodeDigits_zeros (z : Nat) (l : List Char) :
    decodeDigits (List.replicate z '0' ++ l) = decodeDigits l := by
  induction z with
  | zero => rfl
  | succ z ih =>
    simp only [List.replicate_succ, List.cons_append]
    have : decodeDigits ('0' :: (List.replicate z '0' ++ l)) =
        decodeDigits (List.replicate z '0' ++ l) := by
      simp [decodeDigits]
    rw [this, ih]

/-- No decimal digit is a hyphen. -/
theorem toDigits_no_hyphen (n : Nat) : '-' ∉ Nat.toDigits 10 n := by
  induction n using Nat.strong_induction_on with
  | _ n ih =>
    by_cases h : n < 10
    · rw [toDigits_small n h]
      interval_cases n <;> decide
    · rw [toDigits_step n (by omega)]
      intro hmem
      rcases List.mem_append.mp hmem with h1 | h1
      · exact ih (n / 10) (by omega) h1
      · have hm : n % 10 < 10 := Nat.mod_lt _ (by decide)
        revert h1
        interval_cases (n % 10) <;> decide

/-- Two lists cut at the first occurrence of a separator agree piece by piece. -/
theorem append_sep_inj {α : Type} (c : α) : ∀ (a b x y : List α), c ∉ a → c ∉ b →
    a ++ c :: x = b ++ c :: y → a = b ∧ x = y := by
  intro a
  induction a with
  | nil =>
    intro b x y _ hb h
    cases b with
    | nil => simpa using h
    | cons b0 bs =>
      simp only [List.nil_append, List.cons_append, List.cons.injEq] at h
      exact absurd (List.mem_cons.mpr (Or.inl h.1)) hb
  | cons a0 as ih =>
    intro b x y ha hb h
    cases b with
    | nil =>
      simp only [List.nil_append, List.cons_append, List.cons.injEq] at h
      exact absurd (List.mem_cons.mpr (Or.inl h.1.symm)) ha
    | cons b0 bs =>
      simp only [List.cons_append, List.cons.injEq] at h
      obtain ⟨h1, h2⟩ := ih bs x y (fun hc => ha (List.mem_cons_of_mem _ hc))
        (fun hc => hb (List.mem_cons_of_mem _ hc)) h.2
      exact ⟨by rw [h.1, h1], h2⟩

/-- The characters of a ticket: `K`, the digits of the vendor id, a hyphen, the
date, a hyphen, zeros and the digits of the sequence number. -/
theorem queueNumberFormat_data (k : Nat) (d : String) (n : Nat) :
    (queueNumberFormat k d n).data =
      'K' :: (Nat.toDigits 10 k ++ '-' :: (d.data ++ '-' ::
        (List.replicate (3 - (Nat.repr (n + 1)).length) '0' ++ Nat.toDigits 10 (n + 1)))) := by
  simp only [queueNumberFormat, fmtD, fmt03d, zeroPad, String.data_append]
  have hr : ∀ m : Nat, (Nat.repr m).data = Nat.toDigits 10 m := fun _ => rfl
  rw [hr, hr]
  simp

/-! ## Lemmas about `float64` arithmetic -/

theorem bitLengthAux_zero (fuel : Nat) : bitLengthAux fuel 0 = 0 := by
  cases fuel <;> simp [bitLengthAux]

theorem bitLength_step (n j k : Nat) (hj : 2 ^ j ≤ n) (hlt : n / 2 ^ j < 2 ^ k)
    (hge : n / 2 ^ j ≠ 0 → 2 ^ k ≤ 2 * (n / 2 ^ j)) :
    n < 2 ^ (k + j) ∧ 2 ^ (k + j) ≤ 2 * n := by
  have hpos : 0 < 2 ^ j := Nat.pow_pos (by decide)
  have hq : n / 2 ^ j ≠ 0 := Nat.pos_iff_ne_zero.mp (Nat.div_pos hj hpos)
  constructor
  · rw [pow_add]
    exact (Nat.div_lt_iff_lt_mul hpos).mp hlt
  · rw [pow_add]
    calc 2 ^ k * 2 ^ j ≤ 2 * (n / 2 ^ j) * 2 ^ j := Nat.mul_le_mul_right _ (hge hq)
      _ = 2 * (n / 2 ^ j * 2 ^ j) := by ring
      _ ≤ 2 * n := Nat.mul_le_mul_left _ (Nat.div_mul_le_self n (2 ^ j))

/-- The result of the digit count brackets its argument between two powers of two. -/
theorem bitLengthAux_spec : ∀ (fuel n : Nat), n ≤ fuel →
    n < 2 ^ bitLengthAux fuel n ∧ (n ≠ 0 → 2 ^ bitLengthAux fuel n ≤ 2 * n) := by
  intro fuel
  induction fuel with
  | zero =>
    intro n hn
    have : n = 0 := by omega
    subst this
    simp [bitLengthAux]
  | succ fuel ih =>
    intro n hn
    by_cases h0 : n = 0
    · subst h0
      simp [bitLengthAux]
    have hdiv : ∀ j : Nat, 1 ≤ j → n / 2 ^ j ≤ fuel := by
      intro j hj
      have h2 : 2 ≤ 2 ^ j := by
        calc 2 = 2 ^ 1 := rfl
          _ ≤ 2 ^ j := Nat.pow_le_pow_right (by decide) hj
      have : n / 2 ^ j < n := Nat.div_lt_self (Nat.pos_of_ne_zero h0) h2
      omega
    by_cases h32 : 2 ^ 32 ≤ n
    · have hrw : bitLengthAux (fuel + 1) n = bitLengthAux fuel (n / 2 ^ 32) + 32 := by
        rw [bitLengthAux]; simp only [h0, if_false, h32, if_true]
      obtain ⟨hlt, hge⟩ := ih (n / 2 ^ 32) (hdiv 32 (by decide))
      rw [hrw]
      have := bitLength_step n 32 _ h32 hlt hge
      exact ⟨this.1, fun _ => this.2⟩
    by_cases h8 : 2 ^ 8 ≤ n
    · have hrw : bitLengthAux (fuel + 1) n = bitLengthAux fuel (n / 2 ^ 8) + 8 := by
        rw [bitLengthAux]; simp only [h0, if_false, h32, h8, if_true]
      obtain ⟨hlt, hge⟩ := ih (n / 2 ^ 8) (hdiv 8 (by decide))
      rw [hrw]
      have := bitLength_step n 8 _ h8 hlt hge
      exact ⟨this.1, fun _ => this.2⟩
    have hrw : bitLengthAux (fuel + 1) n = bitLengthAux fuel (n / 2) + 1 := by
      rw [bitLengthAux]; simp only [h0, if_false, h32, h8]
    rw [hrw]
    by_cases h1 : n = 1
    · subst h1
      simp [bitLengthAux_zero]
    · have h2 : 2 ^ 1 ≤ n := by simp only [pow_one]; omega
      have hd := ih (n / 2 ^ 1) (hdiv 1 (by decide))
      simp only [pow_one] at hd
      have := bitLength_step n 1 _ h2 (by simpa using hd.1) (by simpa using hd.2)
      exact ⟨this.1, fun _ => this.2⟩

theorem bitLength_lt (n : Nat) : n < 2 ^ bitLength n :=
  (bitLengthAux_spec n n (Nat.le_refl n)).1

theorem bitLength_le (n : Nat) (h : n ≠ 0) : 2 ^ bitLength n ≤ 2 * n :=
  (bitLengthAux_spec n n (Nat.le_refl n)).2 h

/-- Rounding a magnitude that is a `float64` gives that `float64`: the case where
the significand is scaled up to the target exponent. -/
theorem round_exact_up (s : Bool) (m : Nat) (e : Int) (m0 : Nat) (e0 : Int)
    (hc : Float64.Canonical m0 e0) (he : e0 ≤ e) (hm : m0 = m * 2 ^ (e - e0).toNat) :
    Float64.round s m e = .finite s m0 e0 := by
  obtain ⟨hlt, hlo, hhi, hnorm⟩ := hc
  by_cases h0 : m = 0
  · subst h0
    have hm0 : m0 = 0 := by simpa using hm
    subst hm0
    have he0 : e0 = -1074 := by
      rcases hnorm with h | h
      · simp at h
      · exact h
    simp [Float64.round, he0]
  · obtain ⟨k, hk⟩ : ∃ k : Nat, e - e0 = (k : Int) :=
      ⟨(e - e0).toNat, (Int.toNat_of_nonneg (by omega)).symm⟩
    have hk1 : (e - e0).toNat = k := by rw [hk]; exact Int.toNat_ofNat k
    rw [hk1] at hm
    have hL1 := bitLength_lt m
    have hL2 := bitLength_le m h0
    have hpos : 0 < 2 ^ k := Nat.pow_pos (by decide)
    have h1 : m0 < 2 ^ (bitLength m + k) := by
      rw [hm, pow_add]
      exact Nat.mul_lt_mul_of_pos_right hL1 hpos
    have h2 : 2 ^ (bitLength m + k) ≤ 2 * m0 := by
      rw [hm, pow_add, ← Nat.mul_assoc]
      exact Nat.mul_le_mul_right _ hL2
    have h3 : bitLength m + k ≤ 53 := by
      by_contra hcon
      have h54 : 2 ^ 54 ≤ 2 ^ (bitLength m + k) := Nat.pow_le_pow_right (by decide) (by omega)
      omega
    have he1 : max (e + (bitLength m : Int) - 53) (-1074) = e0 := by
      rcases hnorm with h | h
      · have h52 : 52 < bitLength m + k := by
          by_contra hcon
          have h4 : 2 ^ (bitLength m + k) ≤ 2 ^ 52 := Nat.pow_le_pow_right (by decide) (by omega)
          omega
        have h5 : e + (bitLength m : Int) - 53 = e0 := by omega
        rw [h5]
        exact max_eq_left hlo
      · have h5 : e + (bitLength m : Int) - 53 ≤ -1074 := by omega
        rw [h]
        exact max_eq_right h5
    have h971 : ¬ (971 < e0) := by omega
    simp only [Float64.round, h0, if_false, he1, he, if_true, h971, hk1, ← hm]

/-- Rounding a magnitude that is a `float64` gives that `float64`: the case where
the digits dropped are all zero. -/
theorem round_exact_down (s : Bool) (m : Nat) (e : Int) (m0 : Nat) (e0 : Int)
    (hc : Float64.Canonical m0 e0) (he : e < e0) (hm : m = m0 * 2 ^ (e0 - e).toNat)
    (h0 : m ≠ 0) : Float64.round s m e = .finite s m0 e0 := by
  obtain ⟨hlt, hlo, hhi, hnorm⟩ := hc
  obtain ⟨k, hk⟩ : ∃ k : Nat, e0 - e = (k : Int) :=
    ⟨(e0 - e).toNat, (Int.toNat_of_nonneg (by omega)).symm⟩
  have hk1 : (e0 - e).toNat = k := by rw [hk]; exact Int.toNat_ofNat k
  rw [hk1] at hm
  have hk0 : 1 ≤ k := by omega
  have hL1 := bitLength_lt m
  have hL2 := bitLength_le m h0
  have hpos : 0 < 2 ^ k := Nat.pow_pos (by decide)
  have h1 : m < 2 ^ (53 + k) := by
    rw [hm, pow_add]
    exact Nat.mul_lt_mul_of_pos_right hlt hpos
  have h3 : bitLength m ≤ 53 + k := by
    by_contra hcon
    have h54 : 2 ^ (54 + k) ≤ 2 ^ bitLength m := Nat.pow_le_pow_right (by decide) (by omega)
    have h55 : 2 ^ (54 + k) = 2 * 2 ^ (53 + k) := by
      rw [show 54 + k = (53 + k) + 1 by omega, pow_succ]; ring
    omega
  have he1 : max (e + (bitLength m : Int) - 53) (-1074) = e0 := by
    rcases hnorm with h | h
    · have h52 : 52 + k < bitLength m := by
        by_contra hcon
        have h4 : 2 ^ bitLength m ≤ 2 ^ (52 + k) := Nat.pow_le_pow_right (by decide) (by omega)
        have h5 : 2 ^ (52 + k) ≤ m := by
          rw [hm, pow_add]
          exact Nat.mul_le_mul_right _ h
        omega
      have h5 : e + (bitLength m : Int) - 53 = e0 := by omega
      rw [h5]
      exact max_eq_left hlo
    · have h5 : e + (bitLength m : Int) - 53 ≤ -1074 := by omega
      rw [h]
      exact max_eq_right h5
  have hnle : ¬ (e0 ≤ e) := by omega
  have h971 : ¬ (971 < e0) := by omega
  have hq : m / 2 ^ k = m0 := by rw [hm]; exact Nat.mul_div_cancel _ hpos
  have hr : m % 2 ^ k = 0 := by rw [hm]; exact Nat.mul_mod_left _ _
  have hhalf : 0 < 2 ^ (k - 1) := Nat.pow_pos (by decide)
  have hne : m0 ≠ 2 ^ 53 := by omega
  simp only [Float64.round, h0, if_false, he1, hnle, hk1, hq, hr, hhalf, if_true, hne, h971]

/-- Rounding is exact on the values of the format: a magnitude equal to that of a
`float64` in normal form is rounded to it. -/
theorem round_exact (s : Bool) (m : Nat) (e : Int) (m0 : Nat) (e0 : Int)
    (hc : Float64.Canonical m0 e0) (h : (m : ℚ) * (2 : ℚ) ^ e = (m0 : ℚ) * (2 : ℚ) ^ e0) :
    Float64.round s m e = .finite s m0 e0 := by
  have h2 : ∀ z : Int, (2 : ℚ) ^ z ≠ 0 := fun z => zpow_ne_zero z (by norm_num)
  rcases le_or_lt e0 e with he | he
  · apply round_exact_up s m e m0 e0 hc he
    obtain ⟨k, hk⟩ : ∃ k : Nat, e - e0 = (k : Int) :=
      ⟨(e - e0).toNat, (Int.toNat_of_nonneg (by omega)).symm⟩
    have hk1 : (e - e0).toNat = k := by rw [hk]; exact Int.toNat_ofNat k
    rw [hk1]
    have hee : e = e0 + (k : Int) := by omega
    rw [hee, zpow_add₀ (by norm_num : (2 : ℚ) ≠ 0), zpow_natCast] at h
    have h3 : (m : ℚ) * 2 ^ k = (m0 : ℚ) := by
      have h4 : ((m : ℚ) * 2 ^ k) * (2 : ℚ) ^ e0 = (m0 : ℚ) * (2 : ℚ) ^ e0 := by
        rw [← h]; ring
      exact mul_right_cancel₀ (h2 e0) h4
    exact_mod_cast h3.symm
  · by_cases h0 : m = 0
    · subst h0
      have hm0 : m0 = 0 := by
        have h3 : (m0 : ℚ) * (2 : ℚ) ^ e0 = 0 := by rw [← h]; simp
        rcases mul_eq_zero.mp h3 with h4 | h4
        · exact_mod_cast h4
        · exact absurd h4 (h2 e0)
      subst hm0
      have he0 : e0 = -1074 := by
        rcases hc.2.2.2 with h5 | h5
        · simp at h5
        · exact h5
      simp [Float64.round, he0]
    · apply round_exact_down s m e m0 e0 hc he _ h0
      obtain ⟨k, hk⟩ : ∃ k : Nat, e0 - e = (k : Int) :=
        ⟨(e0 - e).toNat, (Int.toNat_of_nonneg (by omega)).symm⟩
      have hk1 : (e0 - e).toNat = k := by rw [hk]; exact Int.toNat_ofNat k
      rw [hk1]
      have hee : e0 = e + (k : Int) := by omega
      rw [hee, zpow_add₀ (by norm_num : (2 : ℚ) ≠ 0), zpow_natCast] at h
      have h3 : (m : ℚ) = (m0 : ℚ) * 2 ^ k := by
        have h4 : (m : ℚ) * (2 : ℚ) ^ e = ((m0 : ℚ) * 2 ^ k) * (2 : ℚ) ^ e := by
          rw [h]; ring
        exact mul_right_cancel₀ (h2 e) h4
      exact_mod_cast h3

/-- Every whole number up to `2 ^ 53` is a `float64`. -/
theorem canonical_of_nat (n : Nat) (h : n ≤ 2 ^ 53) :
    ∃ (m0 : Nat) (e0 : Int), Float64.Canonical m0 e0 ∧ (m0 : ℚ) * (2 : ℚ) ^ e0 = (n : ℚ) := by
  by_cases h0 : n = 0
  · subst h0
    exact ⟨0, -1074, ⟨by norm_num, le_refl _, by norm_num, Or.inr rfl⟩, by simp⟩
  by_cases h53 : n = 2 ^ 53
  · subst h53
    refine ⟨2 ^ 52, 1, ⟨by norm_num, by norm_num, by norm_num, Or.inl (le_refl _)⟩, ?_⟩
    norm_num
  have hlt : n < 2 ^ 53 := lt_of_le_of_ne h h53
  have hL1 := bitLength_lt n
  have hL2 := bitLength_le n h0
  have hL : bitLength n ≤ 53 := by
    by_contra hcon
    have h54 : 2 ^ 54 ≤ 2 ^ bitLength n := Nat.pow_le_pow_right (by decide) (by omega)
    omega
  obtain ⟨k, hk⟩ : ∃ k : Nat, bitLength n + k = 53 := ⟨53 - bitLength n, by omega⟩
  have hpos : 0 < 2 ^ k := Nat.pow_pos (by decide)
  have hpow : 2 ^ bitLength n * 2 ^ k = 2 ^ 53 := by rw [← pow_add, hk]
  refine ⟨n * 2 ^ k, -(k : Int), ⟨?_, by omega, by omega, Or.inl ?_⟩, ?_⟩
  · calc n * 2 ^ k < 2 ^ bitLength n * 2 ^ k := Nat.mul_lt_mul_of_pos_right hL1 hpos
      _ = 2 ^ 53 := hpow
  · have h1 : 2 ^ 53 ≤ 2 * (n * 2 ^ k) := by
      calc 2 ^ 53 = 2 ^ bitLength n * 2 ^ k := hpow.symm
        _ ≤ 2 * n * 2 ^ k := Nat.mul_le_mul_right _ hL2
        _ = 2 * (n * 2 ^ k) := by ring
    omega
  · rw [zpow_neg, zpow_natCast]
    push_cast
    field_simp

/-- The conversion of a whole number up to `2 ^ 53` is exact. -/
theorem ofNat_exact (n : Nat) (h : n ≤ 2 ^ 53) :
    ∃ (m0 : Nat) (e0 : Int), Float64.ofNat n = .finite false m0 e0 ∧
      Float64.Canonical m0 e0 ∧ (m0 : ℚ) * (2 : ℚ) ^ e0 = (n : ℚ) := by
  obtain ⟨m0, e0, hc, hv⟩ := canonical_of_nat n h
  refine ⟨m0, e0, ?_, hc, hv⟩
  apply round_exact false n 0 m0 e0 hc
  rw [hv]
  simp

/-- The `float64` of a whole number up to `2 ^ 53` stands for that number. -/
theorem toRat_ofNat (n : Nat) (h : n ≤ 2 ^ 53) : (Float64.ofNat n).toRat? = some (n : ℚ) := by
  obtain ⟨m0, e0, hx, -, hv⟩ := ofNat_exact n h
  rw [hx]
  simp [Float64.toRat?, signed, hv]

theorem ofNat_zero : Float64.ofNat 0 = .finite false 0 (-1074) := by
  simp [Float64.ofNat, Float64.round]

/-- A sum of two non-negative `float64` values whose exact value is a `float64` is
that value. -/
theorem add_exact (m : Nat) (e : Int) (n : Nat) (f : Int) (m0 : Nat) (e0 : Int)
    (hc : Float64.Canonical m0 e0)
    (h : (m : ℚ) * (2 : ℚ) ^ e + (n : ℚ) * (2 : ℚ) ^ f = (m0 : ℚ) * (2 : ℚ) ^ e0) :
    Float64.add (.finite false m e) (.finite false n f) = .finite false m0 e0 := by
  have h2 : ∀ z : Int, (2 : ℚ) ^ z ≠ 0 := fun z => zpow_ne_zero z (by norm_num)
  have key : ∀ (a : Nat) (x g : Int), (a = 0 ∨ g ≤ x) →
      ((a * 2 ^ (x - g).toNat : Nat) : ℚ) * (2 : ℚ) ^ g = (a : ℚ) * (2 : ℚ) ^ x := by
    intro a x g hg
    rcases hg with ha | hg
    · subst ha; simp
    · obtain ⟨k, hk⟩ : ∃ k : Nat, x - g = (k : Int) :=
        ⟨(x - g).toNat, (Int.toNat_of_nonneg (by omega)).symm⟩
      have hk1 : (x - g).toNat = k := by rw [hk]; exact Int.toNat_ofNat k
      have hx : x = g + (k : Int) := by omega
      rw [hk1, hx, zpow_add₀ (by norm_num : (2 : ℚ) ≠ 0), zpow_natCast]
      push_cast
      ring
  have hgm : m = 0 ∨ alignExp m e n f ≤ e := by
    by_cases hm : m = 0
    · exact Or.inl hm
    · right
      unfold alignExp
      by_cases hn : n = 0
      · simp [hm, hn]
      · simp [hm, hn]
  have hgn : n = 0 ∨ alignExp m e n f ≤ f := by
    by_cases hn : n = 0
    · exact Or.inl hn
    · right
      unfold alignExp
      by_cases hm : m = 0
      · simp [hm]
      · simp [hm, hn]
  have hval : ((m * 2 ^ (e - alignExp m e n f).toNat + n * 2 ^ (f - alignExp m e n f).toNat : Nat) : ℚ) *
      (2 : ℚ) ^ (alignExp m e n f) = (m0 : ℚ) * (2 : ℚ) ^ e0 := by
    rw [← h, ← key m e _ hgm, ← key n f _ hgn]
    push_cast
    ring
  have hsum : signed false (m * 2 ^ (e - alignExp m e n f).toNat) +
      signed false (n * 2 ^ (f - alignExp m e n f).toNat) =
      ((m * 2 ^ (e - alignExp m e n f).toNat + n * 2 ^ (f - alignExp m e n f).toNat : Nat) : Int) := by
    simp [signed]
  simp only [Float64.add, hsum]
  by_cases hz : m * 2 ^ (e - alignExp m e n f).toNat + n * 2 ^ (f - alignExp m e n f).toNat = 0
  · rw [hz] at hval ⊢
    have hm0 : m0 = 0 := by
      have h3 : (m0 : ℚ) * (2 : ℚ) ^ e0 = 0 := by rw [← hval]; simp
      rcases mul_eq_zero.mp h3 with h4 | h4
      · exact_mod_cast h4
      · exact absurd h4 (h2 e0)
    subst hm0
    have he0 : e0 = -1074 := by
      rcases hc.2.2.2 with h5 | h5
      · simp at h5
      · exact h5
    simp [he0]
  · have hnz : ¬ (((m * 2 ^ (e - alignExp m e n f).toNat +
        n * 2 ^ (f - alignExp m e n f).toNat : Nat) : Int) = 0) := by exact_mod_cast hz
    have hneg : ¬ (((m * 2 ^ (e - alignExp m e n f).toNat +
        n * 2 ^ (f - alignExp m e n f).toNat : Nat) : Int) < 0) := by
      exact not_lt.mpr (Int.ofNat_nonneg _)
    simp only [hnz, if_false, hneg, decide_False, Int.natAbs_ofNat]
    exact round_exact false _ _ m0 e0 hc hval

/-- A product of two non-negative `float64` values whose exact value is a
`float64` is that value. -/
theorem mul_exact (m : Nat) (e : Int) (n : Nat) (f : Int) (m0 : Nat) (e0 : Int)
    (hc : Float64.Canonical m0 e0)
    (h : ((m : ℚ) * (2 : ℚ) ^ e) * ((n : ℚ) * (2 : ℚ) ^ f) = (m0 : ℚ) * (2 : ℚ) ^ e0) :
    Float64.mul (.finite false m e) (.finite false n f) = .finite false m0 e0 := by
  simp only [Float64.mul, Bool.xor_false]
  apply round_exact false _ _ m0 e0 hc
  rw [← h, zpow_add₀ (by norm_num : (2 : ℚ) ≠ 0)]
  push_cast
  ring

/-- Adding whole numbers in `float64` is exact as long as the sum is at most `2 ^ 53`. -/
theorem add_ofNat (a b : Nat) (h : a + b ≤ 2 ^ 53) :
    Float64.add (Float64.ofNat a) (Float64.ofNat b) = Float64.ofNat (a + b) := by
  obtain ⟨m, e, hx, -, hxv⟩ := ofNat_exact a (by omega)
  obtain ⟨n, f, hy, -, hyv⟩ := ofNat_exact b (by omega)
  obtain ⟨m0, e0, hz, hc, hzv⟩ := ofNat_exact (a + b) h
  rw [hx, hy, hz]
  apply add_exact m e n f m0 e0 hc
  rw [hxv, hyv, hzv]
  push_cast
  rfl

/-- Multiplying whole numbers in `float64` is exact as long as the factors and the
product are at most `2 ^ 53`. -/
theorem mul_ofNat (a b : Nat) (ha : a ≤ 2 ^ 53) (hb : b ≤ 2 ^ 53) (h : a * b ≤ 2 ^ 53) :
    Float64.mul (Float64.ofNat a) (Float64.ofNat b) = Float64.ofNat (a * b) := by
  obtain ⟨m, e, hx, -, hxv⟩ := ofNat_exact a ha
  obtain ⟨n, f, hy, -, hyv⟩ := ofNat_exact b hb
  obtain ⟨m0, e0, hz, hc, hzv⟩ := ofNat_exact (a * b) h
  rw [hx, hy, hz]
  apply mul_exact m e n f m0 e0 hc
  rw [hxv, hyv, hzv]
  push_cast
  rfl

/-- The conversion of a non-negative `int` is the one of the natural number. -/
theorem ofInt_of_nonneg (q : Int) (h : 0 ≤ q) : Float64.ofInt q = Float64.ofNat q.toNat := by
  obtain ⟨k, rfl⟩ := Int.eq_ofNat_of_zero_le h
  have hk : ¬ ((k : Int) < 0) := by omega
  simp [Float64.ofInt, Float64.ofNat, hk]

/-- A running `float64` sum of whole numbers is exact as long as the total is at
most `2 ^ 53`. -/
theorem foldl_add_ofNat (ns : List Nat) :
    ∀ a : Nat, a + ns.sum ≤ 2 ^ 53 →
      (ns.map Float64.ofNat).foldl Float64.add (Float64.ofNat a) = Float64.ofNat (a + ns.sum) := by
  induction ns with
  | nil => intro a _; simp
  | cons n rest ih =>
    intro a h
    simp only [List.sum_cons] at h
    simp only [List.map_cons, List.foldl_cons, List.sum_cons]
    rw [add_ofNat a n (by omega), ih (a + n) (by omega), Nat.add_assoc]

theorem mem_le_sum (ns : List Nat) (n : Nat) (h : n ∈ ns) : n ≤ ns.sum := by
  induction ns with
  | nil => cases h
  | cons a rest ih =>
    rcases List.mem_cons.mp h with rfl | h1
    · simp
    · have := ih h1
      simp only [List.sum_cons]
      omega

/-! ## Queue numbers -/

/-- C2 (counterexample): with two orders already placed for vendor 7 on
2024-03-15 the allocator returns `K7-20240315-003`; the ticket starts with the
letter `K`, so it is not the string `V7-20240315-003` of the claim. -/
theorem generateQueueNumber_not_V_sample :
    Sample.store.countOrdersOn 7 Sample.t1 = 2 ∧
    OrderHandler.generateQueueNumber Sample.store 7 Sample.t1 Sample.t1 =
      ("K7-20240315-003", none) ∧
    (OrderHandler.generateQueueNumber Sample.store 7 Sample.t1 Sample.t1).1 ≠
      "V7-20240315-003" := by
  decide

/-- C2 (amended): for every vendor id, clock reads and store, with `n` the number
of live orders of that vendor created on the queried date, the allocator returns
without error the string `K{vendor_id}-{YYYYMMDD}-{sequence}`, where the sequence
is the decimal form of `n + 1` preceded by as many zeros as are needed to reach
three characters (none when it already has three or more); with `n = 2` the
sequence is `003`. -/
theorem generateQueueNumber_format (st : Store) (kiosID : Nat) (tFormat tQuery : Time) :
    ∃ seq : String,
      OrderHandler.generateQueueNumber st kiosID tFormat tQuery =
        ("K" ++ Nat.repr kiosID ++ "-" ++ tFormat.Format20060102 ++ "-" ++ seq, none) ∧
      (∃ zeros : Nat, seq = String.mk (List.replicate zeros '0') ++
        Nat.repr (st.countOrdersOn kiosID tQuery + 1)) ∧
      seq.length = max 3 (Nat.repr (st.countOrdersOn kiosID tQuery + 1)).length ∧
      (st.countOrdersOn kiosID tQuery = 2 → seq = "003") := by
  refine ⟨fmt03d (st.countOrdersOn kiosID tQuery + 1), rfl, ⟨_, rfl⟩, ?_, ?_⟩
  · unfold fmt03d zeroPad
    rw [String.length_append, String.length_mk, List.length_replicate]
    omega
  · intro h
    rw [h]
    decide

/-! ## Order creation -/

/-- C1 (counterexample): on the sample store with a menu priced at 1, the request
for `2 ^ 53` pieces and then one more piece is answered 201.  The two item rows
stored under the new order carry the subtotals `2 ^ 53` and `1`, and the order row
carries the total `2 ^ 53`, not their sum `2 ^ 53 + 1`: the sum is rounded to the
nearest `float64`. -/
theorem Create_total_rounds_sample :
    (OrderHandler.Create Sample.storeKerupuk (some 7) (some Sample.requestBulk) 1
      Sample.clock).2.code = StatusCreated ∧
    ∃ o : Order,
      (OrderHandler.Create Sample.storeKerupuk (some 7) (some Sample.requestBulk) 1
        Sample.clock).1.orders = Sample.storeKerupuk.orders ++ [o] ∧
      ((OrderHandler.Create Sample.storeKerupuk (some 7) (some Sample.requestBulk) 1
        Sample.clock).1.order_items.filter (fun it => decide (it.OrderID = o.ID))).map
          (fun it => (it.Quantity, it.Price.toRat?, it.Subtotal.toRat?)) =
        [(9007199254740992, some 1, some 9007199254740992), (1, some 1, some 1)] ∧
      o.TotalAmount.toRat? = some 9007199254740992 ∧
      (9007199254740992 : ℚ) ≠ 9007199254740992 + 1 := by
  have hrows : ((OrderHandler.Create Sample.storeKerupuk (some 7) (some Sample.requestBulk) 1
      Sample.clock).1.order_items.filter (fun it => decide (it.OrderID = 4))).map
        (fun it => (it.Quantity, it.Price, it.Subtotal)) =
      [(9007199254740992, .finite false (2 ^ 52) (-52), .finite false (2 ^ 52) 1),
        (1, .finite false (2 ^ 52) (-52), .finite false (2 ^ 52) (-52))] := by decide
  have h1 : (Float64.finite false (2 ^ 52) (-52)).toRat? = some 1 := by
    simp only [Float64.toRat?, signed]
    norm_num
  have h2 : (Float64.finite false (2 ^ 52) 1).toRat? = some 9007199254740992 := by
    simp only [Float64.toRat?, signed]
    norm_num
  refine ⟨by decide, ⟨4, "K7-20240315-003", 7, "Gita", StatusPending, .finite false (2 ^ 52) 1,
    none, none, none, none, none, "", 1, Sample.t1, Sample.t2, none⟩, by decide, ?_, h2,
    by norm_num⟩
  have h3 := congrArg (List.map (fun r : Int × Float64 × Float64 =>
    (r.1, r.2.1.toRat?, r.2.2.toRat?))) hrows
  simp only [List.map_map, List.map_cons, List.map_nil, h1, h2] at h3
  exact h3

/-- C1 (amended): when `Create` answers 201 on a store whose item rows all reference
an order row, exactly one order row is added, the item rows persisted with its id
are the rows this call inserted, and its `total_amount` is the `float64` sum of
their subtotals, added one after the other to `0` in the order of the rows.  When
the subtotals are whole numbers whose sum is at most `2 ^ 53`, no addition rounds
and the total stands for exactly their sum. -/
theorem Create_total_float_sum (st : Store) (idParam : Option Nat)
    (body : Option CreateOrderRequest) (userID : Nat) (clk : CreateClock)
    (hfk : st.itemsReferenceOrders)
    (h : (OrderHandler.Create st idParam body userID clk).2.code = StatusCreated) :
    ∃ (o : Order) (new : List OrderItem),
      (OrderHandler.Create st idParam body userID clk).1.orders = st.orders ++ [o] ∧
      (OrderHandler.Create st idParam body userID clk).1.order_items = st.order_items ++ new ∧
      (OrderHandler.Create st idParam body userID clk).1.order_items.filter
        (fun it => decide (it.OrderID = o.ID)) = new ∧
      o.TotalAmount =
        ((OrderHandler.Create st idParam body userID clk).1.order_items.filter
          (fun it => decide (it.OrderID = o.ID))).foldl
            (fun acc it => Float64.add acc it.Subtotal) 0 ∧
      ∀ ns : List Nat,
        ((OrderHandler.Create st idParam body userID clk).1.order_items.filter
          (fun it => decide (it.OrderID = o.ID))).map (fun it => it.Subtotal) =
            ns.map Float64.ofNat →
        ns.sum ≤ 2 ^ 53 →
        ((OrderHandler.Create st idParam body userID clk).1.order_items.filter
          (fun it => decide (it.OrderID = o.ID))).map (fun it => it.Subtotal.toRat?) =
            ns.map (fun n : Nat => some (n : ℚ)) ∧
        o.TotalAmount.toRat? = some ((ns.sum : Nat) : ℚ) := by
  obtain ⟨kiosID, req, o, new, -, -, -, -, hfresh, ho, hi, -, -, -, hoeq, hmat⟩ :=
    Create_created st idParam body userID clk h
  have hid : o.ID = st.orders_id_seq + 1 := by rw [hoeq]
  have hfilter : (OrderHandler.Create st idParam body userID clk).1.order_items.filter
      (fun it => decide (it.OrderID = o.ID)) = new := by
    rw [hi, List.filter_append]
    have hold : st.order_items.filter (fun it => decide (it.OrderID = o.ID)) = [] := by
      rw [List.filter_eq_nil_iff]
      intro it hit
      obtain ⟨x, hx, hxid⟩ := hfk it hit
      simp only [decide_eq_true_eq, hid]
      intro hcon
      exact (hfresh x hx).1 (hxid.trans hcon)
    have hnew : new.filter (fun it => decide (it.OrderID = o.ID)) = new := by
      rw [List.filter_eq_self]
      intro it hit
      obtain ⟨x, -, hr⟩ := forall₂_right_mem _ _ _ hmat it hit
      simp only [decide_eq_true_eq, hid]
      exact hr.1
    rw [hold, hnew, List.nil_append]
  have htot : o.TotalAmount = new.foldl (fun acc it => Float64.add acc it.Subtotal) 0 := by
    rw [hoeq]
  refine ⟨o, new, ho, hi, hfilter, ?_, ?_⟩
  · rw [hfilter]
    exact htot
  · intro ns hns hsum
    rw [hfilter] at hns ⊢
    constructor
    · have hmap : new.map (fun it => it.Subtotal.toRat?) =
          (new.map (fun it => it.Subtotal)).map Float64.toRat? := by
        rw [List.map_map]
        rfl
      rw [hmap, hns, List.map_map]
      apply List.map_congr_left
      intro n hn
      exact toRat_ofNat n (le_trans (mem_le_sum ns n hn) hsum)
    · have hfold : new.foldl (fun acc it => Float64.add acc it.Subtotal) 0 =
          (new.map (fun it => it.Subtotal)).foldl Float64.add (Float64.ofNat 0) := by
        rw [List.foldl_map]
        rfl
      rw [htot, hfold, hns, foldl_add_ofNat ns 0 (by omega), Nat.zero_add]
      exact toRat_ofNat ns.sum hsum

/-- C1 (witness): the sample request on the sample store. -/
theorem Create_total_float_sum_witness :
    Sample.store.itemsReferenceOrders ∧
    (OrderHandler.Create Sample.store (some 7) (some Sample.request) 1 Sample.clock).2.code =
      StatusCreated ∧
    ∃ (o : Order) (new : List OrderItem),
      (OrderHandler.Create Sample.store (some 7) (some Sample.request) 1 Sample.clock).1.orders =
        Sample.store.orders ++ [o] ∧
      (OrderHandler.Create Sample.store (some 7) (some Sample.request) 1
        Sample.clock).1.order_items = Sample.store.order_items ++ new ∧
      (OrderHandler.Create Sample.store (some 7) (some Sample.request) 1
        Sample.clock).1.order_items.filter (fun it => decide (it.OrderID = o.ID)) = new ∧
      o.TotalAmount =
        ((OrderHandler.Create Sample.store (some 7) (some Sample.request) 1
          Sample.clock).1.order_items.filter (fun it => decide (it.OrderID = o.ID))).foldl
            (fun acc it => Float64.add acc it.Subtotal) 0 ∧
      ∀ ns : List Nat,
        ((OrderHandler.Create Sample.store (some 7) (some Sample.request) 1
          Sample.clock).1.order_items.filter
            (fun it => decide (it.OrderID = o.ID))).map (fun it => it.Subtotal) =
              ns.map Float64.ofNat →
        ns.sum ≤ 2 ^ 53 →
        ((OrderHandler.Create Sample.store (some 7) (some Sample.request) 1
          Sample.clock).1.order_items.filter
            (fun it => decide (it.OrderID = o.ID))).map (fun it => it.Subtotal.toRat?) =
              ns.map (fun n : Nat => some (n : ℚ)) ∧
        o.TotalAmount.toRat? = some ((ns.sum : Nat) : ℚ) :=
  ⟨by decide, by decide,
    Create_total_float_sum Sample.store (some 7) (some Sample.request) 1 Sample.clock
      (by decide) (by decide)⟩

/-- The scenario of the specification: two portions at 25000 and one at 5000
give an order whose item rows carry the subtotals 50000 and 5000 and whose
`total_amount` is 55000. -/
theorem Create_scenario_total :
    ∃ o, (OrderHandler.Create Sample.store (some 7) (some Sample.request) 1
        Sample.clock).1.orders = Sample.store.orders ++ [o] ∧
      o.QueueNumber = "K7-20240315-003" ∧ o.TotalAmount = 55000 ∧
      ((OrderHandler.Create Sample.store (some 7) (some Sample.request) 1
        Sample.clock).1.order_items.filter (fun it => decide (it.OrderID = o.ID))).map
          (fun it => it.Subtotal) = [50000, 5000].map Float64.ofNat :=
  ⟨⟨4, "K7-20240315-003", 7, "Dewi", StatusPending, 55000, none, none, none, none, none, "", 1,
    Sample.t1, Sample.t2, none⟩, by decide, rfl, rfl, by decide⟩

/-- C3: when some item of the request names a menu id with no live menu row, or a
menu whose `is_available` is false, `Create` answers with an error and the
`orders` and `order_items` tables are the ones of before the call. -/
theorem Create_rollback_on_invalid_item (st : Store) (idParam : Option Nat)
    (req : CreateOrderRequest) (userID : Nat) (clk : CreateClock)
    (item : CreateOrderItemRequest) (hmem : item ∈ req.Items)
    (hbad : st.firstMenu item.MenuID = none ∨
      ∃ m, st.firstMenu item.MenuID = some m ∧ m.IsAvailable = false) :
    (∃ code msg, (OrderHandler.Create st idParam (some req) userID clk).2 = .error code msg ∧
      (code = StatusBadRequest ∨ code = StatusInternalServerError)) ∧
    (OrderHandler.Create st idParam (some req) userID clk).1.orders = st.orders ∧
    (OrderHandler.Create st idParam (some req) userID clk).1.order_items = st.order_items := by
  have hne : (OrderHandler.Create st idParam (some req) userID clk).2.code ≠ StatusCreated := by
    intro h
    obtain ⟨kiosID, req1, o, new, -, hb, -, -, -, -, -, -, -, -, -, hmat⟩ :=
      Create_created st idParam (some req) userID clk h
    cases hb
    obtain ⟨it, -, -, -, -, -, m, hm, hav, -, -⟩ := forall₂_left_mem _ _ _ hmat item hmem
    rcases hbad with hnone | ⟨m1, hm1, hav1⟩
    · rw [hnone] at hm; cases hm
    · rw [hm1] at hm; cases hm; rw [hav] at hav1; cases hav1
  obtain ⟨herr, h1, h2, -, -, -⟩ := Create_failed st idParam (some req) userID clk hne
  exact ⟨herr, h1, h2⟩

/-- C3 (witness): the second item of the request is the unavailable menu 3. -/
theorem Create_rollback_on_invalid_item_witness :
    (⟨3, 1, ""⟩ : CreateOrderItemRequest) ∈ Sample.requestUnavailable.Items ∧
    (Sample.store.firstMenu 3 = none ∨
      ∃ m, Sample.store.firstMenu 3 = some m ∧ m.IsAvailable = false) ∧
    (∃ code msg, (OrderHandler.Create Sample.store (some 7) (some Sample.requestUnavailable) 1
        Sample.clock).2 = .error code msg ∧
      (code = StatusBadRequest ∨ code = StatusInternalServerError)) ∧
    (OrderHandler.Create Sample.store (some 7) (some Sample.requestUnavailable) 1
      Sample.clock).1.orders = Sample.store.orders ∧
    (OrderHandler.Create Sample.store (some 7) (some Sample.requestUnavailable) 1
      Sample.clock).1.order_items = Sample.store.order_items :=
  ⟨by decide, Or.inr ⟨Sample.sate, rfl, rfl⟩,
    Create_rollback_on_invalid_item Sample.store (some 7) Sample.requestUnavailable 1
      Sample.clock ⟨3, 1, ""⟩ (by decide) (Or.inr ⟨Sample.sate, rfl, rfl⟩)⟩

/-- C4 (counterexample): on the sample store with a menu priced at 1, the request
for `2 ^ 53 + 1` pieces is answered 201 and the item row carries the price `1`, the
quantity `2 ^ 53 + 1` and the subtotal `2 ^ 53`, which is not the price times the
quantity: the conversion of the quantity to `float64` is rounded. -/
theorem Create_subtotal_rounds_sample :
    (OrderHandler.Create Sample.storeKerupuk (some 7) (some Sample.requestBulkOdd) 1
      Sample.clock).2.code = StatusCreated ∧
    ((OrderHandler.Create Sample.storeKerupuk (some 7) (some Sample.requestBulkOdd) 1
      Sample.clock).1.order_items.filter (fun it => decide (it.OrderID = 4))).map
        (fun it => (it.Quantity, it.Price.toRat?, it.Subtotal.toRat?)) =
      [(9007199254740993, some 1, some 9007199254740992)] ∧
    (9007199254740992 : ℚ) ≠ 1 * 9007199254740993 := by
  have hrows : ((OrderHandler.Create Sample.storeKerupuk (some 7) (some Sample.requestBulkOdd) 1
      Sample.clock).1.order_items.filter (fun it => decide (it.OrderID = 4))).map
        (fun it => (it.Quantity, it.Price, it.Subtotal)) =
      [(9007199254740993, .finite false (2 ^ 52) (-52), .finite false (2 ^ 52) 1)] := by decide
  have h1 : (Float64.finite false (2 ^ 52) (-52)).toRat? = some 1 := by
    simp only [Float64.toRat?, signed]
    norm_num
  have h2 : (Float64.finite false (2 ^ 52) 1).toRat? = some 9007199254740992 := by
    simp only [Float64.toRat?, signed]
    norm_num
  refine ⟨by decide, ?_, by norm_num⟩
  have h3 := congrArg (List.map (fun r : Int × Float64 × Float64 =>
    (r.1, r.2.1.toRat?, r.2.2.toRat?))) hrows
  simp only [List.map_map, List.map_cons, List.map_nil, h1, h2] at h3
  exact h3

/-- C4 (amended): when `Create` answers 201, every item row it wrote belongs to the
new order, carries as `price` the price of the live menu row it references in the
store the call started from, and carries as `subtotal` the `float64` product of
that price and the quantity converted to `float64`.  When the price is a whole
number, the quantity is not negative, and price, quantity and their product are
at most `2 ^ 53`, nothing rounds and the subtotal stands for exactly the price
times the quantity. -/
theorem Create_items_snapshot_price (st : Store) (idParam : Option Nat)
    (body : Option CreateOrderRequest) (userID : Nat) (clk : CreateClock)
    (h : (OrderHandler.Create st idParam body userID clk).2.code = StatusCreated) :
    ∃ (o : Order) (new : List OrderItem),
      (OrderHandler.Create st idParam body userID clk).1.orders = st.orders ++ [o] ∧
      (OrderHandler.Create st idParam body userID clk).1.order_items = st.order_items ++ new ∧
      ∀ it ∈ new, it.OrderID = o.ID ∧
        (∃ m, st.firstMenu it.MenuID = some m ∧ it.Price = m.Price) ∧
        it.Subtotal = Float64.mul it.Price (Float64.ofInt it.Quantity) ∧
        ∀ p : Nat, it.Price = Float64.ofNat p → p ≤ 2 ^ 53 → 0 ≤ it.Quantity →
          it.Quantity ≤ 2 ^ 53 → (p : Int) * it.Quantity ≤ 2 ^ 53 →
          it.Price.toRat? = some (p : ℚ) ∧
          it.Subtotal.toRat? = some ((p : ℚ) * (it.Quantity : ℚ)) := by
  obtain ⟨kiosID, req, o, new, -, -, -, -, -, ho, hi, -, -, -, hoeq, hmat⟩ :=
    Create_created st idParam body userID clk h
  refine ⟨o, new, ho, hi, ?_⟩
  intro it hit
  obtain ⟨x, -, h1, h2, h3, -, m, hm, -, hp, hs⟩ := forall₂_right_mem _ _ _ hmat it hit
  have hsub : it.Subtotal = Float64.mul it.Price (Float64.ofInt it.Quantity) := by
    rw [hs, hp, h3]
  refine ⟨by rw [hoeq]; exact h1, ⟨m, by rw [h2]; exact hm, hp⟩, hsub, ?_⟩
  intro p hprice hp53 hq0 hq53 hprod
  obtain ⟨q, hq⟩ := Int.eq_ofNat_of_zero_le hq0
  have hq53n : q ≤ 2 ^ 53 := by rw [hq] at hq53; exact_mod_cast hq53
  have hprodn : p * q ≤ 2 ^ 53 := by rw [hq] at hprod; exact_mod_cast hprod
  refine ⟨by rw [hprice]; exact toRat_ofNat p hp53, ?_⟩
  rw [hsub, hprice, ofInt_of_nonneg _ hq0, hq, Int.toNat_ofNat, mul_ofNat p q hp53 hq53n hprodn,
    toRat_ofNat _ hprodn]
  push_cast
  rfl

/-- C4 (witness): the sample request on the sample store. -/
theorem Create_items_snapshot_price_witness :
    (OrderHandler.Create Sample.store (some 7) (some Sample.request) 1 Sample.clock).2.code =
      StatusCreated ∧
    ∃ (o : Order) (new : List OrderItem),
      (OrderHandler.Create Sample.store (some 7) (some Sample.request) 1 Sample.clock).1.orders =
        Sample.store.orders ++ [o] ∧
      (OrderHandler.Create Sample.store (some 7) (some Sample.request) 1
        Sample.clock).1.order_items = Sample.store.order_items ++ new ∧
      ∀ it ∈ new, it.OrderID = o.ID ∧
        (∃ m, Sample.store.firstMenu it.MenuID = some m ∧ it.Price = m.Price) ∧
        it.Subtotal = Float64.mul it.Price (Float64.ofInt it.Quantity) ∧
        ∀ p : Nat, it.Price = Float64.ofNat p → p ≤ 2 ^ 53 → 0 ≤ it.Quantity →
          it.Quantity ≤ 2 ^ 53 → (p : Int) * it.Quantity ≤ 2 ^ 53 →
          it.Price.toRat? = some (p : ℚ) ∧
          it.Subtotal.toRat? = some ((p : ℚ) * (it.Quantity : ℚ)) :=
  ⟨by decide,
    Create_items_snapshot_price Sample.store (some 7) (some Sample.request) 1 Sample.clock
      (by decide)⟩

/-- The item rows of the scenario of the specification: two portions at 25000
cost 50000 and one at 5000 costs 5000. -/
theorem Create_scenario_items :
    ((OrderHandler.Create Sample.store (some 7) (some Sample.request) 1
      Sample.clock).1.order_items.filter (fun it => decide (it.OrderID = 4))).map
        (fun it => (it.MenuID, it.Quantity, it.Price, it.Subtotal)) =
      [(1, 2, 25000, 50000), (2, 1, 5000, 5000)] := by
  decide

/-! ## Menu updates -/

/-- C5: `MenuHandler.Update` writes only the `menus` table: whatever the request
(a new price included) and whatever the outcome, the `orders` rows (with their
`total_amount`) and the `order_items` rows (with their `price` and `subtotal`)
are the same after the call as before it. -/
theorem MenuUpdate_preserves_orders (isURL : String → Bool) (st : Store)
    (idParam : Option Nat) (body : Option UpdateMenuRequest) (tSave : Time) :
    (MenuHandler.Update isURL st idParam body tSave).1.orders = st.orders ∧
    (MenuHandler.Update isURL st idParam body tSave).1.order_items = st.order_items := by
  cases idParam with
  | none => exact ⟨rfl, rfl⟩
  | some id =>
  cases body with
  | none => exact ⟨rfl, rfl⟩
  | some req =>
  by_cases hv : UpdateMenuRequest.valid isURL req = true
  swap
  · simp [MenuHandler.Update, ShouldBindJSON, hv]
  cases hm : st.firstMenu id with
  | none => simp [MenuHandler.Update, ShouldBindJSON, hv, hm]
  | some menu => simp [MenuHandler.Update, ShouldBindJSON, hv, hm, Store.saveMenu]

/-- A price change on the sample store: menu 2 goes from 5000 to 6000 while the
item rows that reference it still carry 5000. -/
theorem MenuUpdate_price_change_sample :
    (Sample.store.firstMenu 2).map (fun m => m.Price) = some 5000 ∧
    ((MenuHandler.Update (fun _ => true) Sample.store (some 2)
      (some ⟨"", "", some 6000, "", "", none⟩) Sample.t1).1.firstMenu 2).map
        (fun m => m.Price) = some 6000 ∧
    (MenuHandler.Update (fun _ => true) Sample.store (some 2)
      (some ⟨"", "", some 6000, "", "", none⟩) Sample.t1).1.order_items.map
        (fun it => (it.MenuID, it.Price)) = [(2, 5000), (2, 5000), (1, 25000)] := by
  have hv : UpdateMenuRequest.valid (fun _ => true) ⟨"", "", some 6000, "", "", none⟩ = true := by
    decide
  have hm : Sample.store.firstMenu 2 = some Sample.esTeh := rfl
  refine ⟨rfl, ?_, rfl⟩
  simp only [MenuHandler.Update, ShouldBindJSON, hv, hm, if_true]
  rfl

/-! ## Status updates -/

/-- C6 (counterexample): the completed sample order accepts a request for status
`pending`, a pair outside the transition rule of the specification; the call
answers 200 and the stored status becomes `pending`. -/
theorem UpdateStatus_completed_to_pending_sample :
    (Sample.store.firstOrder 1).map (fun o => o.Status) = some StatusCompleted ∧
    Spec.legalTransition StatusCompleted StatusPending = false ∧
    (OrderHandler.UpdateStatus Sample.store (some 1) (some ⟨StatusPending, none⟩)
      Sample.t1 Sample.t2).2.code = StatusOK ∧
    ((OrderHandler.UpdateStatus Sample.store (some 1) (some ⟨StatusPending, none⟩)
      Sample.t1 Sample.t2).1.firstOrder 1).map (fun o => o.Status) = some StatusPending := by
  decide

/-- C6 (amended): for an existing order, whatever its current status,
`UpdateStatus` answers 200 exactly when the body binds, that is when the
requested status is one of the six status names and the payment method is absent
or one of cash, card, digital; it then stores the requested status.  A call that
does not answer 200 leaves the store as it was. -/
theorem UpdateStatus_succeeds_iff_binds (st : Store) (id : Nat)
    (body : Option UpdateOrderStatusRequest) (now tSave : Time) (o : Order)
    (ho : st.firstOrder id = some o) :
    ((OrderHandler.UpdateStatus st (some id) body now tSave).2.code = StatusOK ↔
      ∃ req, body = some req ∧
        req.Status ∈ [StatusPending, StatusPaid, StatusPreparing, StatusReady,
          StatusCompleted, StatusCancelled] ∧
        (req.PaymentMethod = none ∨
          ∃ m, req.PaymentMethod = some m ∧ m ∈ [PaymentCash, PaymentCard, PaymentDigital])) ∧
    ((OrderHandler.UpdateStatus st (some id) body now tSave).2.code = StatusOK →
      ∃ req, body = some req ∧
        ((OrderHandler.UpdateStatus st (some id) body now tSave).1.firstOrder id).map
          (fun x => x.Status) = some req.Status) ∧
    ((OrderHandler.UpdateStatus st (some id) body now tSave).2.code ≠ StatusOK →
      (OrderHandler.UpdateStatus st (some id) body now tSave).1 = st) := by
  refine ⟨⟨?_, ?_⟩, ?_, UpdateStatus_rejected st (some id) body now tSave⟩
  · intro hok
    cases body with
    | none => exact absurd hok (UpdateStatus_none_code st id now tSave)
    | some req =>
      have hv := UpdateStatus_ok_valid st id req now tSave hok
      exact ⟨req, rfl, (valid_iff req).mp hv⟩
  · rintro ⟨req, rfl, hreq⟩
    exact (UpdateStatus_ok st id req now tSave o ((valid_iff req).mpr hreq) ho).1
  · intro hok
    cases body with
    | none => exact absurd hok (UpdateStatus_none_code st id now tSave)
    | some req =>
      have hv := UpdateStatus_ok_valid st id req now tSave hok
      refine ⟨req, rfl, ?_⟩
      rw [(UpdateStatus_ok st id req now tSave o hv ho).2.2]
      simp only [Option.map_some', (applyStatus_ID o req now).2.2]

/-- C6 (witness): the completed sample order and a request for `pending`. -/
theorem UpdateStatus_succeeds_iff_binds_witness :
    Sample.store.firstOrder 1 = some Sample.orderCompleted ∧
    (OrderHandler.UpdateStatus Sample.store (some 1) (some ⟨StatusPending, none⟩)
      Sample.t1 Sample.t2).2.code = StatusOK ∧
    ∃ req, some (⟨StatusPending, none⟩ : UpdateOrderStatusRequest) = some req ∧
      ((OrderHandler.UpdateStatus Sample.store (some 1) (some ⟨StatusPending, none⟩)
        Sample.t1 Sample.t2).1.firstOrder 1).map (fun x => x.Status) = some req.Status :=
  ⟨rfl, by decide,
    (UpdateStatus_succeeds_iff_binds Sample.store 1 (some ⟨StatusPending, none⟩)
      Sample.t1 Sample.t2 Sample.orderCompleted rfl).2.1 (by decide)⟩

/-- C7 (counterexample): the sample order 3 was paid at `t0`; a second request
with status `paid`, handled at `t1`, is accepted and `paid_at` then holds `t1`. -/
theorem UpdateStatus_overwrites_paid_at_sample :
    (Sample.store.firstOrder 3).map (fun o => o.PaidAt) = some (some Sample.t0) ∧
    (OrderHandler.UpdateStatus Sample.store (some 3) (some ⟨StatusPaid, some PaymentCard⟩)
      Sample.t1 Sample.t2).2.code = StatusOK ∧
    ((OrderHandler.UpdateStatus Sample.store (some 3) (some ⟨StatusPaid, some PaymentCard⟩)
      Sample.t1 Sample.t2).1.firstOrder 3).map (fun o => o.PaidAt) = some (some Sample.t1) ∧
    Sample.t0 ≠ Sample.t1 := by
  decide

/-- C7 (amended): over any run of `UpdateStatus` calls addressed to one order,
`paid_at` keeps its value when no request of the run binds with status `paid`,
`prepared_at` when none binds with `preparing`, `ready_at` when none binds with
`ready`, and `completed_at` when none binds with `completed`. -/
theorem UpdateStatusRun_keeps_timestamps (st : Store) (id : Nat)
    (reqs : List (Option UpdateOrderStatusRequest × Time × Time)) :
    (noRequestWithStatus StatusPaid reqs →
      ((OrderHandler.UpdateStatusRun st id reqs).firstOrder id).map (fun o => o.PaidAt) =
        (st.firstOrder id).map (fun o => o.PaidAt)) ∧
    (noRequestWithStatus StatusPreparing reqs →
      ((OrderHandler.UpdateStatusRun st id reqs).firstOrder id).map (fun o => o.PreparedAt) =
        (st.firstOrder id).map (fun o => o.PreparedAt)) ∧
    (noRequestWithStatus StatusReady reqs →
      ((OrderHandler.UpdateStatusRun st id reqs).firstOrder id).map (fun o => o.ReadyAt) =
        (st.firstOrder id).map (fun o => o.ReadyAt)) ∧
    (noRequestWithStatus StatusCompleted reqs →
      ((OrderHandler.UpdateStatusRun st id reqs).firstOrder id).map (fun o => o.CompletedAt) =
        (st.firstOrder id).map (fun o => o.CompletedAt)) := by
  refine ⟨?_, ?_, ?_, ?_⟩
  · exact UpdateStatusRun_keeps id StatusPaid (fun o => o.PaidAt)
      (fun o req now _ h => ((applyStatus_keeps o req now).1 h).1) reqs st
  · exact UpdateStatusRun_keeps id StatusPreparing (fun o => o.PreparedAt)
      (fun o req now _ h => (applyStatus_keeps o req now).2.1 h) reqs st
  · exact UpdateStatusRun_keeps id StatusReady (fun o => o.ReadyAt)
      (fun o req now _ h => (applyStatus_keeps o req now).2.2.1 h) reqs st
  · exact UpdateStatusRun_keeps id StatusCompleted (fun o => o.CompletedAt)
      (fun o req now _ h => (applyStatus_keeps o req now).2.2.2 h) reqs st

/-- C7 (witness): the paid sample order goes through `preparing`, `ready`, an
undecodable body and a request for `paid` that fails validation (unknown payment
method); `paid_at` is still `t0` afterwards. -/
theorem UpdateStatusRun_keeps_timestamps_witness :
    noRequestWithStatus StatusPaid
      [(some ⟨StatusPreparing, none⟩, Sample.t1, Sample.t1),
       (some ⟨StatusReady, none⟩, Sample.t2, Sample.t2), (none, Sample.t2, Sample.t2),
       (some ⟨StatusPaid, some "voucher"⟩, Sample.t2, Sample.t2)] ∧
    ((OrderHandler.UpdateStatusRun Sample.store 3
      [(some ⟨StatusPreparing, none⟩, Sample.t1, Sample.t1),
       (some ⟨StatusReady, none⟩, Sample.t2, Sample.t2), (none, Sample.t2, Sample.t2),
       (some ⟨StatusPaid, some "voucher"⟩, Sample.t2, Sample.t2)]).firstOrder 3).map (fun o => o.PaidAt) =
      (Sample.store.firstOrder 3).map (fun o => o.PaidAt) ∧
    (Sample.store.firstOrder 3).map (fun o => o.PaidAt) = some (some Sample.t0) :=
  ⟨by decide,
    (UpdateStatusRun_keeps_timestamps Sample.store 3
      [(some ⟨StatusPreparing, none⟩, Sample.t1, Sample.t1),
       (some ⟨StatusReady, none⟩, Sample.t2, Sample.t2), (none, Sample.t2, Sample.t2),
       (some ⟨StatusPaid, some "voucher"⟩, Sample.t2, Sample.t2)]).1 (by decide),
    by decide⟩

/-- C8 (counterexample): a request with status `paid` and no payment method on
the pending sample order answers 200; the stored order then has status `paid`,
`paid_at = t1` and no payment method. -/
theorem UpdateStatus_paid_without_method_sample :
    (Sample.store.firstOrder 2).map (fun o => (o.Status, o.PaidAt, o.PaymentMethod)) =
      some (StatusPending, none, none) ∧
    (OrderHandler.UpdateStatus Sample.store (some 2) (some ⟨StatusPaid, none⟩)
      Sample.t1 Sample.t2).2.code = StatusOK ∧
    ((OrderHandler.UpdateStatus Sample.store (some 2) (some ⟨StatusPaid, none⟩)
      Sample.t1 Sample.t2).1.firstOrder 2).map
        (fun o => (o.Status, o.PaidAt, o.PaymentMethod)) =
      some (StatusPaid, some Sample.t1, none) := by
  decide

/-- C8 (amended): for every existing order, a request with status `paid` and no
payment method is accepted: the call answers 200 and the stored order gets status
`paid`, `paid_at = now` and an empty payment method (and the write time as
`updated_at`), every other column keeping its value. -/
theorem UpdateStatus_paid_without_method (st : Store) (id : Nat) (now tSave : Time)
    (o : Order) (ho : st.firstOrder id = some o) :
    (OrderHandler.UpdateStatus st (some id) (some ⟨StatusPaid, none⟩) now tSave).2.code =
      StatusOK ∧
    (OrderHandler.UpdateStatus st (some id) (some ⟨StatusPaid, none⟩) now tSave).1.firstOrder id =
      some { o with Status := StatusPaid, PaidAt := some now, PaymentMethod := none,
                    UpdatedAt := tSave } := by
  have h := UpdateStatus_ok st id ⟨StatusPaid, none⟩ now tSave o (by decide) ho
  exact ⟨h.1, h.2.2⟩

/-- C8 (witness): the pending sample order. -/
theorem UpdateStatus_paid_without_method_witness :
    Sample.store.firstOrder 2 = some Sample.orderPending ∧
    (OrderHandler.UpdateStatus Sample.store (some 2) (some ⟨StatusPaid, none⟩)
      Sample.t1 Sample.t2).2.code = StatusOK ∧
    (OrderHandler.UpdateStatus Sample.store (some 2) (some ⟨StatusPaid, none⟩)
      Sample.t1 Sample.t2).1.firstOrder 2 =
      some { Sample.orderPending with Status := StatusPaid, PaidAt := some Sample.t1,
                                      PaymentMethod := none, UpdatedAt := Sample.t2 } :=
  ⟨rfl, UpdateStatus_paid_without_method Sample.store 2 Sample.t1 Sample.t2
    Sample.orderPending rfl⟩

/-- C9: when `UpdateStatus` answers 200 for an existing order, the stored order
is the previous one with the requested status and the write time as `updated_at`
and, for `paid`, `paid_at = now` and the payment method of the request; for
`preparing`, `prepared_at = now`; for `ready`, `ready_at = now`; for `completed`,
`completed_at = now`.  Every other column, the three other lifecycle timestamps
included, keeps its value. -/
theorem UpdateStatus_sets_timestamp (st : Store) (id : Nat) (req : UpdateOrderStatusRequest)
    (now tSave : Time) (o : Order) (ho : st.firstOrder id = some o)
    (hok : (OrderHandler.UpdateStatus st (some id) (some req) now tSave).2.code = StatusOK) :
    (req.Status = StatusPaid →
      (OrderHandler.UpdateStatus st (some id) (some req) now tSave).1.firstOrder id =
        some { o with Status := StatusPaid, PaidAt := some now,
                      PaymentMethod := req.PaymentMethod, UpdatedAt := tSave }) ∧
    (req.Status = StatusPreparing →
      (OrderHandler.UpdateStatus st (some id) (some req) now tSave).1.firstOrder id =
        some { o with Status := StatusPreparing, PreparedAt := some now, UpdatedAt := tSave }) ∧
    (req.Status = StatusReady →
      (OrderHandler.UpdateStatus st (some id) (some req) now tSave).1.firstOrder id =
        some { o with Status := StatusReady, ReadyAt := some now, UpdatedAt := tSave }) ∧
    (req.Status = StatusCompleted →
      (OrderHandler.UpdateStatus st (some id) (some req) now tSave).1.firstOrder id =
        some { o with Status := StatusCompleted, CompletedAt := some now,
                      UpdatedAt := tSave }) := by
  have hv := UpdateStatus_ok_valid st id req now tSave hok
  rw [(UpdateStatus_ok st id req now tSave o hv ho).2.2]
  obtain ⟨s, pm⟩ := req
  refine ⟨?_, ?_, ?_, ?_⟩ <;> intro hs <;> simp only at hs <;> subst hs <;> rfl

/-- C9 (witness): the pending sample order is paid by card at `t1`. -/
theorem UpdateStatus_sets_timestamp_witness :
    Sample.store.firstOrder 2 = some Sample.orderPending ∧
    (OrderHandler.UpdateStatus Sample.store (some 2) (some ⟨StatusPaid, some PaymentCard⟩)
      Sample.t1 Sample.t2).2.code = StatusOK ∧
    (OrderHandler.UpdateStatus Sample.store (some 2) (some ⟨StatusPaid, some PaymentCard⟩)
      Sample.t1 Sample.t2).1.firstOrder 2 =
      some { Sample.orderPending with Status := StatusPaid, PaidAt := some Sample.t1,
                                      PaymentMethod := some PaymentCard,
                                      UpdatedAt := Sample.t2 } :=
  ⟨rfl, by decide,
    (UpdateStatus_sets_timestamp Sample.store 2 ⟨StatusPaid, some PaymentCard⟩ Sample.t1
      Sample.t2 Sample.orderPending rfl (by decide)).1 rfl⟩

/-- C10: when `UpdateStatus` answers 200 to a request with status `cancelled`,
the stored order is the previous one with status `cancelled` (and the write time
as `updated_at`): `paid_at`, `prepared_at`, `ready_at`, `completed_at` and
`payment_method` are the ones of before the call. -/
theorem UpdateStatus_cancelled_frame (st : Store) (id : Nat) (req : UpdateOrderStatusRequest)
    (now tSave : Time) (o : Order) (ho : st.firstOrder id = some o)
    (hok : (OrderHandler.UpdateStatus st (some id) (some req) now tSave).2.code = StatusOK)
    (hc : req.Status = StatusCancelled) :
    ∃ o1, (OrderHandler.UpdateStatus st (some id) (some req) now tSave).1.firstOrder id =
        some o1 ∧
      o1 = { o with Status := StatusCancelled, UpdatedAt := tSave } ∧
      o1.Status = StatusCancelled ∧ o1.PaidAt = o.PaidAt ∧ o1.PreparedAt = o.PreparedAt ∧
      o1.ReadyAt = o.ReadyAt ∧ o1.CompletedAt = o.CompletedAt ∧
      o1.PaymentMethod = o.PaymentMethod := by
  have hv := UpdateStatus_ok_valid st id req now tSave hok
  rw [(UpdateStatus_ok st id req now tSave o hv ho).2.2]
  obtain ⟨s, pm⟩ := req
  simp only at hc
  subst hc
  exact ⟨_, rfl, rfl, rfl, rfl, rfl, rfl, rfl, rfl⟩

/-- C10 (witness): the paid sample order is cancelled. -/
theorem UpdateStatus_cancelled_frame_witness :
    Sample.store.firstOrder 3 = some Sample.orderPaid ∧
    (OrderHandler.UpdateStatus Sample.store (some 3) (some ⟨StatusCancelled, none⟩)
      Sample.t1 Sample.t2).2.code = StatusOK ∧
    ∃ o1, (OrderHandler.UpdateStatus Sample.store (some 3) (some ⟨StatusCancelled, none⟩)
        Sample.t1 Sample.t2).1.firstOrder 3 = some o1 ∧
      o1 = { Sample.orderPaid with Status := StatusCancelled, UpdatedAt := Sample.t2 } ∧
      o1.Status = StatusCancelled ∧ o1.PaidAt = Sample.orderPaid.PaidAt ∧
      o1.PreparedAt = Sample.orderPaid.PreparedAt ∧ o1.ReadyAt = Sample.orderPaid.ReadyAt ∧
      o1.CompletedAt = Sample.orderPaid.CompletedAt ∧
      o1.PaymentMethod = Sample.orderPaid.PaymentMethod :=
  ⟨rfl, by decide,
    UpdateStatus_cancelled_frame Sample.store 3 ⟨StatusCancelled, none⟩ Sample.t1 Sample.t2
      Sample.orderPaid rfl (by decide) rfl⟩

/-! ## The active queue -/

/-- C11: for every store and vendor id `v`, `GetQueue` answers 200 with the
responses of a list of rows that is a rearrangement of the live orders of vendor
`v` whose status is paid, preparing or ready (each such order once, no other
one), in ascending order of `created_at`. -/
theorem GetQueue_active_sorted (st : Store) (v : Nat) :
    ∃ rows : List Order,
      OrderHandler.GetQueue st (some v) =
        .data StatusOK (rows.map (fun o => Order.ToResponse (st.preload o))) ∧
      rows.Perm (st.orders.filter (fun o => decide (o.KiosID = v) &&
        decide (o.Status ∈ [StatusPaid, StatusPreparing, StatusReady]) &&
        o.DeletedAt.isNone)) ∧
      (∀ o, o ∈ rows ↔ o ∈ st.orders ∧ o.DeletedAt = none ∧ o.KiosID = v ∧
        (o.Status = StatusPaid ∨ o.Status = StatusPreparing ∨ o.Status = StatusReady)) ∧
      rows.Sorted (fun a b => a.CreatedAt ≤ b.CreatedAt) := by
  obtain ⟨hperm, hsorted⟩ := orderByCreatedAtAsc_spec (st.findOrders (fun o =>
    decide (o.KiosID = v) && decide (o.Status ∈ [StatusPaid, StatusPreparing, StatusReady])))
  refine ⟨_, rfl, hperm, ?_, hsorted⟩
  intro o
  rw [hperm.mem_iff]
  simp only [Store.findOrders, List.mem_filter, Bool.and_eq_true, decide_eq_true_eq,
    Option.isNone_iff_eq_none, List.mem_cons, List.mem_singleton, List.not_mem_nil, or_false]
  tauto

/-- The active queue of vendor 7 on a sample store: the order created the day
before comes first, the pending and completed orders and the order of vendor 9
are left out. -/
theorem GetQueue_sample :
    ∃ resp, OrderHandler.GetQueue Sample.storeQueue (some 7) = .data StatusOK resp ∧
      resp.map (fun r => (r.ID, r.Status)) = [(4, StatusReady), (3, StatusPaid)] :=
  ⟨_, rfl, by decide⟩

/-! ## Vendor check and request validation in `Create` -/

/-- C12 (counterexample): the only vendor of this sample store has its active
flag false, and the sample request for it is still answered 201, with one more
order row in the store. -/
theorem Create_inactive_kios_sample :
    (Sample.storeInactive.firstKios 7).map (fun k => k.IsActive) = some false ∧
    (OrderHandler.Create Sample.storeInactive (some 7) (some Sample.request) 1
      Sample.clock).2.code = StatusCreated ∧
    (OrderHandler.Create Sample.storeInactive (some 7) (some Sample.request) 1
      Sample.clock).1.orders.length = Sample.storeInactive.orders.length + 1 := by
  decide

/-- C12 (amended): for a request that binds, `Create` answers 400 with the error
`Kios not found` exactly when the vendor id has no live row, whatever the active
flag of an existing row; and when the vendor has no live row the store is left as
it was. -/
theorem Create_kios_not_found_iff (st : Store) (kiosID : Nat) (req : CreateOrderRequest)
    (userID : Nat) (clk : CreateClock) (hv : req.valid = true) :
    ((OrderHandler.Create st (some kiosID) (some req) userID clk).2 =
        .error StatusBadRequest "Kios not found" ↔ st.firstKios kiosID = none) ∧
    (st.firstKios kiosID = none →
      (OrderHandler.Create st (some kiosID) (some req) userID clk).1 = st) := by
  have hnone : st.firstKios kiosID = none →
      OrderHandler.Create st (some kiosID) (some req) userID clk =
        (st, .error StatusBadRequest "Kios not found") := by
    intro hk
    simp only [OrderHandler.Create, OrderHandler.CreateFrom, ShouldBindJSON, hv, if_true, hk]
  refine ⟨⟨?_, fun hk => by rw [hnone hk]⟩, fun hk => by rw [hnone hk]⟩
  intro h
  cases hk : st.firstKios kiosID with
  | none => rfl
  | some k => exact absurd h (Create_not_kios_not_found st kiosID req userID clk k hv hk)

/-- C12 (witness): vendor 8 has no row in the sample store. -/
theorem Create_kios_not_found_iff_witness :
    Sample.request.valid = true ∧ Sample.store.firstKios 8 = none ∧
    (OrderHandler.Create Sample.store (some 8) (some Sample.request) 1 Sample.clock).2 =
      .error StatusBadRequest "Kios not found" ∧
    (OrderHandler.Create Sample.store (some 8) (some Sample.request) 1 Sample.clock).1 =
      Sample.store :=
  ⟨by decide, rfl,
    (Create_kios_not_found_iff Sample.store 8 Sample.request 1 Sample.clock (by decide)).1.mpr rfl,
    (Create_kios_not_found_iff Sample.store 8 Sample.request 1 Sample.clock (by decide)).2 rfl⟩

/-- A request without items does not bind: `Create` answers 400 and leaves the
store as it was. -/
theorem Create_empty_items_rejected (st : Store) (idParam : Option Nat)
    (req : CreateOrderRequest) (userID : Nat) (clk : CreateClock) (hreq : req.Items = []) :
    (OrderHandler.Create st idParam (some req) userID clk).2.code = StatusBadRequest ∧
    (OrderHandler.Create st idParam (some req) userID clk).1 = st := by
  have hv : req.valid = false := by
    simp [CreateOrderRequest.valid, hreq]
  cases idParam with
  | none => exact ⟨rfl, rfl⟩
  | some kiosID =>
    simp only [OrderHandler.Create, OrderHandler.CreateFrom, ShouldBindJSON, hv]
    exact ⟨rfl, rfl⟩

/-- C13 (the code at the failing input): a request whose only item has quantity 0
binds; on the sample store `Create` answers 201 and writes an order row and an
item row with quantity 0. -/
theorem Create_zero_quantity_sample :
    Sample.requestZeroQuantity.valid = true ∧
    (OrderHandler.Create Sample.store (some 7) (some Sample.requestZeroQuantity) 1
      Sample.clock).2.code = StatusCreated ∧
    (OrderHandler.Create Sample.store (some 7) (some Sample.requestZeroQuantity) 1
      Sample.clock).1.orders.length = Sample.store.orders.length + 1 ∧
    ((OrderHandler.Create Sample.store (some 7) (some Sample.requestZeroQuantity) 1
      Sample.clock).1.order_items.filter (fun it => decide (it.OrderID = 4))).map
        (fun it => (it.MenuID, it.Quantity)) = [(1, 0)] := by
  decide

/-! ## Large sequence numbers and a failing count query -/

/-- C16: when the count query answers `n` with `n + 1 > 999`, the ticket ends
with the plain decimal form of `n + 1`, which has four or more digits; it is not
the three-character form of `(n + 1) % 1000`.  The same holds for
`generateQueueNumber` on every store whose count is `n`. -/
theorem generateQueueNumber_no_truncation (kiosID : Nat) (tFormat : Time) (n : Nat)
    (h : 999 < n + 1) :
    OrderHandler.generateQueueNumberFrom kiosID tFormat (some n) =
      ("K" ++ Nat.repr kiosID ++ "-" ++ tFormat.Format20060102 ++ "-" ++ Nat.repr (n + 1),
        none) ∧
    4 ≤ (Nat.repr (n + 1)).length ∧
    Nat.repr (n + 1) ≠ fmt03d ((n + 1) % 1000) ∧
    (∀ (st : Store) (tQuery : Time), st.countOrdersOn kiosID tQuery = n →
      OrderHandler.generateQueueNumber st kiosID tFormat tQuery =
        ("K" ++ Nat.repr kiosID ++ "-" ++ tFormat.Format20060102 ++ "-" ++ Nat.repr (n + 1),
          none)) := by
  have hlen : 4 ≤ (Nat.repr (n + 1)).length := repr_length_lower 3 (n + 1) (by omega)
  have hpad : fmt03d (n + 1) = Nat.repr (n + 1) := by
    unfold fmt03d zeroPad
    have h0 : 3 - (Nat.repr (n + 1)).length = 0 := by omega
    rw [h0]
    apply String.ext
    simp
  have hfrom : OrderHandler.generateQueueNumberFrom kiosID tFormat (some n) =
      ("K" ++ Nat.repr kiosID ++ "-" ++ tFormat.Format20060102 ++ "-" ++ Nat.repr (n + 1),
        none) := by
    simp only [OrderHandler.generateQueueNumberFrom, queueNumberFormat, fmtD, hpad]
  refine ⟨hfrom, hlen, ?_, ?_⟩
  · intro hcon
    have h3 : (fmt03d ((n + 1) % 1000)).length = 3 := by
      have hle : (Nat.repr ((n + 1) % 1000)).length ≤ 3 :=
        Nat.repr_length _ 3 (by decide) (Nat.mod_lt _ (by decide))
      unfold fmt03d zeroPad
      rw [String.length_append, String.length_mk, List.length_replicate]
      omega
    rw [hcon, h3] at hlen
    omega
  · intro st tQuery hst
    unfold OrderHandler.generateQueueNumber
    rw [hst]
    exact hfrom

/-- C16 (witness): the thousandth order of vendor 7 on 2024-03-15. -/
theorem generateQueueNumber_no_truncation_witness :
    999 < 999 + 1 ∧
    OrderHandler.generateQueueNumberFrom 7 Sample.t1 (some 999) =
      ("K7-20240315-1000", none) ∧
    OrderHandler.generateQueueNumberFrom 7 Sample.t1 (some 999) =
      ("K" ++ Nat.repr 7 ++ "-" ++ Sample.t1.Format20060102 ++ "-" ++ Nat.repr (999 + 1),
        none) :=
  ⟨by decide, by decide, (generateQueueNumber_no_truncation 7 Sample.t1 999 (by decide)).1⟩

/-- C17 (the code at the failing input): when the count query fails the
allocator still returns a ticket, numbered 001, and no error; on a day without
orders `Create` then answers 201 and stores an order with that ticket. -/
theorem generateQueueNumber_count_failure_sample :
    OrderHandler.generateQueueNumberFrom 7 Sample.tomorrow none =
      ("K7-20240316-001", none) ∧
    (OrderHandler.CreateFrom (fun _ _ => none) Sample.store (some 7) (some Sample.request) 1
      Sample.clockTomorrow).2.code = StatusCreated ∧
    (OrderHandler.CreateFrom (fun _ _ => none) Sample.store (some 7) (some Sample.request) 1
      Sample.clockTomorrow).1.orders.map (fun o => o.QueueNumber) =
      Sample.store.orders.map (fun o => o.QueueNumber) ++ ["K7-20240316-001"] := by
  decide

/-- The error of `generateQueueNumber` is `nil` whatever the count query did, so
the branch of `Create` that answers `Failed to generate queue number` is never
taken. -/
theorem generateQueueNumberFrom_error_nil (kiosID : Nat) (tFormat : Time)
    (countQuery : Option Nat) :
    (OrderHandler.generateQueueNumberFrom kiosID tFormat countQuery).2 = none ∧
    (OrderHandler.generateQueueNumberFrom kiosID tFormat none).1 =
      queueNumberFormat kiosID tFormat.Format20060102 0 :=
  ⟨rfl, rfl⟩

/-! ## Missing orders, the shape of a created order, the frame of a status update -/

/-- C18: when the order id has no live row, a request that binds is answered 404
with the error `Order not found`; whatever the body, the call does not answer 200
and the store is left as it was. -/
theorem UpdateStatus_not_found (st : Store) (id : Nat) (now tSave : Time)
    (hnone : st.firstOrder id = none) :
    (∀ req : UpdateOrderStatusRequest, req.valid = true →
      OrderHandler.UpdateStatus st (some id) (some req) now tSave =
        (st, .error StatusNotFound "Order not found")) ∧
    (∀ body, (OrderHandler.UpdateStatus st (some id) body now tSave).1 = st ∧
      ((OrderHandler.UpdateStatus st (some id) body now tSave).2.code = StatusNotFound ∨
       (OrderHandler.UpdateStatus st (some id) body now tSave).2.code = StatusBadRequest)) := by
  have h404 : ∀ req : UpdateOrderStatusRequest, req.valid = true →
      OrderHandler.UpdateStatus st (some id) (some req) now tSave =
        (st, .error StatusNotFound "Order not found") := by
    intro req hv
    simp only [OrderHandler.UpdateStatus, ShouldBindJSON, hv, if_true, hnone]
  refine ⟨h404, ?_⟩
  intro body
  cases body with
  | none => exact ⟨rfl, Or.inr rfl⟩
  | some req =>
    by_cases hv : req.valid = true
    · rw [h404 req hv]
      exact ⟨rfl, Or.inl rfl⟩
    · rw [Bool.not_eq_true] at hv
      rw [UpdateStatus_invalid st id (some req) now tSave (fun r hr => by cases hr; exact hv)]
      exact ⟨rfl, Or.inr rfl⟩

/-- C18 (witness): order 99 does not exist in the sample store. -/
theorem UpdateStatus_not_found_witness :
    Sample.store.firstOrder 99 = none ∧
    OrderHandler.UpdateStatus Sample.store (some 99) (some ⟨StatusPaid, some PaymentCash⟩)
      Sample.t1 Sample.t2 = (Sample.store, .error StatusNotFound "Order not found") :=
  ⟨rfl, (UpdateStatus_not_found Sample.store 99 Sample.t1 Sample.t2 rfl).1
    ⟨StatusPaid, some PaymentCash⟩ (by decide)⟩

/-- C19: when `Create` answers 201 on a store whose item rows all reference an
order row, one order row is added, with status `pending`, the vendor id of the
URL, the caller as `created_by`, no payment and no lifecycle timestamp; the item
rows stored under its id are as many as the requested items and repeat their menu
ids, quantities and notes in request order. -/
theorem Create_order_shape (st : Store) (idParam : Option Nat)
    (body : Option CreateOrderRequest) (userID : Nat) (clk : CreateClock)
    (hfk : st.itemsReferenceOrders)
    (h : (OrderHandler.Create st idParam body userID clk).2.code = StatusCreated) :
    ∃ (kiosID : Nat) (req : CreateOrderRequest) (o : Order) (items : List OrderItem),
      idParam = some kiosID ∧ body = some req ∧
      (OrderHandler.Create st idParam body userID clk).1.orders = st.orders ++ [o] ∧
      o.Status = StatusPending ∧ o.KiosID = kiosID ∧ o.CreatedBy = userID ∧
      o.PaymentMethod = none ∧ o.PaidAt = none ∧ o.PreparedAt = none ∧ o.ReadyAt = none ∧
      o.CompletedAt = none ∧
      (OrderHandler.Create st idParam body userID clk).1.order_items.filter
        (fun it => decide (it.OrderID = o.ID)) = items ∧
      items.length = req.Items.length ∧
      items.map (fun it => (it.MenuID, it.Quantity, it.Notes)) =
        req.Items.map (fun i => (i.MenuID, i.Quantity, i.Notes)) := by
  obtain ⟨kiosID, req, o, new, hid, hb, -, -, hfresh, ho, hi, -, -, -, hoeq, hmat⟩ :=
    Create_created st idParam body userID clk h
  obtain ⟨hmap, hlen, hoid⟩ := forall₂_materialized_map _ _ _ _ hmat
  have hoID : o.ID = st.orders_id_seq + 1 := by rw [hoeq]
  refine ⟨kiosID, req, o, new, hid, hb, ho, by rw [hoeq], by rw [hoeq], by rw [hoeq],
    by rw [hoeq], by rw [hoeq], by rw [hoeq], by rw [hoeq], by rw [hoeq], ?_, hlen, hmap⟩
  rw [hi, hoID]
  exact filter_items_fresh st _ new hfk (fun x hx => (hfresh x hx).1) hoid

/-- C19 (witness): the sample request, placed by user 1 for vendor 7. -/
theorem Create_order_shape_witness :
    Sample.store.itemsReferenceOrders ∧
    (OrderHandler.Create Sample.store (some 7) (some Sample.request) 1 Sample.clock).2.code =
      StatusCreated ∧
    ∃ (kiosID : Nat) (req : CreateOrderRequest) (o : Order) (items : List OrderItem),
      some 7 = some kiosID ∧ some Sample.request = some req ∧
      (OrderHandler.Create Sample.store (some 7) (some Sample.request) 1 Sample.clock).1.orders =
        Sample.store.orders ++ [o] ∧
      o.Status = StatusPending ∧ o.KiosID = kiosID ∧ o.CreatedBy = 1 ∧
      o.PaymentMethod = none ∧ o.PaidAt = none ∧ o.PreparedAt = none ∧ o.ReadyAt = none ∧
      o.CompletedAt = none ∧
      (OrderHandler.Create Sample.store (some 7) (some Sample.request) 1
        Sample.clock).1.order_items.filter (fun it => decide (it.OrderID = o.ID)) = items ∧
      items.length = req.Items.length ∧
      items.map (fun it => (it.MenuID, it.Quantity, it.Notes)) =
        req.Items.map (fun i => (i.MenuID, i.Quantity, i.Notes)) :=
  ⟨by decide, by decide,
    Create_order_shape Sample.store (some 7) (some Sample.request) 1 Sample.clock
      (by decide) (by decide)⟩

/-- C20: for an existing order and any `UpdateStatus` call addressed to it,
accepted or not, the order is still there afterwards with the same id, queue
number, total amount, vendor, creator, customer name, notes and creation time;
the `order_items` table is the same; and the rows of every other order id are
the same, in the same places. -/
theorem UpdateStatus_frame (st : Store) (id : Nat) (body : Option UpdateOrderStatusRequest)
    (now tSave : Time) (o : Order) (ho : st.firstOrder id = some o) :
    (∃ o1, (OrderHandler.UpdateStatus st (some id) body now tSave).1.firstOrder id = some o1 ∧
      o1.ID = o.ID ∧ o1.QueueNumber = o.QueueNumber ∧ o1.TotalAmount = o.TotalAmount ∧
      o1.KiosID = o.KiosID ∧ o1.CreatedBy = o.CreatedBy ∧ o1.CustomerName = o.CustomerName ∧
      o1.Notes = o.Notes ∧ o1.CreatedAt = o.CreatedAt) ∧
    (OrderHandler.UpdateStatus st (some id) body now tSave).1.order_items = st.order_items ∧
    (OrderHandler.UpdateStatus st (some id) body now tSave).1.orders.length =
      st.orders.length ∧
    (OrderHandler.UpdateStatus st (some id) body now tSave).1.orders.filter
        (fun x => decide (x.ID ≠ id)) = st.orders.filter (fun x => decide (x.ID ≠ id)) ∧
    (∀ id1, id1 ≠ id →
      (OrderHandler.UpdateStatus st (some id) body now tSave).1.firstOrder id1 =
        st.firstOrder id1) := by
  by_cases hok : (OrderHandler.UpdateStatus st (some id) body now tSave).2.code = StatusOK
  · cases body with
    | none => exact absurd hok (UpdateStatus_none_code st id now tSave)
    | some req =>
      have hv := UpdateStatus_ok_valid st id req now tSave hok
      obtain ⟨-, hst, hfirst⟩ := UpdateStatus_ok st id req now tSave o hv ho
      obtain ⟨hq, ht, hk, hc, hn, hno, hca⟩ := applyStatus_frame o req now
      have hidA : (OrderHandler.applyStatus o req now).ID = id :=
        (applyStatus_ID o req now).1.trans (firstOrder_some st id o ho).1
      obtain ⟨h1, h2, h3, h4⟩ := saveOrder_others st (OrderHandler.applyStatus o req now) tSave
      rw [hidA] at h3 h4
      refine ⟨⟨_, hfirst, (applyStatus_ID o req now).1, hq, ht, hk, hc, hn, hno, hca⟩, ?_, ?_,
        ?_, ?_⟩
      · rw [hst]; exact h1
      · rw [hst]; exact h2
      · rw [hst]; exact h3
      · rw [hst]; exact h4
  · rw [UpdateStatus_rejected st (some id) body now tSave hok]
    exact ⟨⟨o, ho, rfl, rfl, rfl, rfl, rfl, rfl, rfl, rfl⟩, rfl, rfl, rfl, fun _ _ => rfl⟩

/-- C20 (witness): the paid sample order is moved to `preparing`. -/
theorem UpdateStatus_frame_witness :
    Sample.store.firstOrder 3 = some Sample.orderPaid ∧
    (OrderHandler.UpdateStatus Sample.store (some 3) (some ⟨StatusPreparing, none⟩)
      Sample.t1 Sample.t2).2.code = StatusOK ∧
    (OrderHandler.UpdateStatus Sample.store (some 3) (some ⟨StatusPreparing, none⟩)
      Sample.t1 Sample.t2).1.order_items = Sample.store.order_items ∧
    (OrderHandler.UpdateStatus Sample.store (some 3) (some ⟨StatusPreparing, none⟩)
      Sample.t1 Sample.t2).1.orders.filter (fun x => decide (x.ID ≠ 3)) =
      Sample.store.orders.filter (fun x => decide (x.ID ≠ 3)) :=
  ⟨rfl, by decide,
    (UpdateStatus_frame Sample.store 3 (some ⟨StatusPreparing, none⟩) Sample.t1 Sample.t2
      Sample.orderPaid rfl).2.1,
    (UpdateStatus_frame Sample.store 3 (some ⟨StatusPreparing, none⟩) Sample.t1 Sample.t2
      Sample.orderPaid rfl).2.2.2.1⟩

/-! ## Tickets over a run of creations -/

/-- C14: take a run of `Create` calls for one vendor, made one after another with
every clock read on the same calendar date, from a store that has no live order
of that vendor on that date.  The run appends one order per call that answered
201, all of that vendor, and the k-th appended order carries the ticket with
sequence number k: `K{vendor}-{date}-` followed by k zero-padded to three
characters, for k = 1, 2, ... without gap or repetition. -/
theorem CreateRun_sequence_numbers (st : Store) (k : Nat) (today : Time)
    (calls : List (Option CreateOrderRequest × Nat × CreateClock))
    (h0 : st.countOrdersOn k today = 0) (hday : callsOnDay today calls) :
    ∃ created : List Order,
      (OrderHandler.CreateRun st k calls).1.orders = st.orders ++ created ∧
      created.length =
        ((OrderHandler.CreateRun st k calls).2.filter
          (fun r => decide (r.code = StatusCreated))).length ∧
      created.map (fun o => o.QueueNumber) =
        (List.range created.length).map
          (fun i => "K" ++ fmtD k ++ "-" ++ today.Format20060102 ++ "-" ++ fmt03d (i + 1)) ∧
      (∀ o ∈ created, o.KiosID = k) := by
  obtain ⟨created, h1, h2, h3, h4⟩ := CreateRun_tickets k today calls st hday
  refine ⟨created, h1, h2, ?_, h4⟩
  rw [h3, h0]
  apply List.map_congr_left
  intro i _
  simp only [queueNumberFormat, Nat.zero_add]

/-- C14 (witness): three calls for vendor 7 on 2024-03-16, a date without orders
in the sample store; the second call names an unavailable menu and creates
nothing. -/
theorem CreateRun_sequence_numbers_witness :
    Sample.store.countOrdersOn 7 Sample.tomorrow = 0 ∧
    callsOnDay Sample.tomorrow
      [(some Sample.request, 1, Sample.clockTomorrow),
       (some Sample.requestUnavailable, 1, Sample.clockTomorrow),
       (some Sample.request, 1, Sample.clockTomorrowLater)] ∧
    ∃ created : List Order,
      (OrderHandler.CreateRun Sample.store 7
        [(some Sample.request, 1, Sample.clockTomorrow),
         (some Sample.requestUnavailable, 1, Sample.clockTomorrow),
         (some Sample.request, 1, Sample.clockTomorrowLater)]).1.orders =
        Sample.store.orders ++ created ∧
      created.length =
        ((OrderHandler.CreateRun Sample.store 7
          [(some Sample.request, 1, Sample.clockTomorrow),
           (some Sample.requestUnavailable, 1, Sample.clockTomorrow),
           (some Sample.request, 1, Sample.clockTomorrowLater)]).2.filter
            (fun r => decide (r.code = StatusCreated))).length ∧
      created.map (fun o => o.QueueNumber) =
        (List.range created.length).map
          (fun i => "K" ++ fmtD 7 ++ "-" ++ Sample.tomorrow.Format20060102 ++ "-" ++
            fmt03d (i + 1)) ∧
      (∀ o ∈ created, o.KiosID = 7) :=
  ⟨by decide, by decide,
    CreateRun_sequence_numbers Sample.store 7 Sample.tomorrow
      [(some Sample.request, 1, Sample.clockTomorrow),
       (some Sample.requestUnavailable, 1, Sample.clockTomorrow),
       (some Sample.request, 1, Sample.clockTomorrowLater)] (by decide) (by decide)⟩

/-- The same run, evaluated: the answers are 201, 400, 201 and the two new orders
carry the tickets 001 and 002 of 2024-03-16. -/
theorem CreateRun_sample :
    (OrderHandler.CreateRun Sample.store 7
      [(some Sample.request, 1, Sample.clockTomorrow),
       (some Sample.requestUnavailable, 1, Sample.clockTomorrow),
       (some Sample.request, 1, Sample.clockTomorrowLater)]).2.map (fun r => r.code) =
      [201, 400, 201] ∧
    ((OrderHandler.CreateRun Sample.store 7
      [(some Sample.request, 1, Sample.clockTomorrow),
       (some Sample.requestUnavailable, 1, Sample.clockTomorrow),
       (some Sample.request, 1, Sample.clockTomorrowLater)]).1.orders.drop 3).map
        (fun o => o.QueueNumber) = ["K7-20240316-001", "K7-20240316-002"] := by
  decide

/-- The unique index at work: a `Create` call keeps the queue numbers of the
`orders` table pairwise different. -/
theorem Create_keeps_tickets_distinct (st : Store) (idParam : Option Nat)
    (body : Option CreateOrderRequest) (userID : Nat) (clk : CreateClock)
    (hst : (st.orders.map (fun o => o.QueueNumber)).Nodup) :
    ((OrderHandler.Create st idParam body userID clk).1.orders.map
      (fun o => o.QueueNumber)).Nodup := by
  by_cases h : (OrderHandler.Create st idParam body userID clk).2.code = StatusCreated
  · obtain ⟨kiosID, req, o, new, -, -, -, -, hfresh, ho, -, -, -, -, -, -⟩ :=
      Create_created st idParam body userID clk h
    rw [ho, List.map_append, List.nodup_append]
    refine ⟨hst, by simp, ?_⟩
    intro a ha hb
    simp only [List.map_cons, List.map_nil, List.mem_singleton] at hb
    obtain ⟨x, hx, hxa⟩ := List.mem_map.mp ha
    exact (hfresh x hx).2 (hxa.trans hb)
  · rw [(Create_failed st idParam body userID clk h).2.1]
    exact hst

/-! ## Order listings -/

/-- C21: when the date filter is absent or is text the database reads as a date,
`GetByKios` answers 200 with the responses of a list of rows that is a
rearrangement of the live orders of vendor `v` that pass every supplied filter
(status equal to the status filter, creation date equal to the date of the date
filter), newest first; `GetAll` does the same over the live orders of all
vendors. -/
theorem listings_filtered_sorted (dateIn : String → Option String) (st : Store) (v : Nat)
    (status date : String) (hdate : date = "" ∨ ∃ day, dateIn date = some day) :
    (∃ rows : List Order,
      OrderHandler.GetByKios dateIn st (some v) status date =
        .data StatusOK (rows.map (fun o => Order.ToResponse (st.preload o))) ∧
      rows.Perm (st.orders.filter (fun o => decide (o.KiosID = v) &&
        decide (matchesFilters dateIn status date o) && o.DeletedAt.isNone)) ∧
      (∀ o, o ∈ rows ↔ o ∈ st.orders ∧ o.DeletedAt = none ∧ o.KiosID = v ∧
        matchesFilters dateIn status date o) ∧
      rows.Sorted (fun a b => b.CreatedAt ≤ a.CreatedAt)) ∧
    (∃ rows : List Order,
      OrderHandler.GetAll dateIn st status date =
        .data StatusOK (rows.map (fun o => Order.ToResponse (st.preload o))) ∧
      rows.Perm (st.orders.filter (fun o =>
        decide (matchesFilters dateIn status date o) && o.DeletedAt.isNone)) ∧
      (∀ o, o ∈ rows ↔ o ∈ st.orders ∧ o.DeletedAt = none ∧
        matchesFilters dateIn status date o) ∧
      rows.Sorted (fun a b => b.CreatedAt ≤ a.CreatedAt)) := by
  constructor
  · obtain ⟨rows, hl, hperm, hsorted⟩ :=
      listOrders_spec dateIn st (fun o => decide (o.KiosID = v)) status date hdate
    refine ⟨rows, ?_, hperm, ?_, hsorted⟩
    · simp only [OrderHandler.GetByKios, hl]
    · intro o
      rw [hperm.mem_iff]
      simp only [List.mem_filter, Bool.and_eq_true, decide_eq_true_eq,
        Option.isNone_iff_eq_none]
      tauto
  · obtain ⟨rows, hl, hperm, hsorted⟩ :=
      listOrders_spec dateIn st (fun _ => true) status date hdate
    simp only [Bool.true_and] at hperm
    refine ⟨rows, ?_, hperm, ?_, hsorted⟩
    · simp only [OrderHandler.GetAll, hl]
    · intro o
      rw [hperm.mem_iff]
      simp only [List.mem_filter, Bool.and_eq_true, decide_eq_true_eq,
        Option.isNone_iff_eq_none]
      tauto

/-- C21 (witness): the orders of vendor 7 with status `paid` created on
2024-03-15, with a database that reads every text as the date it spells. -/
theorem listings_filtered_sorted_witness :
    ("2024-03-15" = "" ∨ ∃ day, (fun s : String => some s) "2024-03-15" = some day) ∧
    ∃ rows : List Order,
      OrderHandler.GetByKios (fun s => some s) Sample.storeQueue (some 7) StatusPaid
        "2024-03-15" =
        .data StatusOK (rows.map (fun o => Order.ToResponse (Sample.storeQueue.preload o))) ∧
      (∀ o, o ∈ rows ↔ o ∈ Sample.storeQueue.orders ∧ o.DeletedAt = none ∧ o.KiosID = 7 ∧
        matchesFilters (fun s => some s) StatusPaid "2024-03-15" o) ∧
      rows.Sorted (fun a b => b.CreatedAt ≤ a.CreatedAt) :=
  ⟨Or.inr ⟨_, rfl⟩,
    (listings_filtered_sorted (fun s => some s) Sample.storeQueue 7 StatusPaid "2024-03-15"
      (Or.inr ⟨_, rfl⟩)).1.elim
      (fun rows h => ⟨rows, h.1, h.2.2.1, h.2.2.2⟩)⟩

/-- The listings on a sample store: vendor 7 without filters, newest first; all
vendors with the status filter `paid`; vendor 7 with a date filter. -/
theorem listings_sample :
    (∃ resp, OrderHandler.GetByKios (fun s => some s) Sample.storeQueue (some 7) "" "" =
        .data StatusOK resp ∧ resp.map (fun r => r.ID) = [2, 3, 1, 4]) ∧
    (∃ resp, OrderHandler.GetAll (fun s => some s) Sample.storeQueue StatusPaid "" =
        .data StatusOK resp ∧ resp.map (fun r => r.ID) = [3, 5]) ∧
    (∃ resp, OrderHandler.GetByKios (fun s => some s) Sample.storeQueue (some 7) ""
        "2024-03-14" = .data StatusOK resp ∧ resp.map (fun r => r.ID) = [1, 4]) :=
  ⟨⟨_, rfl, by decide⟩, ⟨_, rfl, by decide⟩, ⟨_, rfl, by decide⟩⟩

/-- A date filter that the database does not read as a date makes the query
fail: both listings answer 500. -/
theorem listings_unreadable_date (dateIn : String → Option String) (st : Store) (v : Nat)
    (status date : String) (hne : date ≠ "") (hbad : dateIn date = none) :
    OrderHandler.GetByKios dateIn st (some v) status date =
      .error StatusInternalServerError "Failed to fetch orders" ∧
    OrderHandler.GetAll dateIn st status date =
      .error StatusInternalServerError "Failed to fetch orders" := by
  simp [OrderHandler.GetByKios, OrderHandler.GetAll, Store.listOrders, hne, hbad]

/-! ## The response shape -/

/-- C22: for every loaded order, `ToResponse` gives the vendor's name as
`kios_name` and the creator's full name as `creator_name`, copies id, queue
number, vendor id, customer name, status, total, payment method, the four
lifecycle timestamps, notes, creator id and the two bookkeeping times, and lists
one entry per loaded item, in the same order, each with that item's id, menu id,
menu name, quantity, price, subtotal and notes. -/
theorem ToResponse_fields (o : LoadedOrder) :
    (Order.ToResponse o).KiosName = o.Kios.Name ∧
    (Order.ToResponse o).CreatorName = o.Creator.FullName ∧
    (Order.ToResponse o).ID = o.row.ID ∧
    (Order.ToResponse o).QueueNumber = o.row.QueueNumber ∧
    (Order.ToResponse o).KiosID = o.row.KiosID ∧
    (Order.ToResponse o).CustomerName = o.row.CustomerName ∧
    (Order.ToResponse o).Status = o.row.Status ∧
    (Order.ToResponse o).TotalAmount = o.row.TotalAmount ∧
    (Order.ToResponse o).PaymentMethod = o.row.PaymentMethod ∧
    (Order.ToResponse o).PaidAt = o.row.PaidAt ∧
    (Order.ToResponse o).PreparedAt = o.row.PreparedAt ∧
    (Order.ToResponse o).ReadyAt = o.row.ReadyAt ∧
    (Order.ToResponse o).CompletedAt = o.row.CompletedAt ∧
    (Order.ToResponse o).Notes = o.row.Notes ∧
    (Order.ToResponse o).CreatedBy = o.row.CreatedBy ∧
    (Order.ToResponse o).CreatedAt = o.row.CreatedAt ∧
    (Order.ToResponse o).UpdatedAt = o.row.UpdatedAt ∧
    (Order.ToResponse o).OrderItems.length = o.OrderItems.length ∧
    ∀ (i : Nat) (item : LoadedOrderItem), o.OrderItems[i]? = some item →
      ∃ r, (Order.ToResponse o).OrderItems[i]? = some r ∧
        r.ID = item.row.ID ∧ r.MenuID = item.row.MenuID ∧ r.MenuName = item.Menu.Name ∧
        r.Quantity = item.row.Quantity ∧ r.Price = item.row.Price ∧
        r.Subtotal = item.row.Subtotal ∧ r.Notes = item.row.Notes := by
  refine ⟨rfl, rfl, rfl, rfl, rfl, rfl, rfl, rfl, rfl, rfl, rfl, rfl, rfl, rfl, rfl, rfl, rfl,
    ?_, ?_⟩
  · simp [Order.ToResponse]
  · intro i item hi
    refine ⟨⟨item.row.ID, item.row.MenuID, item.Menu.Name, item.row.Quantity, item.row.Price,
      item.row.Subtotal, item.row.Notes⟩, ?_, rfl, rfl, rfl, rfl, rfl, rfl, rfl⟩
    simp [Order.ToResponse, hi]

/-- The names in a response built from the store: the name of the live vendor
row of the order and the full name of the live user row of its creator. -/
theorem ToResponse_preload_names (st : Store) (o : Order) (k : Kios) (u : User)
    (hk : st.firstKios o.KiosID = some k) (hu : st.firstUser o.CreatedBy = some u) :
    (Order.ToResponse (st.preload o)).KiosName = k.Name ∧
    (Order.ToResponse (st.preload o)).CreatorName = u.FullName := by
  simp [Order.ToResponse, Store.preload, hk, hu]

/-! ## The unenforced state machine -/

/-- C23: for every existing order, whatever its status, and every requested
status among pending, paid, preparing, ready, completed and cancelled (with the
payment method absent or one of cash, card, digital), `UpdateStatus` answers 200
and the stored status afterwards is the requested one. -/
theorem UpdateStatus_any_pair (st : Store) (id : Nat) (o : Order) (t : OrderStatus)
    (pm : Option PaymentMethod) (now tSave : Time) (ho : st.firstOrder id = some o)
    (ht : t ∈ [StatusPending, StatusPaid, StatusPreparing, StatusReady, StatusCompleted,
      StatusCancelled])
    (hpm : pm = none ∨ ∃ m, pm = some m ∧ m ∈ [PaymentCash, PaymentCard, PaymentDigital]) :
    (OrderHandler.UpdateStatus st (some id) (some ⟨t, pm⟩) now tSave).2.code = StatusOK ∧
    ((OrderHandler.UpdateStatus st (some id) (some ⟨t, pm⟩) now tSave).1.firstOrder id).map
      (fun x => x.Status) = some t := by
  have hv : (⟨t, pm⟩ : UpdateOrderStatusRequest).valid = true :=
    (valid_iff ⟨t, pm⟩).mpr ⟨ht, hpm⟩
  obtain ⟨hcode, -, hfirst⟩ := UpdateStatus_ok st id ⟨t, pm⟩ now tSave o hv ho
  refine ⟨hcode, ?_⟩
  rw [hfirst]
  simp only [Option.map_some', (applyStatus_ID o ⟨t, pm⟩ now).2.2]

/-- C23 (witness): the completed sample order is sent back to `preparing`. -/
theorem UpdateStatus_any_pair_witness :
    Sample.store.firstOrder 1 = some Sample.orderCompleted ∧
    Sample.orderCompleted.Status = StatusCompleted ∧
    (OrderHandler.UpdateStatus Sample.store (some 1) (some ⟨StatusPreparing, none⟩)
      Sample.t1 Sample.t2).2.code = StatusOK ∧
    ((OrderHandler.UpdateStatus Sample.store (some 1) (some ⟨StatusPreparing, none⟩)
      Sample.t1 Sample.t2).1.firstOrder 1).map (fun x => x.Status) = some StatusPreparing :=
  ⟨rfl, rfl,
    UpdateStatus_any_pair Sample.store 1 Sample.orderCompleted StatusPreparing none Sample.t1
      Sample.t2 rfl (by decide) (Or.inl rfl)⟩

/-! ## Menus of another vendor -/

/-- C25: `Create` does not compare the vendor of a menu with the vendor of the
order.  On a sample store with vendors 7 and 9, a request to vendor 7 for menu
4, an available menu of vendor 9, is answered 201, and the item row stored for
the new order references menu 4. -/
theorem Create_accepts_menu_of_other_kios :
    ∃ (st : Store) (kiosA : Nat) (req : CreateOrderRequest) (userID : Nat) (clk : CreateClock)
      (m : Menu),
      st.firstMenu m.ID = some m ∧ m.IsAvailable = true ∧ m.KiosID ≠ kiosA ∧
      (OrderHandler.Create st (some kiosA) (some req) userID clk).2.code = StatusCreated ∧
      ((OrderHandler.Create st (some kiosA) (some req) userID clk).1.orders.drop
        st.orders.length).map (fun o => (o.ID, o.KiosID)) = [(st.orders_id_seq + 1, kiosA)] ∧
      ((OrderHandler.Create st (some kiosA) (some req) userID clk).1.order_items.drop
        st.order_items.length).map (fun it => (it.OrderID, it.MenuID)) =
        [(st.orders_id_seq + 1, m.ID)] :=
  ⟨Sample.storeTwoKios, 7, Sample.requestOtherKios, 1, Sample.clock,
    ⟨4, 9, "Kopi Susu", "", 12000, "drink", "", true, Sample.yesterday, Sample.yesterday, none⟩,
    rfl, rfl, by decide, by decide, by decide, by decide⟩

/-! ## Access of kios users -/

/-- C26: a user with role `kios` assigned to kios `k` who asks for the path
parameter `kios_id` equal to the decimal numeral of `k` is answered 403 with
`Access denied to this kios`, because the parameter is compared with
`string(rune(k))`, which is never that numeral; a user with role `cashier` is let
through whatever the context value and the parameter are. -/
theorem RequireKiosAccess_denies_own_kios (k : Nat) (requestedKiosID : String)
    (hreq : requestedKiosID = Nat.repr k) :
    requestedKiosID ≠ "" ∧
    stringOfRune (runeOfUint k) ≠ requestedKiosID ∧
    AuthMiddleware.RequireKiosAccess RoleKios (some (.ptr (some k))) requestedKiosID =
      .abort StatusForbidden "Access denied to this kios" ∧
    (∀ (userKiosID : Option KiosIDValue) (param : String),
      AuthMiddleware.RequireKiosAccess RoleCashier userKiosID param = .next) := by
  subst hreq
  have hne : Nat.repr k ≠ "" := repr_ne_empty k
  have hrune : stringOfRune (runeOfUint k) ≠ Nat.repr k := stringOfRune_ne_repr k
  refine ⟨hne, hrune, ?_, ?_⟩
  · have hrole : ¬ RoleKios = RoleCashier := by decide
    have hrune1 : ¬ Nat.repr k = stringOfRune (runeOfUint k) := fun h => hrune h.symm
    simp only [AuthMiddleware.RequireKiosAccess, hrole, if_false, if_true, ne_eq, hne,
      not_false_eq_true, hrune1]
  · intro userKiosID param
    simp only [AuthMiddleware.RequireKiosAccess, if_true]

/-- C26 (witness): the user of kios 7 asking for kios `7`. -/
theorem RequireKiosAccess_denies_own_kios_witness :
    ("7" : String) = Nat.repr 7 ∧
    AuthMiddleware.RequireKiosAccess RoleKios (some (.ptr (some 7))) "7" =
      .abort StatusForbidden "Access denied to this kios" :=
  ⟨rfl, (RequireKiosAccess_denies_own_kios 7 "7" rfl).2.2.1⟩

/-- The comparison at work on small numbers: the user of kios 55 is let through
to kios `7`, since `string(rune(55))` is the character `7`, and is denied kios
`55`; a kios user whose `kios_id` is a nil pointer runs into a nil dereference
as soon as the route has the parameter. -/
theorem RequireKiosAccess_sample :
    stringOfRune (runeOfUint 55) = "7" ∧
    AuthMiddleware.RequireKiosAccess RoleKios (some (.ptr (some 55))) "7" = .next ∧
    AuthMiddleware.RequireKiosAccess RoleKios (some (.ptr (some 55))) "55" =
      .abort StatusForbidden "Access denied to this kios" ∧
    AuthMiddleware.RequireKiosAccess RoleKios (some (.ptr none)) "7" = .nilDereference ∧
    AuthMiddleware.RequireKiosAccess RoleKios (some (.ptr (some 7))) "" = .next := by
  decide

/-! ## Tickets can be read back -/

/-- C24: the ticket format is injective.  For vendor ids `k1`, `k2`, date strings
`d1`, `d2` of eight characters and counts `n1`, `n2`, the tickets
`K{k1}-{d1}-{n1 + 1}` and `K{k2}-{d2}-{n2 + 1}` produced by the `Sprintf` of
`generateQueueNumber` are equal only if `k1 = k2`, `d1 = d2` and `n1 = n2`. -/
theorem queueNumber_injective (k1 k2 : Nat) (d1 d2 : String) (n1 n2 : Nat)
    (hd1 : d1.length = 8) (hd2 : d2.length = 8)
    (h : queueNumberFormat k1 d1 n1 = queueNumberFormat k2 d2 n2) :
    k1 = k2 ∧ d1 = d2 ∧ n1 = n2 := by
  have hdata := congrArg String.data h
  rw [queueNumberFormat_data, queueNumberFormat_data] at hdata
  simp only [List.cons.injEq, true_and] at hdata
  obtain ⟨hk, hrest⟩ := append_sep_inj '-' _ _ _ _ (toDigits_no_hyphen k1)
    (toDigits_no_hyphen k2) hdata
  have hlen : d1.data.length = d2.data.length := by
    have e1 : d1.data.length = 8 := hd1
    have e2 : d2.data.length = 8 := hd2
    rw [e1, e2]
  obtain ⟨hd, hseq⟩ := List.append_inj hrest hlen
  simp only [List.cons.injEq, true_and] at hseq
  have hk' := congrArg decodeDigits hk
  rw [decodeDigits_toDigits, decodeDigits_toDigits] at hk'
  have hn := congrArg decodeDigits hseq
  rw [decodeDigits_zeros, decodeDigits_zeros, decodeDigits_toDigits,
    decodeDigits_toDigits] at hn
  exact ⟨hk', String.ext hd, by omega⟩

/-- C24 (witness): the ticket of vendor 7 for the third order of 2024-03-15. -/
theorem queueNumber_injective_witness :
    ("20240315" : String).length = 8 ∧
    queueNumberFormat 7 "20240315" 2 = queueNumberFormat 7 "20240315" 2 ∧
    (7 = 7 ∧ ("20240315" : String) = "20240315" ∧ 2 = 2) :=
  ⟨rfl, rfl, queueNumber_injective 7 7 "20240315" "20240315" 2 2 rfl rfl rfl⟩

/-- Different counts give different tickets: a sample with counts 2 and 12. -/
theorem queueNumber_sample :
    queueNumberFormat 7 "20240315" 2 = "K7-20240315-003" ∧
    queueNumberFormat 7 "20240315" 12 = "K7-20240315-013" ∧
    queueNumberFormat 71 "20240315" 2 = "K71-20240315-003" := by
  decide

end FoodCourt
